import Mathlib

/-!
# CmykBlackConverter: rich black to flat black

A shallow embedding of `CmykBlackConverter.cpp` (class
`CCmykBlackConverterImplementation`) and proofs about it.

Conventions of the embedding.

* Objects that the C++ code handles through reference-counted pointers
  (`IDOMColorPtr`, `IDOMBrushPtr`, `IDOMImagePtr`) are values that carry the
  address of the object in a field `addr`.  A pointer comparison
  `p != q` of the source is the comparison of the two `addr` fields.
* `EDL::clone` and the other creation functions of the library allocate a new
  object.  Allocation is explicit: every function that may allocate takes the
  next free address `next` and returns the next free address after it.
* `throwEDLError` is the `error` case of `Except`.
* Machine integers are natural numbers, reduced modulo `2 ^ w` where the
  source can overflow a `w`-bit variable.  A scanline buffer
  (`CEDLSimpleBuffer`) is a list of bytes.
* A load outside a buffer gives 0 and a store outside a buffer leaves it as it
  is (in C++ both are undefined); for a frame whose rows hold no padding every
  access of the loops is inside the buffers of the properties proved here.
  The loop counters are `uint32` in the source and natural numbers here: rows
  are taken to be shorter than `2 ^ 32` bytes, so that a counter does not wrap.
* A 16-bit sample is read through `uint16*` in the byte order of the machine;
  the embedding fixes little endian.  The source only compares such a sample
  with 0 and 0xFFFF and only stores 0 through such a pointer, which is the same
  in either byte order.
* Library behaviour that the repository does not define (the bit scaler
  filter, the row size of a new raster) is a field of `IJawsMako`, the library
  instance that the converter holds in `m_jawsMako`.
-/

set_option autoImplicit false

namespace CmykBlackConverter

/-! ## Floating point values -/

/-- Value of a C++ `float` or `double`.  The converter only compares such values
with the constants `0.0f` and `1.0f`, so a finite value is kept as the rational
number it denotes (`-0.0` and `+0.0` are both `finite 0`, and they compare equal in
C++ as well). -/
inductive FloatVal where
  | finite (q : ℚ)
  | infinity (negative : Bool)
  | nan
  deriving DecidableEq

namespace FloatVal

/-- The C++ operator `a != b` on floating point values: a NaN differs from
everything, itself included. -/
def ne (a b : FloatVal) : Bool :=
  match a, b with
  | nan, _ => true
  | _, nan => true
  | x, y => decide (x ≠ y)

/-- The C++ operator `a == b` on floating point values. -/
def eq (a b : FloatVal) : Bool :=
  match a, b with
  | nan, _ => false
  | _, nan => false
  | x, y => decide (x = y)

/-- The constant `0.0f`. -/
def zero : FloatVal := finite 0

/-- The constant `1.0f`. -/
def one : FloatVal := finite 1

end FloatVal

/-! ## Colour spaces and colours -/

/-- `IDOMColorSpaceDeviceN::CColorantInfo`: a named colorant and its components in
the alternate space. -/
structure CColorantInfo where
  name : String
  components : List FloatVal
  deriving DecidableEq

/-- `IDOMColorSpace`: the kinds of colour space the converter tells apart. -/
inductive IDOMColorSpace where
  | DeviceCMYK
  | DeviceN (colorants : List CColorantInfo) (alternate : IDOMColorSpace)
  | Other (kind : Nat) (numComponents : Nat)
  deriving DecidableEq

namespace IDOMColorSpace

/-- `edlobj2IDOMColorSpaceDeviceCMYK(cs)` is a non-null pointer. -/
def isDeviceCMYK : IDOMColorSpace → Bool
  | DeviceCMYK => true
  | _ => false

/-- `IDOMColorSpace::getNumComponents`. -/
def getNumComponents : IDOMColorSpace → Nat
  | DeviceCMYK => 4
  | DeviceN colorants _ => colorants.length
  | Other _ n => n

end IDOMColorSpace

/-- `IDOMColor`: an object at address `addr` with a colour space, an opacity and the
component values. -/
structure IDOMColor where
  addr : Nat
  colorSpace : IDOMColorSpace
  opacity : FloatVal
  components : List FloatVal
  deriving DecidableEq

namespace IDOMColor

/-- `IDOMColor::getColorSpace`. -/
def getColorSpace (c : IDOMColor) : IDOMColorSpace := c.colorSpace

/-- `IDOMColor::getComponentValue(index)`. -/
def getComponentValue (c : IDOMColor) (index : Nat) : FloatVal :=
  c.components.getD index FloatVal.zero

/-- `IDOMColor::createSolidCmyk(jawsMako, c, m, y, k)`, the new object being at
`addr`. -/
def createSolidCmyk (addr : Nat) (c m y k : FloatVal) : IDOMColor :=
  { addr := addr, colorSpace := IDOMColorSpace.DeviceCMYK, opacity := FloatVal.one,
    components := [c, m, y, k] }

/-- `IDOMColor::create(jawsMako, space, opacity, value)` for a space of one
component, the new object being at `addr`. -/
def create (addr : Nat) (space : IDOMColorSpace) (opacity value : FloatVal) : IDOMColor :=
  { addr := addr, colorSpace := space, opacity := opacity, components := [value] }

end IDOMColor

/-! ## Images -/

/-- `eImageExtraChannelType`: no extra channel, or an extra channel of some kind. -/
inductive eImageExtraChannelType where
  | eIECNone
  | eIECOther (kind : Nat)
  deriving DecidableEq

/-- `IImageFrame`: the descriptor of a raster and its rows of raw bytes. -/
structure IImageFrame where
  colorSpace : IDOMColorSpace
  bps : Nat
  width : Nat
  height : Nat
  xResolution : FloatVal
  yResolution : FloatVal
  extraChannelType : eImageExtraChannelType
  rawBytesPerRow : Nat
  scanLines : List (List Nat)
  deriving DecidableEq

/-- `IDOMImage`: an object at address `addr`; `getImageFrame` gives a reader
positioned at the first row of `frame`. -/
structure IDOMImage where
  addr : Nat
  frame : IImageFrame
  deriving DecidableEq

/-- `IJawsMako`: the library instance.  It carries the behaviour of the library that
the converter relies on and the repository does not define. -/
structure IJawsMako where
  /-- Frame of `IDOMFilteredImage::create(jawsMako, image, scaler)` for a scaler
  `IDOMImageBitScalerFilter::create(jawsMako, bps)`, from the frame of `image`. -/
  bitScaler : Nat → IImageFrame → IImageFrame
  /-- Bytes per row of a raster made by `IDOMRawImage::createWriterAndImage`, from
  its colour space, width, bits per sample and extra channel type. -/
  rasterBytesPerRow : IDOMColorSpace → Nat → Nat → eImageExtraChannelType → Nat

/-- `IError` as raised by `throwEDLError(JM_ERR_GENERAL, message)`. -/
inductive EDLError where
  | JM_ERR_GENERAL (message : String)
  deriving DecidableEq

/-! ## The converter -/

/-- The members of `CCmykBlackConverterImplementation`. -/
structure CCmykBlackConverterImplementation where
  m_jawsMako : IJawsMako
  m_useDeviceN : Bool
  m_doNotApplyOverprint : Bool
  m_flatBlackColorSpace : IDOMColorSpace
  m_flatBlack : IDOMColor

/-- `makeNewDeviceNColorSpace(spotColorName, cmykValues)`: a DeviceN space with one
colorant, whose alternate space is Device CMYK. -/
def makeNewDeviceNColorSpace (spotColorName : String) (cmykValues : List FloatVal) :
    IDOMColorSpace :=
  let colorant : CColorantInfo :=
    { name := spotColorName,
      components := [cmykValues.getD 0 FloatVal.zero, cmykValues.getD 1 FloatVal.zero,
        cmykValues.getD 2 FloatVal.zero, cmykValues.getD 3 FloatVal.zero] }
  IDOMColorSpace.DeviceN [colorant] IDOMColorSpace.DeviceCMYK

/-- `makeNewDeviceNColor(deviceNSpace, opacity, inkValue)`, the new object being at
`addr`. -/
def makeNewDeviceNColor (addr : Nat) (deviceNSpace : IDOMColorSpace)
    (opacity inkValue : FloatVal) : IDOMColor :=
  IDOMColor.create addr deviceNSpace opacity inkValue

/-- The constructor of `CCmykBlackConverterImplementation`; `addr` is the address at
which the shared flat-black colour is allocated. -/
def CCmykBlackConverterImplementation.new (jawsMako : IJawsMako)
    (useDeviceN doNotApplyOverprint : Bool) (addr : Nat) :
    CCmykBlackConverterImplementation :=
  if useDeviceN then
    let deviceNColorSpace :=
      makeNewDeviceNColorSpace "FlatBlack"
        [FloatVal.zero, FloatVal.zero, FloatVal.zero, FloatVal.one]
    { m_jawsMako := jawsMako, m_useDeviceN := useDeviceN,
      m_doNotApplyOverprint := doNotApplyOverprint,
      m_flatBlackColorSpace := deviceNColorSpace,
      m_flatBlack := makeNewDeviceNColor addr deviceNColorSpace FloatVal.one FloatVal.one }
  else
    { m_jawsMako := jawsMako, m_useDeviceN := useDeviceN,
      m_doNotApplyOverprint := doNotApplyOverprint,
      m_flatBlackColorSpace := IDOMColorSpace.DeviceCMYK,
      m_flatBlack :=
        IDOMColor.createSolidCmyk addr FloatVal.zero FloatVal.zero FloatVal.zero FloatVal.one }

/-- `colorIsCmykRichBlack(color)`. -/
def colorIsCmykRichBlack (color : IDOMColor) : Bool :=
  if !color.getColorSpace.isDeviceCMYK then
    false
  else if (color.getComponentValue 3).ne FloatVal.one then
    false
  else
    (color.getComponentValue 0).ne FloatVal.zero || (color.getComponentValue 1).ne FloatVal.zero
      || (color.getComponentValue 2).ne FloatVal.zero

/-- `transformColor(inColor)`. -/
def transformColor (self : CCmykBlackConverterImplementation) (inColor : IDOMColor) :
    IDOMColor :=
  let outColor := inColor
  if colorIsCmykRichBlack inColor then
    self.m_flatBlack
  else
    outColor

/-! ## Scanline buffers -/

/-- Values taken by the counter of `for (x = 0; x < n; x += step)`, in order: the
multiples of `step` below `n` (for `0 < step`; the converter leaves before its loops
when `numChannels < 4`). -/
def loopIndices (n step : Nat) : List Nat :=
  (List.range ((n + step - 1) / step)).map (fun k => k * step)

/-- `buffer[i]` for a byte buffer. -/
def getU8 (buffer : List Nat) (i : Nat) : Nat := buffer.getD i 0

/-- `buffer[i] = v` for a byte buffer: the value is stored in one byte. -/
def setU8 (buffer : List Nat) (i v : Nat) : List Nat := buffer.set i (v % 256)

/-- `ptr[i]` for `uint16* ptr = (uint16*) &buffer[0]` (little endian). -/
def getU16 (buffer : List Nat) (i : Nat) : Nat :=
  buffer.getD (2 * i) 0 + 256 * buffer.getD (2 * i + 1) 0

/-- `ptr[i] = v` for `uint16* ptr = (uint16*) &buffer[0]` (little endian). -/
def setU16 (buffer : List Nat) (i v : Nat) : List Nat :=
  (buffer.set (2 * i) (v % 256)).set (2 * i + 1) (v / 256 % 256)

namespace IImageFrame

/-- `IImageFrame::getColorSpace`. -/
def getColorSpace (frame : IImageFrame) : IDOMColorSpace := frame.colorSpace

/-- `IImageFrame::getBPS`. -/
def getBPS (frame : IImageFrame) : Nat := frame.bps

/-- `IImageFrame::getExtraChannelType`. -/
def getExtraChannelType (frame : IImageFrame) : eImageExtraChannelType :=
  frame.extraChannelType

/-- `IImageFrame::getWidth`. -/
def getWidth (frame : IImageFrame) : Nat := frame.width

/-- `IImageFrame::getHeight`. -/
def getHeight (frame : IImageFrame) : Nat := frame.height

/-- `IImageFrame::getRawBytesPerRow`. -/
def getRawBytesPerRow (frame : IImageFrame) : Nat := frame.rawBytesPerRow

/-- Buffer of `size` bytes after the call `readScanLine(&scanline[0], size)` that
reads row `y` (the calls read the rows in order). -/
def readScanLine (frame : IImageFrame) (y size : Nat) : List Nat :=
  (List.range size).map (fun i => (frame.scanLines.getD y []).getD i 0 % 256)

end IImageFrame

/-- `IDOMImage::getImageFrame`. -/
def IDOMImage.getImageFrame (image : IDOMImage) : IImageFrame := image.frame

/-- `IDOMFilteredImage::create(jawsMako, image, scaler)` with
`scaler = IDOMImageBitScalerFilter::create(jawsMako, bps)`, the new object being at
`addr`. -/
def IDOMFilteredImage.create (jawsMako : IJawsMako) (addr : Nat) (image : IDOMImage)
    (bps : Nat) : IDOMImage :=
  { addr := addr, frame := jawsMako.bitScaler bps image.getImageFrame }

/-- `IDOMRawImage::createWriterAndImage(...)` followed by the calls of
`writeScanLine` and by `flushData`: the new image, at `addr`, holds the buffers passed
to `writeScanLine`, in order. -/
def IDOMRawImage.createWriterAndImage (jawsMako : IJawsMako) (addr : Nat)
    (colorSpace : IDOMColorSpace) (width height bps : Nat) (xResolution yResolution : FloatVal)
    (extraChannelType : eImageExtraChannelType) (written : List (List Nat)) : IDOMImage :=
  { addr := addr,
    frame :=
      { colorSpace := colorSpace, bps := bps, width := width, height := height,
        xResolution := xResolution, yResolution := yResolution,
        extraChannelType := extraChannelType,
        rawBytesPerRow := jawsMako.rasterBytesPerRow colorSpace width bps extraChannelType,
        scanLines := written } }

/-! ## Images: `getFilteredImage` and `transformImage` -/

/-- `getFilteredImage(inImage, bps)`. -/
def getFilteredImage (self : CCmykBlackConverterImplementation) (inImage : IDOMImage)
    (bps : Nat) (next : Nat) : Except EDLError (IDOMImage × Nat) :=
  let image := inImage
  if bps = 1 ∨ bps = 2 ∨ bps = 4 then
    .ok (IDOMFilteredImage.create self.m_jawsMako next image 8, next + 1)
  else if bps = 12 then
    .ok (IDOMFilteredImage.create self.m_jawsMako next image 16, next + 1)
  else if bps = 8 ∨ bps = 16 then
    .ok (image, next)
  else
    .error (EDLError.JM_ERR_GENERAL "Unsupported BPS")

/-- Inner loop of the 16-bit scan, over the remaining values of `x`. -/
def scanLoop16 (scanline : List Nat) : List Nat → Bool → Bool
  | [], richBlack => richBlack
  | x :: xs, richBlack =>
    if getU16 scanline (x + 3) != 0xffff then
      scanLoop16 scanline xs richBlack
    else if getU16 scanline x != 0 || getU16 scanline (x + 1) != 0
        || getU16 scanline (x + 2) != 0 then
      true
    else
      scanLoop16 scanline xs richBlack

/-- Inner loop of the 8-bit scan, over the remaining values of `x`. -/
def scanLoop8 (scanline : List Nat) : List Nat → Bool → Bool
  | [], richBlack => richBlack
  | x :: xs, richBlack =>
    if getU8 scanline (x + 3) != 0xff then
      scanLoop8 scanline xs richBlack
    else if getU8 scanline x != 0 || getU8 scanline (x + 1) != 0
        || getU8 scanline (x + 2) != 0 then
      true
    else
      scanLoop8 scanline xs richBlack

/-- The scan ("First see if we need to convert"): the value of `richBlack` after the
loops over the rows, or the error raised for an unexpected depth. -/
def scanPass (frame : IImageFrame) (numChannels : Nat) : Except EDLError Bool :=
  let bps := frame.getBPS
  let height := frame.getHeight
  let size := frame.getRawBytesPerRow
  if bps != 8 then
    if bps != 16 then
      .error (EDLError.JM_ERR_GENERAL "Unexpected BPS")
    else
      .ok ((List.range height).foldl
        (fun richBlack y =>
          scanLoop16 (frame.readScanLine y size) (loopIndices (size / 2) numChannels) richBlack)
        false)
  else
    .ok ((List.range height).foldl
      (fun richBlack y =>
        scanLoop8 (frame.readScanLine y size) (loopIndices size numChannels) richBlack)
      false)

/-- Inner loop of the 16-bit DeviceN rewrite. -/
def spotLoop16 (scanline : List Nat) (numChannels : Nat) : List Nat → List Nat → List Nat
  | [], outScanline => outScanline
  | x :: xs, outScanline =>
    if getU16 scanline (x + 3) == 0xffff then
      spotLoop16 scanline numChannels xs (setU8 outScanline (x / numChannels) 0xFFFF)
    else
      spotLoop16 scanline numChannels xs outScanline

/-- Inner loop of the 8-bit DeviceN rewrite. -/
def spotLoop8 (scanline : List Nat) (numChannels : Nat) : List Nat → List Nat → List Nat
  | [], outScanline => outScanline
  | x :: xs, outScanline =>
    if getU8 scanline (x + 3) == 0xff then
      spotLoop8 scanline numChannels xs (setU8 outScanline (x / numChannels) 0xFF)
    else
      spotLoop8 scanline numChannels xs outScanline

/-- Inner loop of the 16-bit Device CMYK rewrite. -/
def directLoop16 : List Nat → List Nat → List Nat
  | [], scanline => scanline
  | x :: xs, scanline =>
    if getU16 scanline (x + 3) == 0xffff then
      directLoop16 xs (setU16 (setU16 (setU16 scanline (x + 2) 0) (x + 1) 0) x 0)
    else
      directLoop16 xs scanline

/-- Inner loop of the 8-bit Device CMYK rewrite. -/
def directLoop8 : List Nat → List Nat → List Nat
  | [], scanline => scanline
  | x :: xs, scanline =>
    if getU8 scanline (x + 3) == 0xff then
      directLoop8 xs (setU8 (setU8 (setU8 scanline (x + 2) 0) (x + 1) 0) x 0)
    else
      directLoop8 xs scanline

/-- The rewrite ("Convert rich black to flat black"): the buffers passed to
`writeScanLine`, one for each row. -/
def rewritePass (self : CCmykBlackConverterImplementation) (frame : IImageFrame)
    (numChannels : Nat) : List (List Nat) :=
  let bps := frame.getBPS
  let width := frame.getWidth
  let height := frame.getHeight
  let size := frame.getRawBytesPerRow
  if self.m_useDeviceN then
    if bps != 8 then
      (List.range height).map (fun y =>
        spotLoop16 (frame.readScanLine y size) numChannels (loopIndices (size / 2) numChannels)
          (List.replicate (width * 2 % 2 ^ 32) 0))
    else
      (List.range height).map (fun y =>
        spotLoop8 (frame.readScanLine y size) numChannels (loopIndices size numChannels)
          (List.replicate width 0))
  else
    if bps != 8 then
      (List.range height).map (fun y =>
        directLoop16 (loopIndices (size / 2) numChannels) (frame.readScanLine y size))
    else
      (List.range height).map (fun y =>
        directLoop8 (loopIndices size numChannels) (frame.readScanLine y size))

/-- `transformImage(inImage)`. -/
def transformImage (self : CCmykBlackConverterImplementation) (inImage : IDOMImage)
    (next : Nat) : Except EDLError (IDOMImage × Nat) :=
  let image := inImage
  let frame := image.getImageFrame
  let colorSpace := frame.getColorSpace
  if !colorSpace.isDeviceCMYK then
    .ok (image, next)
  else
    match getFilteredImage self inImage frame.getBPS next with
    | .error e => .error e
    | .ok (filteredImage, next1) =>
      let frame := filteredImage.getImageFrame
      let numChannels := colorSpace.getNumComponents % 256
      let extraChannelType := frame.getExtraChannelType
      let numChannels :=
        if extraChannelType != eImageExtraChannelType.eIECNone then (numChannels + 1) % 256
        else numChannels
      if numChannels < 4 then
        .ok (image, next1)
      else
        match scanPass frame numChannels with
        | .error e => .error e
        | .ok richBlack =>
          if !richBlack then
            .ok (image, next1)
          else
            let frame := filteredImage.getImageFrame
            .ok (IDOMRawImage.createWriterAndImage self.m_jawsMako next1
                  self.m_flatBlackColorSpace frame.getWidth frame.getHeight frame.getBPS
                  frame.xResolution frame.yResolution extraChannelType
                  (rewritePass self frame numChannels),
                next1 + 1)

/-! ## Brushes -/

/-- `IDOMBrush`: an object at address `addr`.  `attrs` stands for the members of the
object that the converter never reads (for a tiling pattern, its content among
them). -/
inductive IDOMBrush where
  | SolidColor (addr : Nat) (attrs : Nat) (color : IDOMColor)
  | Image (addr : Nat) (attrs : Nat) (imageSource : IDOMImage)
  | Masked (addr : Nat) (attrs : Nat) (mask : Nat) (brush : IDOMBrush)
  | TilingPattern (addr : Nat) (attrs : Nat) (paintType : Int) (patternColor : IDOMColor)
  | Other (addr : Nat) (attrs : Nat) (brushType : Nat)
  deriving DecidableEq

/-- The address of a brush object. -/
def IDOMBrush.addr : IDOMBrush → Nat
  | SolidColor addr _ _ => addr
  | Image addr _ _ => addr
  | Masked addr _ _ _ => addr
  | TilingPattern addr _ _ _ => addr
  | Other addr _ _ => addr

/-- The body of `transformBrush(inBrush)` for a non-null `inBrush`. -/
def transformBrushObject (self : CCmykBlackConverterImplementation) :
    IDOMBrush → Nat → Except EDLError (IDOMBrush × Nat)
  | .SolidColor addr attrs oldColor, next =>
    let newColor := transformColor self oldColor
    if oldColor.addr != newColor.addr then
      .ok (.SolidColor next attrs newColor, next + 1)
    else
      .ok (.SolidColor addr attrs oldColor, next)
  | .Image addr attrs oldImage, next =>
    match transformImage self oldImage next with
    | .error e => .error e
    | .ok (newImage, next1) =>
      if oldImage.addr != newImage.addr then
        .ok (.Image next1 attrs newImage, next1 + 1)
      else
        .ok (.Image addr attrs oldImage, next1)
  | .Masked addr attrs mask oldBrush, next =>
    match transformBrushObject self oldBrush next with
    | .error e => .error e
    | .ok (newBrush, next1) =>
      if oldBrush.addr != newBrush.addr then
        .ok (.Masked next1 attrs mask newBrush, next1 + 1)
      else
        .ok (.Masked addr attrs mask oldBrush, next1)
  | .TilingPattern addr attrs paintType oldColor, next =>
    if paintType == 2 then
      let newColor := transformColor self oldColor
      if oldColor.addr != newColor.addr then
        .ok (.TilingPattern next attrs paintType newColor, next + 1)
      else
        .ok (.TilingPattern addr attrs paintType oldColor, next)
    else
      .ok (.TilingPattern addr attrs paintType oldColor, next)
  | .Other addr attrs brushType, next => .ok (.Other addr attrs brushType, next)

/-- `transformBrush(inBrush)`; `none` is the null pointer. -/
def transformBrush (self : CCmykBlackConverterImplementation) (inBrush : Option IDOMBrush)
    (next : Nat) : Except EDLError (Option IDOMBrush × Nat) :=
  match inBrush with
  | none => .ok (none, next)
  | some brush =>
    match transformBrushObject self brush next with
    | .error e => .error e
    | .ok (newBrush, next1) => .ok (some newBrush, next1)

/-! ## The scan with its reads recorded -/

/-- What the scan has done: the value of `richBlack`, the rows read by `readScanLine`
and the pixels examined, as pairs of the row and the value of `x`, both in order. -/
structure ScanTrace where
  richBlack : Bool
  reads : List Nat
  examined : List (Nat × Nat)
  deriving DecidableEq

/-- Inner loop of the 16-bit scan: the flag and the values of `x` at which the body
ran, in order. -/
def scanLoop16Examined (scanline : List Nat) : List Nat → Bool → Bool × List Nat
  | [], richBlack => (richBlack, [])
  | x :: xs, richBlack =>
    if getU16 scanline (x + 3) != 0xffff then
      ((scanLoop16Examined scanline xs richBlack).1,
        x :: (scanLoop16Examined scanline xs richBlack).2)
    else if getU16 scanline x != 0 || getU16 scanline (x + 1) != 0
        || getU16 scanline (x + 2) != 0 then
      (true, [x])
    else
      ((scanLoop16Examined scanline xs richBlack).1,
        x :: (scanLoop16Examined scanline xs richBlack).2)

/-- Inner loop of the 8-bit scan: the flag and the values of `x` at which the body
ran, in order. -/
def scanLoop8Examined (scanline : List Nat) : List Nat → Bool → Bool × List Nat
  | [], richBlack => (richBlack, [])
  | x :: xs, richBlack =>
    if getU8 scanline (x + 3) != 0xff then
      ((scanLoop8Examined scanline xs richBlack).1,
        x :: (scanLoop8Examined scanline xs richBlack).2)
    else if getU8 scanline x != 0 || getU8 scanline (x + 1) != 0
        || getU8 scanline (x + 2) != 0 then
      (true, [x])
    else
      ((scanLoop8Examined scanline xs richBlack).1,
        x :: (scanLoop8Examined scanline xs richBlack).2)

/-- The scan of `scanPass` again, with every call of `readScanLine` and every pixel
examined recorded. -/
def scanPassTrace (frame : IImageFrame) (numChannels : Nat) : Except EDLError ScanTrace :=
  let bps := frame.getBPS
  let height := frame.getHeight
  let size := frame.getRawBytesPerRow
  if bps != 8 then
    if bps != 16 then
      .error (EDLError.JM_ERR_GENERAL "Unexpected BPS")
    else
      .ok ((List.range height).foldl
        (fun trace y =>
          let r := scanLoop16Examined (frame.readScanLine y size)
            (loopIndices (size / 2) numChannels) trace.richBlack
          { richBlack := r.1, reads := trace.reads ++ [y],
            examined := trace.examined ++ r.2.map (fun x => (y, x)) })
        { richBlack := false, reads := [], examined := [] })
  else
    .ok ((List.range height).foldl
      (fun trace y =>
        let r := scanLoop8Examined (frame.readScanLine y size)
          (loopIndices size numChannels) trace.richBlack
        { richBlack := r.1, reads := trace.reads ++ [y],
          examined := trace.examined ++ r.2.map (fun x => (y, x)) })
      { richBlack := false, reads := [], examined := [] })

/-! ## Content nodes and the host -/

/-- `OVERPRINT_MODE`. -/
def OVERPRINT_MODE : Nat := 1

/-- `OVERPRINT_FILL`. -/
def OVERPRINT_FILL : Nat := 2

/-- `OVERPRINT_STROKE`. -/
def OVERPRINT_STROKE : Nat := 4

/-- `PValue`: the value of a property of a node; `PValue(int)` is `int`. -/
inductive PValue where
  | int (value : Int)
  | other (code : Nat)
  deriving DecidableEq

/-- The properties of a node after `setProperty(key, value)`: the entry for `key` is
replaced, or added when there was none. -/
def setProperty (properties : List (String × PValue)) (key : String) (value : PValue) :
    List (String × PValue) :=
  (key, value) :: properties.filter (fun p => p.1 != key)

/-- The property of a node for `key`, if it has one. -/
def getProperty (properties : List (String × PValue)) (key : String) : Option PValue :=
  (properties.find? (fun p => p.1 == key)).map (fun p => p.2)

/-- `IDOMPathNode`: an object at address `addr` with a fill and a stroke (`none` is the
null pointer) and properties; `attrs` stands for the members that the converter never
reads. -/
structure IDOMPathNode where
  addr : Nat
  attrs : Nat
  fill : Option IDOMBrush
  stroke : Option IDOMBrush
  properties : List (String × PValue)
  deriving DecidableEq

/-- `IDOMGlyphs`: an object at address `addr` with a fill and properties. -/
structure IDOMGlyphs where
  addr : Nat
  attrs : Nat
  fill : Option IDOMBrush
  properties : List (String × PValue)
  deriving DecidableEq

/-- `IDOMGroup`: an object at address `addr`; the converter hands it to the host only. -/
structure IDOMGroup where
  addr : Nat
  attrs : Nat
  deriving DecidableEq

/-- `IDOMCharPathGroup::eCharPathType`: the stroke kind, or another kind. -/
inductive eCharPathType where
  | eCharPath_Stroke
  | eCharPath_Other (kind : Nat)
  deriving DecidableEq

/-- `IDOMCharPathGroup`: an object at address `addr` with its kind, its stroke path and
its clipped group (`none` is the null pointer). -/
structure IDOMCharPathGroup where
  addr : Nat
  attrs : Nat
  charPathType : eCharPathType
  strokePath : Option IDOMPathNode
  clippedGroup : Option IDOMGroup
  deriving DecidableEq

/-- What an `IDOMNodePtr` can point to. -/
inductive IDOMNode where
  | Path (node : IDOMPathNode)
  | Glyphs (node : IDOMGlyphs)
  | Group (node : IDOMGroup)
  | CharPathGroup (node : IDOMCharPathGroup)
  | Other (addr : Nat) (attrs : Nat)
  deriving DecidableEq

/-- `edlobj2IDOMGroup(node)`: the group, or null when `node` is null or no group. -/
def edlobj2IDOMGroup : Option IDOMNode → Option IDOMGroup
  | some (IDOMNode.Group node) => some node
  | _ => none

/-- `CTransformState`: kept by the host; the converter only passes it on. -/
structure CTransformState where
  code : Nat
  deriving DecidableEq

/-- `eBrushUsage`: the converter names `eBUStroke` only. -/
inductive eBrushUsage where
  | eBUStroke
  | eBUOther (kind : Nat)
  deriving DecidableEq

/-- What a generic entry point of the host gives back: the returned `IDOMNodePtr`
(`none` is null), the flag it leaves in the `bool&` it was handed (handed in as
`false`), and the allocator after the call. -/
structure GenericResult where
  result : Option IDOMNode
  didSomething : Bool
  next : Nat

/-- The host: `genericImplementation`, the inherited `transformNode`, and
`CTransformState::stateInsideNode`.  The host is taken to return from every call;
stores that it makes into the objects it is handed are outside the embedding. -/
structure IImplementation where
  transformGlyphs : IDOMGlyphs → CTransformState → Nat → GenericResult
  transformPath : IDOMPathNode → CTransformState → Nat → GenericResult
  transformBrush : IDOMBrush → eBrushUsage → CTransformState → Nat → Option IDOMBrush × Nat
  transformNode : IDOMGroup → Bool → CTransformState → Nat → GenericResult
  stateInsideNode : CTransformState → IDOMPathNode → CTransformState

/-- A call of an entry point of the host, with its arguments. -/
inductive HostCall where
  | transformGlyphs (glyphs : IDOMGlyphs) (state : CTransformState)
  | transformPath (path : IDOMPathNode) (state : CTransformState)
  | transformBrush (brush : IDOMBrush) (usage : eBrushUsage) (state : CTransformState)
  | transformNode (node : IDOMGroup) (transformChildren : Bool) (state : CTransformState)
  deriving DecidableEq

/-- The comparison `p != q` of two `IDOMBrushPtr`, either of which may be null. -/
def brushPtrNe : Option IDOMBrush → Option IDOMBrush → Bool
  | none, none => false
  | some p, some q => p.addr != q.addr
  | _, _ => true

/-- The members that `transformFill` uses of its node. -/
class FillNode (T : Type) where
  getFill : T → Option IDOMBrush
  setFill : T → Option IDOMBrush → T
  setProperty : T → String → PValue → T

instance : FillNode IDOMPathNode where
  getFill node := node.fill
  setFill node brush := { node with fill := brush }
  setProperty node key value := { node with properties := setProperty node.properties key value }

instance : FillNode IDOMGlyphs where
  getFill node := node.fill
  setFill node brush := { node with fill := brush }
  setProperty node key value := { node with properties := setProperty node.properties key value }

/-- The members that `transformStroke` uses of its node. -/
class StrokeNode (T : Type) where
  getStroke : T → Option IDOMBrush
  setStroke : T → Option IDOMBrush → T
  setProperty : T → String → PValue → T

instance : StrokeNode IDOMPathNode where
  getStroke node := node.stroke
  setStroke node brush := { node with stroke := brush }
  setProperty node key value := { node with properties := setProperty node.properties key value }

/-- Outcome of `transformFill` or `transformStroke`: the node after the call, the
returned flag or the error raised, and the allocator after the call. -/
structure BrushOutcome (T : Type) where
  node : T
  result : Except EDLError Bool
  next : Nat

/-- `transformFill(node)`. -/
def transformFill {T : Type} [FillNode T] (self : CCmykBlackConverterImplementation)
    (node : T) (next : Nat) : BrushOutcome T :=
  let oldBrush := FillNode.getFill node
  match transformBrush self oldBrush next with
  | .error e => { node := node, result := .error e, next := next }
  | .ok (newBrush, next1) =>
    if brushPtrNe oldBrush newBrush then
      let node1 := FillNode.setFill node newBrush
      if !self.m_doNotApplyOverprint then
        let devParams := OVERPRINT_MODE ||| OVERPRINT_FILL
        { node := FillNode.setProperty node1 "DeviceParams" (PValue.int (Int.ofNat devParams)),
          result := .ok true, next := next1 }
      else
        { node := node1, result := .ok true, next := next1 }
    else
      { node := node, result := .ok false, next := next1 }

/-- `transformStroke(node)`. -/
def transformStroke {T : Type} [StrokeNode T] (self : CCmykBlackConverterImplementation)
    (node : T) (next : Nat) : BrushOutcome T :=
  let oldBrush := StrokeNode.getStroke node
  match transformBrush self oldBrush next with
  | .error e => { node := node, result := .error e, next := next }
  | .ok (newBrush, next1) =>
    if brushPtrNe oldBrush newBrush then
      let node1 := StrokeNode.setStroke node newBrush
      if !self.m_doNotApplyOverprint then
        let devParams := OVERPRINT_MODE ||| OVERPRINT_STROKE
        { node := StrokeNode.setProperty node1 "DeviceParams"
            (PValue.int (Int.ofNat devParams)),
          result := .ok true, next := next1 }
      else
        { node := node1, result := .ok true, next := next1 }
    else
      { node := node, result := .ok false, next := next1 }

/-- Outcome of an entry point of the converter: the visited object after the stores of
the converter, the caller's `changed` after the call, the returned `IDOMNodePtr` or the
error raised, the allocator after the call, and the calls made to the host, in order. -/
structure VisitResult (N : Type) where
  node : N
  changed : Bool
  result : Except EDLError (Option IDOMNode)
  next : Nat
  calls : List HostCall

/-- `transformGlyphs(genericImplementation, glyphs, changed, state)`. -/
def transformGlyphs (self : CCmykBlackConverterImplementation)
    (genericImplementation : IImplementation) (glyphs : IDOMGlyphs) (changed : Bool)
    (state : CTransformState) (next : Nat) : VisitResult IDOMGlyphs :=
  let fill := transformFill self glyphs next
  match fill.result with
  | .error e =>
    { node := fill.node, changed := changed, result := .error e, next := fill.next,
      calls := [] }
  | .ok alteredFill =>
    let changed1 := if alteredFill then true else changed
    let generic := genericImplementation.transformGlyphs fill.node state fill.next
    { node := fill.node, changed := changed1 || generic.didSomething,
      result := .ok generic.result, next := generic.next,
      calls := [HostCall.transformGlyphs fill.node state] }

/-- `transformPath(genericImplementation, path, changed, state)`. -/
def transformPath (self : CCmykBlackConverterImplementation)
    (genericImplementation : IImplementation) (path : IDOMPathNode) (changed : Bool)
    (state : CTransformState) (next : Nat) : VisitResult IDOMPathNode :=
  let fill := transformFill self path next
  match fill.result with
  | .error e =>
    { node := fill.node, changed := changed, result := .error e, next := fill.next,
      calls := [] }
  | .ok alteredFill =>
    let stroke := transformStroke self fill.node fill.next
    match stroke.result with
    | .error e =>
      { node := stroke.node, changed := changed, result := .error e, next := stroke.next,
        calls := [] }
    | .ok alteredStroke =>
      let changed1 := if alteredFill || alteredStroke then true else changed
      let generic := genericImplementation.transformPath stroke.node state stroke.next
      { node := stroke.node, changed := changed1 || generic.didSomething,
        result := .ok generic.result, next := generic.next,
        calls := [HostCall.transformPath stroke.node state] }

/-- `transformCharPathGroup(genericImplementation, group, changed, transformChildren,
state)`. -/
def transformCharPathGroup (self : CCmykBlackConverterImplementation)
    (genericImplementation : IImplementation) (group : IDOMCharPathGroup) (changed : Bool)
    (transformChildren : Bool) (state : CTransformState) (next : Nat) :
    VisitResult IDOMCharPathGroup :=
  if group.charPathType = eCharPathType.eCharPath_Stroke then
    match group.strokePath with
    | none =>
      { node := group, changed := changed,
        result := .ok (some (IDOMNode.CharPathGroup group)), next := next, calls := [] }
    | some path =>
      let altered := transformStroke self path next
      match altered.result with
      | .error e =>
        { node := { group with strokePath := some altered.node }, changed := changed,
          result := .error e, next := altered.next, calls := [] }
      | .ok alteredStroke =>
        let changed1 := if alteredStroke then true else changed
        match altered.node.stroke with
        | some stroke =>
          let pathState := genericImplementation.stateInsideNode state altered.node
          let transformed :=
            genericImplementation.transformBrush stroke eBrushUsage.eBUStroke pathState
              altered.next
          if brushPtrNe transformed.1 (some stroke) then
            { node := { group with
                strokePath := some { altered.node with stroke := transformed.1 } },
              changed := true,
              result := .ok (some (IDOMNode.CharPathGroup { group with
                strokePath := some { altered.node with stroke := transformed.1 } })),
              next := transformed.2,
              calls := [HostCall.transformBrush stroke eBrushUsage.eBUStroke pathState] }
          else
            { node := { group with strokePath := some altered.node }, changed := changed1,
              result := .ok (some (IDOMNode.CharPathGroup { group with
                strokePath := some altered.node })),
              next := transformed.2,
              calls := [HostCall.transformBrush stroke eBrushUsage.eBUStroke pathState] }
        | none =>
          { node := { group with strokePath := some altered.node }, changed := changed1,
            result := .ok (some (IDOMNode.CharPathGroup { group with
              strokePath := some altered.node })),
            next := altered.next, calls := [] }
  else
    match group.clippedGroup with
    | some clippedGroup =>
      let generic := genericImplementation.transformNode clippedGroup transformChildren state next
      let transformed := edlobj2IDOMGroup generic.result
      if generic.didSomething then
        match transformed with
        | none =>
          { node := group, changed := changed,
            result := .error (EDLError.JM_ERR_GENERAL
              "Expected a group to be the result of transforming a group in the pure black transform"),
            next := generic.next,
            calls := [HostCall.transformNode clippedGroup transformChildren state] }
        | some newGroup =>
          { node := { group with clippedGroup := some newGroup }, changed := true,
            result := .ok (some (IDOMNode.CharPathGroup { group with
              clippedGroup := some newGroup })),
            next := generic.next,
            calls := [HostCall.transformNode clippedGroup transformChildren state] }
      else
        { node := group, changed := changed,
          result := .ok (some (IDOMNode.CharPathGroup group)), next := generic.next,
          calls := [HostCall.transformNode clippedGroup transformChildren state] }
    | none =>
      { node := group, changed := changed,
        result := .ok (some (IDOMNode.CharPathGroup group)), next := next, calls := [] }

/-! ## Notions used to state the properties -/

/-- The frame that `transformImage` reads for a Device CMYK image: the frame of the
image returned by `getFilteredImage` (depth 1, 2, 4 scaled to 8, depth 12 scaled to
16, other depths as they are). -/
def normalizedFrame (self : CCmykBlackConverterImplementation) (image : IDOMImage) :
    IImageFrame :=
  if image.frame.bps = 1 ∨ image.frame.bps = 2 ∨ image.frame.bps = 4 then
    self.m_jawsMako.bitScaler 8 image.frame
  else if image.frame.bps = 12 then
    self.m_jawsMako.bitScaler 16 image.frame
  else
    image.frame

namespace IImageFrame

/-- Samples per pixel of a Device CMYK frame: 4, and 1 more with an extra channel. -/
def numChannels (frame : IImageFrame) : Nat :=
  4 + (if frame.extraChannelType = eImageExtraChannelType.eIECNone then 0 else 1)

/-- The rows hold no padding: `width * numChannels` samples of `bps / 8` bytes. -/
def unpadded (frame : IImageFrame) : Prop :=
  frame.rawBytesPerRow = frame.width * frame.numChannels * (frame.bps / 8)

instance (frame : IImageFrame) : Decidable frame.unpadded := by
  unfold unpadded
  exact inferInstance

end IImageFrame

/-- Sample `k` of a row of bytes at depth `bps`: a byte at depth 8, two bytes
otherwise. -/
def rowSample (bps : Nat) (row : List Nat) (k : Nat) : Nat :=
  if bps = 8 then getU8 row k else getU16 row k

/-- The largest sample at depth `bps`: 255 at depth 8, 65535 otherwise. -/
def maxSample (bps : Nat) : Nat := if bps = 8 then 255 else 65535

/-- Pixel `i` of a row of `numChannels` samples per pixel is rich black: K is the
largest sample and one of C, M, Y is not 0. -/
def rowPixelIsRichBlack (bps numChannels : Nat) (row : List Nat) (i : Nat) : Bool :=
  rowSample bps row (i * numChannels + 3) == maxSample bps
    && (rowSample bps row (i * numChannels) != 0
      || rowSample bps row (i * numChannels + 1) != 0
      || rowSample bps row (i * numChannels + 2) != 0)

namespace IImageFrame

/-- Row `y` of the frame as the converter reads it. -/
def row (frame : IImageFrame) (y : Nat) : List Nat :=
  frame.readScanLine y frame.rawBytesPerRow

/-- Channel `ch` of pixel `i` of row `y` of a Device CMYK frame. -/
def sample (frame : IImageFrame) (y i ch : Nat) : Nat :=
  rowSample frame.bps (frame.row y) (i * frame.numChannels + ch)

/-- Pixel `i` of row `y` of a Device CMYK frame is rich black. -/
def pixelIsRichBlack (frame : IImageFrame) (y i : Nat) : Bool :=
  rowPixelIsRichBlack frame.bps frame.numChannels (frame.row y) i

/-- Some pixel of the frame is rich black. -/
def hasRichBlackPixel (frame : IImageFrame) : Bool :=
  (List.range frame.height).any (fun y =>
    (List.range frame.width).any (fun i => frame.pixelIsRichBlack y i))

end IImageFrame

/-- Every brush object and image object of the brush is at an address below `next`:
they were allocated before the allocator reached `next`. -/
def IDOMBrush.allocatedBelow : IDOMBrush → Nat → Bool
  | .SolidColor addr _ _, next => decide (addr < next)
  | .Image addr _ imageSource, next => decide (addr < next) && decide (imageSource.addr < next)
  | .Masked addr _ _ brush, next => decide (addr < next) && brush.allocatedBelow next
  | .TilingPattern addr _ _ _, next => decide (addr < next)
  | .Other addr _ _, next => decide (addr < next)

/-- The brush holds something that the converter converts: through Masked brushes, a
SolidColor with a rich-black colour, a TilingPattern of paint type 2 with a rich-black
pattern colour, or an Image brush whose Device CMYK image has a rich-black pixel in its
normalized frame. -/
def IDOMBrush.needsConversion (self : CCmykBlackConverterImplementation) : IDOMBrush → Bool
  | .SolidColor _ _ color => colorIsCmykRichBlack color
  | .Image _ _ imageSource =>
    imageSource.frame.colorSpace.isDeviceCMYK
      && (normalizedFrame self imageSource).hasRichBlackPixel
  | .Masked _ _ _ brush => brush.needsConversion self
  | .TilingPattern _ _ paintType patternColor =>
    paintType == 2 && colorIsCmykRichBlack patternColor
  | .Other _ _ _ => false

/-- The objects of the brush are objects of a consistent heap and its images are laid
out as the converter reads them: a colour at the address of the shared flat black is
the shared flat black, and the normalized frame of a Device CMYK image holds no
padding. -/
def IDOMBrush.consistent (self : CCmykBlackConverterImplementation) : IDOMBrush → Bool
  | .SolidColor _ _ color =>
    decide (color.addr = self.m_flatBlack.addr → color = self.m_flatBlack)
  | .Image _ _ imageSource =>
    decide (imageSource.frame.colorSpace = IDOMColorSpace.DeviceCMYK →
      (normalizedFrame self imageSource).unpadded)
  | .Masked _ _ _ brush => brush.consistent self
  | .TilingPattern _ _ _ patternColor =>
    decide (patternColor.addr = self.m_flatBlack.addr → patternColor = self.m_flatBlack)
  | .Other _ _ _ => true

/-- The colours of the brush are objects of a consistent heap: through Masked brushes,
a colour of a SolidColor or TilingPattern brush at the address of the shared flat black
is the shared flat black. -/
def IDOMBrush.coloursConsistent (self : CCmykBlackConverterImplementation) :
    IDOMBrush → Bool
  | .SolidColor _ _ color =>
    decide (color.addr = self.m_flatBlack.addr → color = self.m_flatBlack)
  | .Image _ _ _ => true
  | .Masked _ _ _ brush => brush.coloursConsistent self
  | .TilingPattern _ _ _ patternColor =>
    decide (patternColor.addr = self.m_flatBlack.addr → patternColor = self.m_flatBlack)
  | .Other _ _ _ => true

/-! ## Concrete inputs -/

/-- A library instance for the concrete inputs: the frame of a scaled image reports
the depth the scaler was asked for and rows without padding at that depth, and keeps
the other members of the frame (the bytes of the rows are then read at the new depth);
rows of a new raster have no padding. -/
def exampleJawsMako : IJawsMako :=
  { bitScaler := fun bps frame =>
      { frame with bps := bps, rawBytesPerRow := frame.width * frame.numChannels * (bps / 8) },
    rasterBytesPerRow := fun colorSpace width bps extraChannelType =>
      width * (colorSpace.getNumComponents
        + (if extraChannelType = eImageExtraChannelType.eIECNone then 0 else 1)) * (bps / 8) }

/-- The colour C = 0.2, M = 0.1, Y = 0.05, K = 1.0 in Device CMYK, at address 7; the
components are the `float` values nearest to the decimal ones. -/
def richBlackExample : IDOMColor :=
  IDOMColor.createSolidCmyk 7 (FloatVal.finite (13421773 / 67108864))
    (FloatVal.finite (13421773 / 134217728)) (FloatVal.finite (13421773 / 268435456))
    FloatVal.one

/-- A Device CMYK image at address 5, without extra channel and without padding,
whose rows are `rows`, of `width` pixels of 4 samples at depth `bps`. -/
def exampleImage (bps width : Nat) (rows : List (List Nat)) : IDOMImage :=
  { addr := 5,
    frame :=
      { colorSpace := IDOMColorSpace.DeviceCMYK, bps := bps, width := width,
        height := rows.length, xResolution := FloatVal.finite 72,
        yResolution := FloatVal.finite 72,
        extraChannelType := eImageExtraChannelType.eIECNone,
        rawBytesPerRow := width * 4 * (bps / 8), scanLines := rows } }

/-- A Device CMYK image at address 5 with an extra channel and without padding, whose
rows are `rows`, of `width` pixels of 5 samples at depth `bps`. -/
def exampleImageExtra (bps width : Nat) (rows : List (List Nat)) : IDOMImage :=
  { addr := 5,
    frame :=
      { colorSpace := IDOMColorSpace.DeviceCMYK, bps := bps, width := width,
        height := rows.length, xResolution := FloatVal.finite 72,
        yResolution := FloatVal.finite 72,
        extraChannelType := eImageExtraChannelType.eIECOther 1,
        rawBytesPerRow := width * 5 * (bps / 8), scanLines := rows } }

/-- A host for the concrete inputs: every generic entry point returns null, reports
no change (`transformNode` reports what it is told in `transformChildren`) and
allocates nothing; `transformBrush` returns the brush it is handed. -/
def exampleImplementation : IImplementation :=
  { transformGlyphs := fun _ _ next => { result := none, didSomething := false, next := next },
    transformPath := fun _ _ next => { result := none, didSomething := false, next := next },
    transformBrush := fun brush _ _ next => (some brush, next),
    transformNode := fun _ transformChildren _ next =>
      { result := none, didSomething := transformChildren, next := next },
    stateInsideNode := fun state _ => state }

/-- A path node at address 20 without properties. -/
def examplePath (fill stroke : Option IDOMBrush) : IDOMPathNode :=
  { addr := 20, attrs := 0, fill := fill, stroke := stroke, properties := [] }

/-- The colour C = 1, M = 0, Y = 0, K = 1 in Device CMYK, at address 6. -/
def cyanBlackExample : IDOMColor :=
  IDOMColor.createSolidCmyk 6 FloatVal.one FloatVal.zero FloatVal.zero FloatVal.one

/-! ## Theorems -/

theorem FloatVal.ne_eq_true_iff (a b : FloatVal) (hb : b ≠ FloatVal.nan) :
    a.ne b = true ↔ a ≠ b := by
  cases a <;> cases b <;> simp_all [FloatVal.ne]

theorem FloatVal.ne_eq_false_iff (a b : FloatVal) (hb : b ≠ FloatVal.nan) :
    a.ne b = false ↔ a = b := by
  cases a <;> cases b <;> simp_all [FloatVal.ne]

theorem FloatVal.eq_eq_true_iff (a b : FloatVal) (hb : b ≠ FloatVal.nan) :
    a.eq b = true ↔ a = b := by
  cases a <;> cases b <;> simp_all [FloatVal.eq]

theorem FloatVal.zero_ne_nan : FloatVal.zero ≠ FloatVal.nan := by
  simp [FloatVal.zero]

theorem FloatVal.one_ne_nan : FloatVal.one ≠ FloatVal.nan := by
  simp [FloatVal.one]

theorem IDOMColorSpace.isDeviceCMYK_iff (cs : IDOMColorSpace) :
    cs.isDeviceCMYK = true ↔ cs = IDOMColorSpace.DeviceCMYK := by
  cases cs <;> simp [IDOMColorSpace.isDeviceCMYK]

theorem colorIsCmykRichBlack_eq_true_iff (c : IDOMColor) :
    colorIsCmykRichBlack c = true ↔
      c.getColorSpace = IDOMColorSpace.DeviceCMYK ∧
      (c.getComponentValue 3).eq FloatVal.one = true ∧
      c.getComponentValue 3 = FloatVal.one ∧
      ((c.getComponentValue 0).ne FloatVal.zero = true ∨
        (c.getComponentValue 1).ne FloatVal.zero = true ∨
        (c.getComponentValue 2).ne FloatVal.zero = true) ∧
      (c.getComponentValue 0 ≠ FloatVal.zero ∨ c.getComponentValue 1 ≠ FloatVal.zero ∨
        c.getComponentValue 2 ≠ FloatVal.zero) := by
  have h0 := FloatVal.zero_ne_nan
  have h1 := FloatVal.one_ne_nan
  simp only [FloatVal.eq_eq_true_iff _ _ h1, FloatVal.ne_eq_true_iff _ _ h0]
  unfold colorIsCmykRichBlack
  by_cases hcs : c.getColorSpace.isDeviceCMYK = true
  · have hcs2 := (IDOMColorSpace.isDeviceCMYK_iff _).1 hcs
    by_cases hk : (c.getComponentValue 3).ne FloatVal.one = true
    · have hk2 := (FloatVal.ne_eq_true_iff _ _ h1).1 hk
      simp only [hcs, hk]
      simp [hk2]
    · have hk3 : (c.getComponentValue 3).ne FloatVal.one = false := by simpa using hk
      have hk2 := (FloatVal.ne_eq_false_iff _ _ h1).1 hk3
      simp only [hcs, hk3]
      simp [hk2, hcs2, FloatVal.ne_eq_true_iff _ _ h0, or_assoc]
  · have hcs2 : c.getColorSpace ≠ IDOMColorSpace.DeviceCMYK :=
      fun h => hcs ((IDOMColorSpace.isDeviceCMYK_iff _).2 h)
    simp only [hcs]
    simp [hcs2]

/-- C1: a colour is reported rich black exactly when its colour space is Device CMYK,
its component 3 (K) is the value 1.0 and one of its components 0, 1, 2 (C, M, Y) is
not the value 0.0; the comparisons are the exact C++ comparisons, without tolerance. -/
theorem colorIsCmykRichBlack_iff (c : IDOMColor) :
    colorIsCmykRichBlack c = true ↔
      c.getColorSpace = IDOMColorSpace.DeviceCMYK ∧
      (c.getComponentValue 3).eq FloatVal.one = true ∧
      c.getComponentValue 3 = FloatVal.one ∧
      ((c.getComponentValue 0).ne FloatVal.zero = true ∨
        (c.getComponentValue 1).ne FloatVal.zero = true ∨
        (c.getComponentValue 2).ne FloatVal.zero = true) ∧
      (c.getComponentValue 0 ≠ FloatVal.zero ∨ c.getComponentValue 1 ≠ FloatVal.zero ∨
        c.getComponentValue 2 ≠ FloatVal.zero) :=
  colorIsCmykRichBlack_eq_true_iff c

/-- C2: `transformColor` returns the shared flat-black colour of the converter for a
rich-black colour and the input colour itself (the same object) otherwise; so it is
the identity on a colour that is not Device CMYK and on a Device CMYK colour that is
not rich black.  Every converter is covered, hence both modes. -/
theorem transformColor_spec (self : CCmykBlackConverterImplementation) (c : IDOMColor) :
    (colorIsCmykRichBlack c = true → transformColor self c = self.m_flatBlack) ∧
    (colorIsCmykRichBlack c = false → transformColor self c = c) ∧
    (c.getColorSpace ≠ IDOMColorSpace.DeviceCMYK → transformColor self c = c) ∧
    (c.getColorSpace = IDOMColorSpace.DeviceCMYK → colorIsCmykRichBlack c = false →
      transformColor self c = c) := by
  refine ⟨?_, ?_, ?_, ?_⟩
  · intro h
    simp [transformColor, h]
  · intro h
    simp [transformColor, h]
  · intro h
    have hn : colorIsCmykRichBlack c = false := by
      cases hr : colorIsCmykRichBlack c
      · rfl
      · exact absurd ((colorIsCmykRichBlack_eq_true_iff c).1 hr).1 h
    simp [transformColor, hn]
  · intro _ h
    simp [transformColor, h]

theorem flatBlack_not_richBlack (jawsMako : IJawsMako) (useDeviceN doNotApplyOverprint : Bool)
    (addr : Nat) :
    colorIsCmykRichBlack
      (CCmykBlackConverterImplementation.new jawsMako useDeviceN doNotApplyOverprint
        addr).m_flatBlack = false := by
  cases useDeviceN <;>
    simp [CCmykBlackConverterImplementation.new, colorIsCmykRichBlack,
      IDOMColor.createSolidCmyk, IDOMColor.getColorSpace, IDOMColorSpace.isDeviceCMYK,
      IDOMColor.getComponentValue, FloatVal.ne, FloatVal.one, FloatVal.zero,
      makeNewDeviceNColor, makeNewDeviceNColorSpace, IDOMColor.create]

/-- C3: for the converter built by the constructor in either mode, the shared
flat-black colour is not rich black, and `transformColor` applied twice gives what it
gives applied once. -/
theorem transformColor_idempotent (jawsMako : IJawsMako)
    (useDeviceN doNotApplyOverprint : Bool) (addr : Nat) (c : IDOMColor) :
    colorIsCmykRichBlack
      (CCmykBlackConverterImplementation.new jawsMako useDeviceN doNotApplyOverprint
        addr).m_flatBlack = false ∧
    transformColor
        (CCmykBlackConverterImplementation.new jawsMako useDeviceN doNotApplyOverprint addr)
        (transformColor
          (CCmykBlackConverterImplementation.new jawsMako useDeviceN doNotApplyOverprint addr)
          c) =
      transformColor
        (CCmykBlackConverterImplementation.new jawsMako useDeviceN doNotApplyOverprint addr)
        c := by
  have hfb := flatBlack_not_richBlack jawsMako useDeviceN doNotApplyOverprint addr
  refine ⟨hfb, ?_⟩
  cases hr : colorIsCmykRichBlack c
  · simp [transformColor, hr]
  · simp [transformColor, hr, hfb]

theorem richBlackExample_richBlack : colorIsCmykRichBlack richBlackExample = true := by
  rw [colorIsCmykRichBlack_eq_true_iff]
  simp [richBlackExample, IDOMColor.createSolidCmyk, IDOMColor.getColorSpace,
    IDOMColor.getComponentValue, FloatVal.ne, FloatVal.eq, FloatVal.one, FloatVal.zero]

/-- C2, at concrete colours: the rich-black example colour is mapped to the shared
flat black, and the shared flat black is mapped to itself. -/
theorem transformColor_spec_witness :
    transformColor (CCmykBlackConverterImplementation.new exampleJawsMako false false 0)
        richBlackExample =
      (CCmykBlackConverterImplementation.new exampleJawsMako false false 0).m_flatBlack ∧
    transformColor (CCmykBlackConverterImplementation.new exampleJawsMako false false 0)
        (CCmykBlackConverterImplementation.new exampleJawsMako false false 0).m_flatBlack =
      (CCmykBlackConverterImplementation.new exampleJawsMako false false 0).m_flatBlack :=
  ⟨(transformColor_spec _ richBlackExample).1 richBlackExample_richBlack,
    (transformColor_spec _ _).2.1 (flatBlack_not_richBlack exampleJawsMako false false 0)⟩

/-- C4: for a SolidColor brush whose colour is rich black, `transformBrush` returns a
new SolidColor brush (a new object, at the address `next`) with the members of the
input brush except the colour, which is the shared flat-black colour: Device CMYK
(0,0,0,1) in DirectCMYK mode; in SpotDeviceN mode the colour of opacity 1.0 and tint 1.0
in the DeviceN space of the single colorant "FlatBlack", mapped to CMYK (0,0,0,1), with
alternate space Device CMYK.  The input colour is an object of a consistent heap: if
it is at the address of the shared flat black, it is that object. -/
theorem transformBrush_solidColor_richBlack (jawsMako : IJawsMako)
    (useDeviceN doNotApplyOverprint : Bool) (flatAddr addr attrs next : Nat) (c : IDOMColor)
    (hrich : colorIsCmykRichBlack c = true)
    (hheap : c.addr = flatAddr →
      c = (CCmykBlackConverterImplementation.new jawsMako useDeviceN doNotApplyOverprint
        flatAddr).m_flatBlack)
    (hlive : addr < next) :
    ∃ newColor : IDOMColor,
      transformBrush
          (CCmykBlackConverterImplementation.new jawsMako useDeviceN doNotApplyOverprint
            flatAddr)
          (some (IDOMBrush.SolidColor addr attrs c)) next =
        .ok (some (IDOMBrush.SolidColor next attrs newColor), next + 1) ∧
      next ≠ addr ∧
      newColor =
        (CCmykBlackConverterImplementation.new jawsMako useDeviceN doNotApplyOverprint
          flatAddr).m_flatBlack ∧
      (useDeviceN = false →
        newColor =
          { addr := flatAddr, colorSpace := IDOMColorSpace.DeviceCMYK,
            opacity := FloatVal.finite 1,
            components :=
              [FloatVal.finite 0, FloatVal.finite 0, FloatVal.finite 0, FloatVal.finite 1] }) ∧
      (useDeviceN = true →
        newColor =
          { addr := flatAddr,
            colorSpace :=
              IDOMColorSpace.DeviceN
                [{ name := "FlatBlack",
                   components :=
                    [FloatVal.finite 0, FloatVal.finite 0, FloatVal.finite 0,
                      FloatVal.finite 1] }]
                IDOMColorSpace.DeviceCMYK,
            opacity := FloatVal.finite 1,
            components := [FloatVal.finite 1] }) := by
  have hfb := flatBlack_not_richBlack jawsMako useDeviceN doNotApplyOverprint flatAddr
  have haddr : (CCmykBlackConverterImplementation.new jawsMako useDeviceN doNotApplyOverprint
      flatAddr).m_flatBlack.addr = flatAddr := by
    cases useDeviceN <;>
      simp [CCmykBlackConverterImplementation.new, IDOMColor.createSolidCmyk,
        makeNewDeviceNColor, IDOMColor.create]
  have hne : c.addr ≠ flatAddr := by
    intro h
    rw [hheap h, hfb] at hrich
    exact Bool.noConfusion hrich
  refine ⟨_, ?_, Nat.ne_of_gt hlive, rfl, ?_, ?_⟩
  · simp [transformBrush, transformBrushObject, transformColor, hrich, haddr, hne]
  · intro h
    subst h
    simp [CCmykBlackConverterImplementation.new, IDOMColor.createSolidCmyk, FloatVal.one,
      FloatVal.zero]
  · intro h
    subst h
    simp [CCmykBlackConverterImplementation.new, makeNewDeviceNColor, IDOMColor.create,
      makeNewDeviceNColorSpace, FloatVal.one, FloatVal.zero]

/-- C4, at the brush with the colour C = 0.2, M = 0.1, Y = 0.05, K = 1.0: the new brush
at address 10 carries Device CMYK (0,0,0,1) in DirectCMYK mode and the "FlatBlack" spot
colour at tint 1.0 in SpotDeviceN mode. -/
theorem transformBrush_solidColor_richBlack_witness :
    transformBrush (CCmykBlackConverterImplementation.new exampleJawsMako false false 0)
        (some (IDOMBrush.SolidColor 8 0 richBlackExample)) 10 =
      .ok (some (IDOMBrush.SolidColor 10 0
        { addr := 0, colorSpace := IDOMColorSpace.DeviceCMYK, opacity := FloatVal.finite 1,
          components :=
            [FloatVal.finite 0, FloatVal.finite 0, FloatVal.finite 0, FloatVal.finite 1] }),
        10 + 1) ∧
    transformBrush (CCmykBlackConverterImplementation.new exampleJawsMako true false 0)
        (some (IDOMBrush.SolidColor 8 0 richBlackExample)) 10 =
      .ok (some (IDOMBrush.SolidColor 10 0
        { addr := 0,
          colorSpace :=
            IDOMColorSpace.DeviceN
              [{ name := "FlatBlack",
                 components :=
                  [FloatVal.finite 0, FloatVal.finite 0, FloatVal.finite 0,
                    FloatVal.finite 1] }]
              IDOMColorSpace.DeviceCMYK,
          opacity := FloatVal.finite 1,
          components := [FloatVal.finite 1] }),
        10 + 1) := by
  obtain ⟨c1, h1, _, _, hd1, _⟩ :=
    transformBrush_solidColor_richBlack exampleJawsMako false false 0 8 0 10 richBlackExample
      richBlackExample_richBlack (fun h => absurd h (by decide)) (by decide)
  obtain ⟨c2, h2, _, _, _, hs2⟩ :=
    transformBrush_solidColor_richBlack exampleJawsMako true false 0 8 0 10 richBlackExample
      richBlackExample_richBlack (fun h => absurd h (by decide)) (by decide)
  rw [hd1 rfl] at h1
  rw [hs2 rfl] at h2
  exact ⟨h1, h2⟩

theorem scanLoop8_eq (s : List Nat) (xs : List Nat) (rb : Bool) :
    scanLoop8 s xs rb =
      (rb || xs.any (fun x => getU8 s (x + 3) == 255
        && (getU8 s x != 0 || getU8 s (x + 1) != 0 || getU8 s (x + 2) != 0))) := by
  induction xs generalizing rb with
  | nil => simp [scanLoop8]
  | cons x xs ih =>
    unfold scanLoop8
    by_cases hk : getU8 s (x + 3) = 255
    · by_cases hc : (getU8 s x != 0 || getU8 s (x + 1) != 0 || getU8 s (x + 2) != 0) = true
      · simp [hk, hc]
      · simp only [Bool.not_eq_true] at hc
        simp [hk, hc, ih]
    · have hk2 : (getU8 s (x + 3) == 255) = false := by simpa using hk
      simp [hk, hk2, ih]

theorem scanLoop16_eq (s : List Nat) (xs : List Nat) (rb : Bool) :
    scanLoop16 s xs rb =
      (rb || xs.any (fun x => getU16 s (x + 3) == 65535
        && (getU16 s x != 0 || getU16 s (x + 1) != 0 || getU16 s (x + 2) != 0))) := by
  induction xs generalizing rb with
  | nil => simp [scanLoop16]
  | cons x xs ih =>
    unfold scanLoop16
    by_cases hk : getU16 s (x + 3) = 65535
    · by_cases hc : (getU16 s x != 0 || getU16 s (x + 1) != 0 || getU16 s (x + 2) != 0) = true
      · simp [hk, hc]
      · simp only [Bool.not_eq_true] at hc
        simp [hk, hc, ih]
    · have hk2 : (getU16 s (x + 3) == 65535) = false := by simpa using hk
      simp [hk, hk2, ih]

theorem foldl_or_eq_any {α : Type} (g : α → Bool) (l : List α) (b : Bool) :
    l.foldl (fun rb y => rb || g y) b = (b || l.any g) := by
  induction l generalizing b with
  | nil => simp
  | cons a l ih => simp [ih, Bool.or_assoc]

theorem loopIndices_mul (w nc : Nat) (hnc : 0 < nc) :
    loopIndices (w * nc) nc = (List.range w).map (fun k => k * nc) := by
  unfold loopIndices
  have : (w * nc + nc - 1) / nc = w := by
    have h1 : w * nc + nc - 1 = (nc - 1) + nc * w := by
      have := Nat.mul_comm w nc
      omega
    rw [h1, Nat.add_mul_div_left _ _ hnc, Nat.div_eq_of_lt (by omega)]
    simp
  rw [this]

theorem mem_loopIndices (n nc x : Nat) (hnc : 0 < nc) :
    x ∈ loopIndices n nc ↔ x < n ∧ x % nc = 0 := by
  unfold loopIndices
  simp only [List.mem_map, List.mem_range]
  constructor
  · rintro ⟨k, hk, rfl⟩
    refine ⟨?_, Nat.mul_mod_left k nc⟩
    have h2 : k * nc < ((n + nc - 1) / nc) * nc := Nat.mul_lt_mul_of_pos_right hk hnc
    have h3 : ((n + nc - 1) / nc) * nc ≤ n + nc - 1 := Nat.div_mul_le_self _ _
    by_contra hge
    have h4 : n ≤ k * nc := by omega
    have h5 : (k + 1) * nc ≤ ((n + nc - 1) / nc) * nc := Nat.mul_le_mul_right nc hk
    have h6 : (k + 1) * nc = k * nc + nc := by ring
    omega
  · rintro ⟨hx, hmod⟩
    refine ⟨x / nc, ?_, Nat.div_mul_cancel (Nat.dvd_of_mod_eq_zero hmod)⟩
    rw [Nat.div_lt_iff_lt_mul hnc]
    have h3 := Nat.lt_div_mul_add (a := n + nc - 1) hnc
    have : (n + nc - 1) / nc * nc + nc > n + nc - 1 := h3
    omega

/-- The value of `richBlack` after the scan of a frame whose rows are read as
`samples` samples of `numChannels` per pixel. -/
theorem scanPass_eq (f : IImageFrame) (nc : Nat) :
    scanPass f nc =
      if f.bps = 8 then
        .ok ((List.range f.height).any (fun y =>
          (loopIndices f.rawBytesPerRow nc).any (fun x =>
            getU8 (f.row y) (x + 3) == 255
              && (getU8 (f.row y) x != 0 || getU8 (f.row y) (x + 1) != 0
                || getU8 (f.row y) (x + 2) != 0))))
      else if f.bps = 16 then
        .ok ((List.range f.height).any (fun y =>
          (loopIndices (f.rawBytesPerRow / 2) nc).any (fun x =>
            getU16 (f.row y) (x + 3) == 65535
              && (getU16 (f.row y) x != 0 || getU16 (f.row y) (x + 1) != 0
                || getU16 (f.row y) (x + 2) != 0))))
      else .error (EDLError.JM_ERR_GENERAL "Unexpected BPS") := by
  unfold scanPass
  simp only [IImageFrame.getBPS, IImageFrame.getHeight, IImageFrame.getRawBytesPerRow,
    IImageFrame.row, scanLoop8_eq, scanLoop16_eq, foldl_or_eq_any, Bool.false_or]
  by_cases h8 : f.bps = 8
  · simp [h8]
  · by_cases h16 : f.bps = 16
    · simp [h16]
    · simp [h8, h16]

theorem IImageFrame.numChannels_pos (f : IImageFrame) : 0 < f.numChannels := by
  unfold IImageFrame.numChannels
  omega

theorem IImageFrame.numChannels_cases (f : IImageFrame) :
    f.numChannels = 4 ∨ f.numChannels = 5 := by
  unfold IImageFrame.numChannels
  split <;> simp

theorem scanPass_unpadded (f : IImageFrame) (hu : f.unpadded)
    (hb : f.bps = 8 ∨ f.bps = 16) :
    scanPass f f.numChannels = .ok f.hasRichBlackPixel := by
  rw [scanPass_eq]
  have hpos := f.numChannels_pos
  unfold IImageFrame.unpadded at hu
  rcases hb with h8 | h16
  · have hsz : f.rawBytesPerRow = f.width * f.numChannels := by rw [hu, h8]; simp
    simp only [h8, if_true, hsz, loopIndices_mul _ _ hpos]
    simp [IImageFrame.hasRichBlackPixel, IImageFrame.pixelIsRichBlack, rowPixelIsRichBlack,
      rowSample, maxSample, h8, List.any_map, Function.comp_def]
  · have hsz : f.rawBytesPerRow / 2 = f.width * f.numChannels := by rw [hu, h16]; simp
    have hne : ¬ (16 = 8) := by decide
    simp only [h16, hne, if_false, if_true, hsz, loopIndices_mul _ _ hpos]
    simp [IImageFrame.hasRichBlackPixel, IImageFrame.pixelIsRichBlack, rowPixelIsRichBlack,
      rowSample, maxSample, h16, List.any_map, Function.comp_def]

/-- The depths that `getFilteredImage` accepts. -/
theorem getFilteredImage_supported (self : CCmykBlackConverterImplementation) (img : IDOMImage)
    (next : Nat)
    (hs : img.frame.bps = 1 ∨ img.frame.bps = 2 ∨ img.frame.bps = 4 ∨ img.frame.bps = 8
      ∨ img.frame.bps = 12 ∨ img.frame.bps = 16) :
    ∃ fi n1, getFilteredImage self img img.frame.bps next = .ok (fi, n1)
      ∧ fi.frame = normalizedFrame self img ∧ next ≤ n1 := by
  unfold getFilteredImage normalizedFrame
  by_cases h1 : img.frame.bps = 1 ∨ img.frame.bps = 2 ∨ img.frame.bps = 4
  · refine ⟨IDOMFilteredImage.create self.m_jawsMako next img 8, next + 1, ?_, ?_,
      Nat.le_succ _⟩
    · simp only [h1, if_true]
    · simp only [h1, if_true, IDOMFilteredImage.create, IDOMImage.getImageFrame]
  · by_cases h2 : img.frame.bps = 12
    · refine ⟨IDOMFilteredImage.create self.m_jawsMako next img 16, next + 1, ?_, ?_,
        Nat.le_succ _⟩
      · simp only [h1, if_true, if_false]
        simp only [h2, if_true]
      · simp only [h1, if_true, if_false, IDOMFilteredImage.create, IDOMImage.getImageFrame]
        simp only [h2, if_true]
    · have h3 : img.frame.bps = 8 ∨ img.frame.bps = 16 := by omega
      refine ⟨img, next, ?_, ?_, le_refl _⟩
      · simp only [h1, h2, h3, if_true, if_false]
      · simp only [h1, h2, if_false]

theorem getFilteredImage_unsupported (self : CCmykBlackConverterImplementation)
    (img : IDOMImage) (next : Nat)
    (hs : ¬ (img.frame.bps = 1 ∨ img.frame.bps = 2 ∨ img.frame.bps = 4 ∨ img.frame.bps = 8
      ∨ img.frame.bps = 12 ∨ img.frame.bps = 16)) :
    getFilteredImage self img img.frame.bps next =
      .error (EDLError.JM_ERR_GENERAL "Unsupported BPS") := by
  unfold getFilteredImage
  have h1 : ¬ (img.frame.bps = 1 ∨ img.frame.bps = 2 ∨ img.frame.bps = 4) := by omega
  have h2 : ¬ img.frame.bps = 12 := by omega
  have h3 : ¬ (img.frame.bps = 8 ∨ img.frame.bps = 16) := by omega
  simp only [h1, h2, h3, if_false]

/-- What `transformImage` does for a Device CMYK image of an accepted depth, in terms
of the scan and the rewrite of the normalized frame. -/
theorem transformImage_cmyk (self : CCmykBlackConverterImplementation) (img : IDOMImage)
    (next : Nat) (hcs : img.frame.colorSpace = IDOMColorSpace.DeviceCMYK)
    (hs : img.frame.bps = 1 ∨ img.frame.bps = 2 ∨ img.frame.bps = 4 ∨ img.frame.bps = 8
      ∨ img.frame.bps = 12 ∨ img.frame.bps = 16) :
    ∃ n1, next ≤ n1 ∧
      transformImage self img next =
        match scanPass (normalizedFrame self img) (normalizedFrame self img).numChannels with
        | .error e => .error e
        | .ok richBlack =>
          if !richBlack then .ok (img, n1)
          else
            .ok (IDOMRawImage.createWriterAndImage self.m_jawsMako n1
                  self.m_flatBlackColorSpace (normalizedFrame self img).width
                  (normalizedFrame self img).height (normalizedFrame self img).bps
                  (normalizedFrame self img).xResolution (normalizedFrame self img).yResolution
                  (normalizedFrame self img).extraChannelType
                  (rewritePass self (normalizedFrame self img)
                    (normalizedFrame self img).numChannels),
                n1 + 1) := by
  obtain ⟨fi, n1, hfi, hfr, hle⟩ := getFilteredImage_supported self img next hs
  refine ⟨n1, hle, ?_⟩
  unfold transformImage
  simp only [IDOMImage.getImageFrame, IImageFrame.getColorSpace, IImageFrame.getBPS, hcs,
    IDOMColorSpace.isDeviceCMYK, hfi, hfr, IImageFrame.getExtraChannelType,
    IDOMColorSpace.getNumComponents, IImageFrame.getWidth, IImageFrame.getHeight]
  have hnc : (if ((normalizedFrame self img).extraChannelType
        != eImageExtraChannelType.eIECNone) = true then (4 % 256 + 1) % 256 else 4 % 256)
      = (normalizedFrame self img).numChannels := by
    unfold IImageFrame.numChannels
    by_cases he : (normalizedFrame self img).extraChannelType = eImageExtraChannelType.eIECNone
    · simp [he]
    · simp [he]
  have hlt : ¬ (normalizedFrame self img).numChannels < 4 := by
    have := (normalizedFrame self img).numChannels_cases
    omega
  rw [hnc, if_neg hlt]
  cases scanPass (normalizedFrame self img) (normalizedFrame self img).numChannels with
  | error e => rfl
  | ok richBlack => cases richBlack <;> rfl

theorem normalizedFrame_bps (self : CCmykBlackConverterImplementation) (img : IDOMImage)
    (hscaler : ∀ bps frame, (self.m_jawsMako.bitScaler bps frame).bps = bps)
    (hs : img.frame.bps = 1 ∨ img.frame.bps = 2 ∨ img.frame.bps = 4 ∨ img.frame.bps = 8
      ∨ img.frame.bps = 12 ∨ img.frame.bps = 16) :
    (normalizedFrame self img).bps = 8 ∨ (normalizedFrame self img).bps = 16 := by
  unfold normalizedFrame
  by_cases h1 : img.frame.bps = 1 ∨ img.frame.bps = 2 ∨ img.frame.bps = 4
  · rw [if_pos h1]
    exact Or.inl (hscaler _ _)
  · by_cases h2 : img.frame.bps = 12
    · rw [if_neg h1, if_pos h2]
      exact Or.inr (hscaler _ _)
    · simp only [h1, h2, if_false]
      omega

theorem transformImage_not_cmyk (self : CCmykBlackConverterImplementation) (img : IDOMImage)
    (next : Nat) (hcs : img.frame.colorSpace ≠ IDOMColorSpace.DeviceCMYK) :
    transformImage self img next = .ok (img, next) := by
  have h : img.frame.colorSpace.isDeviceCMYK = false := by
    cases hc : img.frame.colorSpace.isDeviceCMYK
    · rfl
    · exact absurd ((IDOMColorSpace.isDeviceCMYK_iff _).1 hc) hcs
  unfold transformImage
  simp [IDOMImage.getImageFrame, IImageFrame.getColorSpace, h]

theorem transformImage_unsupported (self : CCmykBlackConverterImplementation)
    (img : IDOMImage) (next : Nat) (hcs : img.frame.colorSpace = IDOMColorSpace.DeviceCMYK)
    (hs : ¬ (img.frame.bps = 1 ∨ img.frame.bps = 2 ∨ img.frame.bps = 4 ∨ img.frame.bps = 8
      ∨ img.frame.bps = 12 ∨ img.frame.bps = 16)) :
    transformImage self img next = .error (EDLError.JM_ERR_GENERAL "Unsupported BPS") := by
  unfold transformImage
  simp only [IDOMImage.getImageFrame, IImageFrame.getColorSpace, IImageFrame.getBPS, hcs,
    IDOMColorSpace.isDeviceCMYK, getFilteredImage_unsupported self img next hs]
  rfl

/-- The result of `transformImage` for a Device CMYK image of an accepted depth whose
normalized frame is at depth 8 or 16 and holds no padding. -/
theorem transformImage_cmyk_unpadded (self : CCmykBlackConverterImplementation)
    (img : IDOMImage) (next : Nat) (hcs : img.frame.colorSpace = IDOMColorSpace.DeviceCMYK)
    (hs : img.frame.bps = 1 ∨ img.frame.bps = 2 ∨ img.frame.bps = 4 ∨ img.frame.bps = 8
      ∨ img.frame.bps = 12 ∨ img.frame.bps = 16)
    (hb : (normalizedFrame self img).bps = 8 ∨ (normalizedFrame self img).bps = 16)
    (hu : (normalizedFrame self img).unpadded) :
    ∃ n1, next ≤ n1 ∧
      transformImage self img next =
        if (normalizedFrame self img).hasRichBlackPixel = false then .ok (img, n1)
        else
          .ok (IDOMRawImage.createWriterAndImage self.m_jawsMako n1
                self.m_flatBlackColorSpace (normalizedFrame self img).width
                (normalizedFrame self img).height (normalizedFrame self img).bps
                (normalizedFrame self img).xResolution (normalizedFrame self img).yResolution
                (normalizedFrame self img).extraChannelType
                (rewritePass self (normalizedFrame self img)
                  (normalizedFrame self img).numChannels),
              n1 + 1) := by
  obtain ⟨n1, hle, h⟩ := transformImage_cmyk self img next hcs hs
  refine ⟨n1, hle, ?_⟩
  rw [h, scanPass_unpadded _ hu hb]
  cases (normalizedFrame self img).hasRichBlackPixel <;> rfl

theorem IImageFrame.hasRichBlackPixel_eq_false_iff (f : IImageFrame) :
    f.hasRichBlackPixel = false ↔
      ∀ y, y < f.height → ∀ i, i < f.width → f.pixelIsRichBlack y i = false := by
  unfold IImageFrame.hasRichBlackPixel
  simp [List.any_eq_false]

theorem IImageFrame.hasRichBlackPixel_eq_true_iff (f : IImageFrame) :
    f.hasRichBlackPixel = true ↔
      ∃ y, y < f.height ∧ ∃ i, i < f.width ∧ f.pixelIsRichBlack y i = true := by
  unfold IImageFrame.hasRichBlackPixel
  simp [List.any_eq_true]

/-- C10: an image that is not Device CMYK is returned without error whatever its
depth; for a Device CMYK image, when the bit scaler reports the depth it was asked
for, `transformImage` raises an error exactly when the depth is outside
{1, 2, 4, 8, 12, 16}, and the only error it raises is "Unsupported BPS" (the
"Unexpected BPS" branch is not reached). -/
theorem transformImage_error_iff (self : CCmykBlackConverterImplementation) (img : IDOMImage)
    (next : Nat)
    (hscaler : ∀ bps frame, (self.m_jawsMako.bitScaler bps frame).bps = bps) :
    (img.frame.colorSpace = IDOMColorSpace.DeviceCMYK →
      ((∃ e, transformImage self img next = .error e) ↔
        ¬ (img.frame.bps = 1 ∨ img.frame.bps = 2 ∨ img.frame.bps = 4 ∨ img.frame.bps = 8
          ∨ img.frame.bps = 12 ∨ img.frame.bps = 16)) ∧
      (transformImage self img next = .error (EDLError.JM_ERR_GENERAL "Unsupported BPS") ↔
        ¬ (img.frame.bps = 1 ∨ img.frame.bps = 2 ∨ img.frame.bps = 4 ∨ img.frame.bps = 8
          ∨ img.frame.bps = 12 ∨ img.frame.bps = 16)) ∧
      transformImage self img next ≠ .error (EDLError.JM_ERR_GENERAL "Unexpected BPS")) ∧
    (img.frame.colorSpace ≠ IDOMColorSpace.DeviceCMYK →
      transformImage self img next = .ok (img, next)) := by
  refine ⟨fun hcs => ?_, transformImage_not_cmyk self img next⟩
  by_cases hs : img.frame.bps = 1 ∨ img.frame.bps = 2 ∨ img.frame.bps = 4 ∨ img.frame.bps = 8
      ∨ img.frame.bps = 12 ∨ img.frame.bps = 16
  · obtain ⟨n1, _, h⟩ := transformImage_cmyk self img next hcs hs
    have hb := normalizedFrame_bps self img hscaler hs
    have hok : ∃ r, transformImage self img next = .ok r := by
      rw [h, scanPass_eq]
      rcases hb with h8 | h16
      · simp only [h8, if_true]
        split <;> exact ⟨_, rfl⟩
      · have hne : ¬ (16 = 8) := by decide
        simp only [h16, hne, if_false, if_true]
        split <;> exact ⟨_, rfl⟩
    obtain ⟨r, hr⟩ := hok
    rw [hr]
    simp [hs]
  · rw [transformImage_unsupported self img next hcs hs]
    simp [hs]

/-- C10, at a Device CMYK image of depth 3: the error is "Unsupported BPS". -/
theorem transformImage_error_iff_witness :
    transformImage (CCmykBlackConverterImplementation.new exampleJawsMako false false 0)
        (exampleImage 3 1 [[0, 0]]) 10 =
      .error (EDLError.JM_ERR_GENERAL "Unsupported BPS") :=
  ((transformImage_error_iff (CCmykBlackConverterImplementation.new exampleJawsMako false false 0)
    (exampleImage 3 1 [[0, 0]]) 10 (fun _ _ => rfl)).1 rfl).2.1.2 (by decide)

/-- C7: `transformImage` returns the input image itself (not the scaled image, not a
new raster) for every image that is not Device CMYK, and for every Device CMYK image
of depth 1, 2, 4, 8, 12 or 16 whose normalized frame (at the depth the scaler was asked
for, rows without padding) has no rich-black pixel.  Every converter is covered, hence
both modes. -/
theorem transformImage_unchanged (self : CCmykBlackConverterImplementation) (img : IDOMImage)
    (next : Nat) :
    (img.frame.colorSpace ≠ IDOMColorSpace.DeviceCMYK →
      transformImage self img next = .ok (img, next)) ∧
    (img.frame.colorSpace = IDOMColorSpace.DeviceCMYK →
      (img.frame.bps = 1 ∨ img.frame.bps = 2 ∨ img.frame.bps = 4 ∨ img.frame.bps = 8
        ∨ img.frame.bps = 12 ∨ img.frame.bps = 16) →
      (∀ bps frame, (self.m_jawsMako.bitScaler bps frame).bps = bps) →
      (normalizedFrame self img).unpadded →
      (∀ y, y < (normalizedFrame self img).height → ∀ i, i < (normalizedFrame self img).width →
        (normalizedFrame self img).pixelIsRichBlack y i = false) →
      ∃ n1, next ≤ n1 ∧ transformImage self img next = .ok (img, n1)) := by
  refine ⟨transformImage_not_cmyk self img next, fun hcs hs hscaler hu hnone => ?_⟩
  have hb := normalizedFrame_bps self img hscaler hs
  obtain ⟨n1, hle, h⟩ := transformImage_cmyk_unpadded self img next hcs hs hb hu
  refine ⟨n1, hle, ?_⟩
  rw [h, if_pos ((IImageFrame.hasRichBlackPixel_eq_false_iff _).2 hnone)]

/-- C7, at an 8-bit Device CMYK image with the pixels (0,0,0,255) and (0,0,0,0) and at a
12-bit one with a pixel (0,0,0,0): the image is returned as it is. -/
theorem transformImage_unchanged_witness :
    (∃ n1, 10 ≤ n1 ∧
      transformImage (CCmykBlackConverterImplementation.new exampleJawsMako true false 0)
          (exampleImage 8 2 [[0, 0, 0, 255, 0, 0, 0, 0]]) 10 =
        .ok (exampleImage 8 2 [[0, 0, 0, 255, 0, 0, 0, 0]], n1)) ∧
    (∃ n1, 10 ≤ n1 ∧
      transformImage (CCmykBlackConverterImplementation.new exampleJawsMako false false 0)
          (exampleImage 12 1 [[0, 0, 0, 0, 0, 0]]) 10 =
        .ok (exampleImage 12 1 [[0, 0, 0, 0, 0, 0]], n1)) :=
  ⟨(transformImage_unchanged (CCmykBlackConverterImplementation.new exampleJawsMako true false 0)
      (exampleImage 8 2 [[0, 0, 0, 255, 0, 0, 0, 0]]) 10).2 rfl (by decide) (fun _ _ => rfl)
      (by decide) (by decide),
    (transformImage_unchanged
      (CCmykBlackConverterImplementation.new exampleJawsMako false false 0)
      (exampleImage 12 1 [[0, 0, 0, 0, 0, 0]]) 10).2 rfl (by decide) (fun _ _ => rfl)
      (by decide) (by decide)⟩

theorem getD_set_zero (s : List Nat) (i j : Nat) :
    (s.set i 0).getD j 0 = if j = i then 0 else s.getD j 0 := by
  simp only [List.getD_eq_getElem?_getD, List.getElem?_set]
  by_cases h : i = j
  · subst h
    by_cases hl : i < s.length
    · simp [hl]
    · simp [hl]
  · have h2 : ¬ j = i := fun e => h e.symm
    simp [h, h2]

theorem getU8_setU8_zero (s : List Nat) (i j : Nat) :
    getU8 (setU8 s i 0) j = if j = i then 0 else getU8 s j := by
  simp only [getU8, setU8, Nat.zero_mod, getD_set_zero]

theorem getD_setU16_zero (s : List Nat) (i j : Nat) :
    (setU16 s i 0).getD j 0 = if j = 2 * i ∨ j = 2 * i + 1 then 0 else s.getD j 0 := by
  simp only [setU16, Nat.zero_mod, Nat.zero_div, getD_set_zero]
  by_cases h1 : j = 2 * i + 1
  · simp [h1]
  · by_cases h2 : j = 2 * i
    · simp [h2]
    · simp [h1, h2]

theorem directLoop8_get (nc : Nat) (hnc : nc = 4 ∨ nc = 5) (xs : List Nat)
    (hxs : ∀ x ∈ xs, x % nc = 0) (s : List Nat) (j : Nat) :
    getU8 (directLoop8 xs s) j =
      if j % nc ≤ 2 ∧ (j - j % nc) ∈ xs ∧ getU8 s (j - j % nc + 3) = 255 then 0
      else getU8 s j := by
  induction xs generalizing s with
  | nil => simp [directLoop8]
  | cons x xs ih =>
    have hx : x % nc = 0 := hxs x (List.mem_cons_self _ _)
    have hxs2 : ∀ x2 ∈ xs, x2 % nc = 0 := fun x2 h => hxs x2 (List.mem_cons_of_mem _ h)
    rw [directLoop8]
    by_cases hk : getU8 s (x + 3) = 255
    · have hk2 : (getU8 s (x + 3) == 255) = true := by simp [hk]
      rw [if_pos hk2, ih hxs2]
      have hget : ∀ m, getU8 (setU8 (setU8 (setU8 s (x + 2) 0) (x + 1) 0) x 0) m =
          if m = x ∨ m = x + 1 ∨ m = x + 2 then 0 else getU8 s m := by
        intro m
        simp only [getU8_setU8_zero]
        by_cases h0 : m = x
        · simp [h0]
        · by_cases h1 : m = x + 1
          · simp [h1]
          · by_cases h2 : m = x + 2
            · simp [h2]
            · simp [h0, h1, h2]
      rw [hget, hget]
      have hK : ¬ (j - j % nc + 3 = x ∨ j - j % nc + 3 = x + 1 ∨ j - j % nc + 3 = x + 2) := by
        rcases hnc with h | h <;> subst h <;> omega
      rw [if_neg hK]
      simp only [List.mem_cons]
      by_cases hz : j = x ∨ j = x + 1 ∨ j = x + 2
      · have hb : j - j % nc = x ∧ j % nc ≤ 2 := by
          rcases hnc with h | h <;> subst h <;> omega
        have hlhs : (j % nc ≤ 2 ∧ (j - j % nc = x ∨ j - j % nc ∈ xs)
            ∧ getU8 s (j - j % nc + 3) = 255) := ⟨hb.2, Or.inl hb.1, by rw [hb.1]; exact hk⟩
        rw [if_pos hz, if_pos hlhs]
        split <;> rfl
      · rw [if_neg hz]
        have hb : ¬ (j % nc ≤ 2 ∧ j - j % nc = x) := by
          rcases hnc with h | h <;> subst h <;> omega
        by_cases hc : j % nc ≤ 2 ∧ j - j % nc ∈ xs ∧ getU8 s (j - j % nc + 3) = 255
        · rw [if_pos hc, if_pos ⟨hc.1, Or.inr hc.2.1, hc.2.2⟩]
        · rw [if_neg hc, if_neg]
          rintro ⟨h1, h2 | h2, h3⟩
          · exact hb ⟨h1, h2⟩
          · exact hc ⟨h1, h2, h3⟩
    · have hk2 : (getU8 s (x + 3) == 255) = false := by simp [hk]
      rw [hk2, if_neg Bool.false_ne_true, ih hxs2]
      simp only [List.mem_cons]
      by_cases hc : j % nc ≤ 2 ∧ j - j % nc ∈ xs ∧ getU8 s (j - j % nc + 3) = 255
      · rw [if_pos hc, if_pos ⟨hc.1, Or.inr hc.2.1, hc.2.2⟩]
      · rw [if_neg hc, if_neg]
        rintro ⟨h1, h2 | h2, h3⟩
        · rw [h2] at h3
          exact hk h3
        · exact hc ⟨h1, h2, h3⟩

theorem directLoop16_getD (nc : Nat) (hnc : nc = 4 ∨ nc = 5) (xs : List Nat)
    (hxs : ∀ x ∈ xs, x % nc = 0) (s : List Nat) (j : Nat) :
    (directLoop16 xs s).getD j 0 =
      if (j / 2) % nc ≤ 2 ∧ (j / 2 - (j / 2) % nc) ∈ xs
          ∧ getU16 s (j / 2 - (j / 2) % nc + 3) = 65535 then 0
      else s.getD j 0 := by
  induction xs generalizing s with
  | nil => simp [directLoop16]
  | cons x xs ih =>
    have hx : x % nc = 0 := hxs x (List.mem_cons_self _ _)
    have hxs2 : ∀ x2 ∈ xs, x2 % nc = 0 := fun x2 h => hxs x2 (List.mem_cons_of_mem _ h)
    rw [directLoop16]
    by_cases hk : getU16 s (x + 3) = 65535
    · have hk2 : (getU16 s (x + 3) == 65535) = true := by simp [hk]
      rw [if_pos hk2, ih hxs2]
      have hget : ∀ m, (setU16 (setU16 (setU16 s (x + 2) 0) (x + 1) 0) x 0).getD m 0 =
          if 2 * x ≤ m ∧ m ≤ 2 * x + 5 then 0 else s.getD m 0 := by
        intro m
        simp only [getD_setU16_zero]
        by_cases h0 : m = 2 * x ∨ m = 2 * x + 1
        · have : 2 * x ≤ m ∧ m ≤ 2 * x + 5 := by omega
          simp [h0, this]
        · by_cases h1 : m = 2 * (x + 1) ∨ m = 2 * (x + 1) + 1
          · have : 2 * x ≤ m ∧ m ≤ 2 * x + 5 := by omega
            simp [h0, h1, this]
          · by_cases h2 : m = 2 * (x + 2) ∨ m = 2 * (x + 2) + 1
            · have : 2 * x ≤ m ∧ m ≤ 2 * x + 5 := by omega
              simp [h0, h1, h2, this]
            · have : ¬ (2 * x ≤ m ∧ m ≤ 2 * x + 5) := by omega
              simp [h0, h1, h2, this]
      have hKeq : getU16 (setU16 (setU16 (setU16 s (x + 2) 0) (x + 1) 0) x 0)
          (j / 2 - (j / 2) % nc + 3) = getU16 s (j / 2 - (j / 2) % nc + 3) := by
        unfold getU16
        rw [hget, hget, if_neg, if_neg]
        · rcases hnc with h | h <;> subst h <;> omega
        · rcases hnc with h | h <;> subst h <;> omega
      rw [hKeq, hget]
      simp only [List.mem_cons]
      by_cases hz : 2 * x ≤ j ∧ j ≤ 2 * x + 5
      · have hb : j / 2 - (j / 2) % nc = x ∧ (j / 2) % nc ≤ 2 := by
          rcases hnc with h | h <;> subst h <;> omega
        have hlhs : ((j / 2) % nc ≤ 2 ∧ (j / 2 - (j / 2) % nc = x ∨ j / 2 - (j / 2) % nc ∈ xs)
            ∧ getU16 s (j / 2 - (j / 2) % nc + 3) = 65535) :=
          ⟨hb.2, Or.inl hb.1, by rw [hb.1]; exact hk⟩
        rw [if_pos hz, if_pos hlhs]
        split <;> rfl
      · rw [if_neg hz]
        have hb : ¬ ((j / 2) % nc ≤ 2 ∧ j / 2 - (j / 2) % nc = x) := by
          rcases hnc with h | h <;> subst h <;> omega
        by_cases hc : (j / 2) % nc ≤ 2 ∧ j / 2 - (j / 2) % nc ∈ xs
            ∧ getU16 s (j / 2 - (j / 2) % nc + 3) = 65535
        · rw [if_pos hc, if_pos ⟨hc.1, Or.inr hc.2.1, hc.2.2⟩]
        · rw [if_neg hc, if_neg]
          rintro ⟨h1, h2 | h2, h3⟩
          · exact hb ⟨h1, h2⟩
          · exact hc ⟨h1, h2, h3⟩
    · have hk2 : (getU16 s (x + 3) == 65535) = false := by simp [hk]
      rw [hk2, if_neg Bool.false_ne_true, ih hxs2]
      simp only [List.mem_cons]
      by_cases hc : (j / 2) % nc ≤ 2 ∧ j / 2 - (j / 2) % nc ∈ xs
          ∧ getU16 s (j / 2 - (j / 2) % nc + 3) = 65535
      · rw [if_pos hc, if_pos ⟨hc.1, Or.inr hc.2.1, hc.2.2⟩]
      · rw [if_neg hc, if_neg]
        rintro ⟨h1, h2 | h2, h3⟩
        · rw [h2] at h3
          exact hk h3
        · exact hc ⟨h1, h2, h3⟩

/-- Sample `k` of an 8-bit or 16-bit row after the Device CMYK rewrite loop. -/
theorem directLoop_rowSample (nc : Nat) (hnc : nc = 4 ∨ nc = 5) (n : Nat) (s : List Nat)
    (k : Nat) :
    (rowSample 8 (directLoop8 (loopIndices n nc) s) k =
      if k % nc ≤ 2 ∧ k - k % nc < n ∧ rowSample 8 s (k - k % nc + 3) = 255 then 0
      else rowSample 8 s k) ∧
    (rowSample 16 (directLoop16 (loopIndices n nc) s) k =
      if k % nc ≤ 2 ∧ k - k % nc < n ∧ rowSample 16 s (k - k % nc + 3) = 65535 then 0
      else rowSample 16 s k) := by
  have hpos : 0 < nc := by omega
  have hxs : ∀ x ∈ loopIndices n nc, x % nc = 0 := fun x hx =>
    ((mem_loopIndices n nc x hpos).1 hx).2
  have hmem : ∀ m, (m - m % nc) ∈ loopIndices n nc ↔ m - m % nc < n := by
    intro m
    rw [mem_loopIndices n nc _ hpos]
    constructor
    · exact fun h => h.1
    · intro h
      refine ⟨h, ?_⟩
      rcases hnc with h4 | h5
      · subst h4; omega
      · subst h5; omega
  constructor
  · simp only [rowSample, if_true]
    rw [directLoop8_get nc hnc _ hxs]
    simp only [hmem]
  · have hne : ¬ (16 = 8) := by decide
    simp only [rowSample, hne, if_false]
    have e1 : 2 * k / 2 = k := by omega
    have e2 : (2 * k + 1) / 2 = k := by omega
    have hL : getU16 (directLoop16 (loopIndices n nc) s) k =
        (directLoop16 (loopIndices n nc) s).getD (2 * k) 0
          + 256 * (directLoop16 (loopIndices n nc) s).getD (2 * k + 1) 0 := rfl
    rw [hL, directLoop16_getD nc hnc _ hxs, directLoop16_getD nc hnc _ hxs, e1, e2]
    simp only [hmem]
    by_cases hc : k % nc ≤ 2 ∧ k - k % nc < n ∧ getU16 s (k - k % nc + 3) = 65535
    · simp only [hc, and_self, if_true]
    · simp only [hc, if_false]
      rfl

/-- Channel `ch` of pixel `i` of a row of `w` pixels after the Device CMYK rewrite
loop at depth 8 or 16. -/
theorem directLoop_pixel (bps nc : Nat) (hb : bps = 8 ∨ bps = 16) (hnc : nc = 4 ∨ nc = 5)
    (w : Nat) (s : List Nat) (i ch : Nat) (hi : i < w) (hch : ch < nc) :
    rowSample bps
        (if bps = 8 then directLoop8 (loopIndices (w * nc) nc) s
          else directLoop16 (loopIndices (w * nc) nc) s) (i * nc + ch) =
      if ch ≤ 2 ∧ rowSample bps s (i * nc + 3) = maxSample bps then 0
      else rowSample bps s (i * nc + ch) := by
  have h := directLoop_rowSample nc hnc (w * nc) s (i * nc + ch)
  have hmod : (i * nc + ch) % nc = ch := by
    rw [Nat.add_comm, Nat.add_mul_mod_self_right]
    exact Nat.mod_eq_of_lt hch
  have hlt : i * nc < w * nc := Nat.mul_lt_mul_of_pos_right hi (by omega)
  rw [hmod] at h
  have hbase : i * nc + ch - ch = i * nc := by omega
  rw [hbase] at h
  rcases hb with h8 | h16
  · subst h8
    rw [if_pos rfl, h.1]
    simp only [maxSample, if_true, hlt, true_and]
  · subst h16
    have hne : ¬ (16 = 8) := by decide
    rw [if_neg hne, h.2]
    simp only [maxSample, hne, if_false, hlt, true_and]

theorem getD_map_range {α : Type} (g : Nat → α) (h y : Nat) (d : α) (hy : y < h) :
    ((List.range h).map g).getD y d = g y := by
  simp [List.getD_eq_getElem?_getD, List.getElem?_map, List.getElem?_range hy]

theorem rewritePass_direct (self : CCmykBlackConverterImplementation) (f : IImageFrame)
    (nc : Nat) (hmode : self.m_useDeviceN = false) (hu : f.unpadded)
    (hb : f.bps = 8 ∨ f.bps = 16) (hnc : nc = f.numChannels) (y : Nat) (hy : y < f.height) :
    (rewritePass self f nc).length = f.height ∧
    (rewritePass self f nc).getD y [] =
      if f.bps = 8 then directLoop8 (loopIndices (f.width * nc) nc) (f.row y)
      else directLoop16 (loopIndices (f.width * nc) nc) (f.row y) := by
  unfold IImageFrame.unpadded at hu
  subst hnc
  unfold rewritePass
  simp only [hmode, IImageFrame.getBPS, IImageFrame.getWidth, IImageFrame.getHeight,
    IImageFrame.getRawBytesPerRow]
  rcases hb with h8 | h16
  · have hsz : f.rawBytesPerRow = f.width * f.numChannels := by rw [hu, h8]; simp
    have hne : (8 != 8) = false := by decide
    simp only [h8, hne, if_true, Bool.false_eq_true, if_false]
    refine ⟨by simp, ?_⟩
    rw [getD_map_range _ _ _ _ hy]
    simp only [IImageFrame.row, hsz]
  · have hsz : f.rawBytesPerRow / 2 = f.width * f.numChannels := by rw [hu, h16]; simp
    have hne : (16 != 8) = true := by decide
    have hne2 : ¬ (16 = 8) := by decide
    simp only [h16, hne, if_true, hne2, if_false, Bool.false_eq_true]
    refine ⟨by simp, ?_⟩
    rw [getD_map_range _ _ _ _ hy, hsz]
    rfl

/-- C6: in DirectCMYK mode, for a Device CMYK image whose normalized frame is at
depth 8 or 16, holds no padding and has a rich-black pixel, `transformImage` returns a
new image (at a fresh address) of the width, height and depth of the normalized frame,
with one written row per row; in the written rows every pixel that was rich black has
C = M = Y = 0, K the largest sample and its other samples unchanged, and every pixel
that was not rich black has all its samples unchanged. -/
theorem transformImage_directCMYK (self : CCmykBlackConverterImplementation)
    (img : IDOMImage) (next : Nat)
    (hmode : self.m_useDeviceN = false)
    (hcs : img.frame.colorSpace = IDOMColorSpace.DeviceCMYK)
    (hs : img.frame.bps = 1 ∨ img.frame.bps = 2 ∨ img.frame.bps = 4 ∨ img.frame.bps = 8
      ∨ img.frame.bps = 12 ∨ img.frame.bps = 16)
    (hb : (normalizedFrame self img).bps = 8 ∨ (normalizedFrame self img).bps = 16)
    (hu : (normalizedFrame self img).unpadded)
    (hrich : (normalizedFrame self img).hasRichBlackPixel = true) :
    ∃ out n1, next ≤ n1 ∧ transformImage self img next = .ok (out, n1 + 1) ∧
      out.addr = n1 ∧
      out.frame.width = (normalizedFrame self img).width ∧
      out.frame.height = (normalizedFrame self img).height ∧
      out.frame.bps = (normalizedFrame self img).bps ∧
      out.frame.scanLines.length = (normalizedFrame self img).height ∧
      ∀ y, y < (normalizedFrame self img).height → ∀ i, i < (normalizedFrame self img).width →
        ((normalizedFrame self img).pixelIsRichBlack y i = true →
          rowSample (normalizedFrame self img).bps (out.frame.scanLines.getD y [])
              (i * (normalizedFrame self img).numChannels) = 0 ∧
          rowSample (normalizedFrame self img).bps (out.frame.scanLines.getD y [])
              (i * (normalizedFrame self img).numChannels + 1) = 0 ∧
          rowSample (normalizedFrame self img).bps (out.frame.scanLines.getD y [])
              (i * (normalizedFrame self img).numChannels + 2) = 0 ∧
          rowSample (normalizedFrame self img).bps (out.frame.scanLines.getD y [])
              (i * (normalizedFrame self img).numChannels + 3)
            = maxSample (normalizedFrame self img).bps ∧
          ∀ ch, 3 ≤ ch → ch < (normalizedFrame self img).numChannels →
            rowSample (normalizedFrame self img).bps (out.frame.scanLines.getD y [])
                (i * (normalizedFrame self img).numChannels + ch)
              = (normalizedFrame self img).sample y i ch) ∧
        ((normalizedFrame self img).pixelIsRichBlack y i = false →
          ∀ ch, ch < (normalizedFrame self img).numChannels →
            rowSample (normalizedFrame self img).bps (out.frame.scanLines.getD y [])
                (i * (normalizedFrame self img).numChannels + ch)
              = (normalizedFrame self img).sample y i ch) := by
  obtain ⟨n1, hle, h⟩ := transformImage_cmyk_unpadded self img next hcs hs hb hu
  rw [hrich] at h
  have hft : ¬ (true = false) := by decide
  rw [if_neg hft] at h
  refine ⟨_, n1, hle, h, rfl, rfl, rfl, rfl, ?_, ?_⟩
  · have hh : 0 < (normalizedFrame self img).height := by
      obtain ⟨y, hy, _⟩ := (IImageFrame.hasRichBlackPixel_eq_true_iff _).1 hrich
      omega
    exact (rewritePass_direct self _ _ hmode hu hb rfl 0 hh).1
  · intro y hy i hi
    have hrow := (rewritePass_direct self _ _ hmode hu hb rfl y hy).2
    have hnc := (normalizedFrame self img).numChannels_cases
    have hpix := fun ch hch =>
      directLoop_pixel (normalizedFrame self img).bps (normalizedFrame self img).numChannels
        hb hnc (normalizedFrame self img).width ((normalizedFrame self img).row y) i ch hi hch
    simp only [IDOMRawImage.createWriterAndImage, hrow]
    simp only [IImageFrame.pixelIsRichBlack, rowPixelIsRichBlack, IImageFrame.sample,
      Bool.and_eq_true, beq_iff_eq, Bool.or_eq_true, bne_iff_ne, ne_eq,
      Bool.and_eq_false_iff, Bool.or_eq_false_iff, beq_eq_false_iff_ne, bne_eq_false_iff_eq]
    have h3 : 3 < (normalizedFrame self img).numChannels := by omega
    have h0 := hpix 0 (by omega)
    rw [Nat.add_zero] at h0
    constructor
    · rintro ⟨hK, _⟩
      refine ⟨?_, ?_, ?_, ?_, ?_⟩
      · rw [h0, if_pos ⟨by omega, hK⟩]
      · rw [hpix 1 (by omega), if_pos ⟨by omega, hK⟩]
      · rw [hpix 2 (by omega), if_pos ⟨by omega, hK⟩]
      · rw [hpix 3 h3, if_neg (by omega), hK]
      · intro ch h3le hch
        rw [hpix ch hch, if_neg (by omega)]
    · intro hnot ch hch
      rw [hpix ch hch]
      rcases hnot with hK | ⟨⟨hC, hM⟩, hY⟩
      · rw [if_neg (fun hc => hK hc.2)]
      · by_cases hc : ch ≤ 2 ∧ rowSample (normalizedFrame self img).bps
            ((normalizedFrame self img).row y) (i * (normalizedFrame self img).numChannels + 3)
            = maxSample (normalizedFrame self img).bps
        · rw [if_pos hc]
          have : ch = 0 ∨ ch = 1 ∨ ch = 2 := by omega
          rcases this with h | h | h <;> subst h
          · rw [Nat.add_zero, hC]
          · rw [hM]
          · rw [hY]
        · rw [if_neg hc]

/-- C6, at the 8-bit image with the pixel (255,0,0,255) and the rest (0,0,0,0): in the
written first row the first pixel is (0,0,0,255) and the K of the second pixel is 0 as
before. -/
theorem transformImage_directCMYK_witness :
    ∃ out n1, 10 ≤ n1 ∧
      transformImage (CCmykBlackConverterImplementation.new exampleJawsMako false false 0)
          (exampleImage 8 2 [[255, 0, 0, 255, 0, 0, 0, 0], [0, 0, 0, 0, 0, 0, 0, 0]]) 10 =
        .ok (out, n1 + 1) ∧
      rowSample 8 (out.frame.scanLines.getD 0 []) 0 = 0 ∧
      rowSample 8 (out.frame.scanLines.getD 0 []) 3 = 255 ∧
      rowSample 8 (out.frame.scanLines.getD 0 []) 7 = 0 := by
  obtain ⟨out, n1, hle, h, _, _, _, _, _, hpix⟩ :=
    transformImage_directCMYK
      (CCmykBlackConverterImplementation.new exampleJawsMako false false 0)
      (exampleImage 8 2 [[255, 0, 0, 255, 0, 0, 0, 0], [0, 0, 0, 0, 0, 0, 0, 0]]) 10
      rfl rfl (by decide) (by decide) (by decide) (by decide)
  have h0 := (hpix 0 (by decide) 0 (by decide)).1 (by decide)
  have h1 := (hpix 0 (by decide) 1 (by decide)).2 (by decide) 3 (by decide)
  exact ⟨out, n1, hle, h, h0.1, h0.2.2.2.1, h1⟩

theorem getU8_setU8 (s : List Nat) (k v i : Nat) (hi : i < s.length) :
    getU8 (setU8 s k v) i = if i = k then v % 256 else getU8 s i := by
  simp only [getU8, setU8, List.getD_eq_getElem?_getD, List.getElem?_set]
  by_cases h : k = i
  · subst h
    simp [hi]
  · have h2 : ¬ i = k := fun e => h e.symm
    simp [h, h2]

theorem length_setU8 (s : List Nat) (k v : Nat) : (setU8 s k v).length = s.length := by
  simp [setU8]

theorem spotLoop8_length (s : List Nat) (nc : Nat) (xs out : List Nat) :
    (spotLoop8 s nc xs out).length = out.length := by
  induction xs generalizing out with
  | nil => simp [spotLoop8]
  | cons x xs ih =>
    rw [spotLoop8]
    split
    · rw [ih, length_setU8]
    · rw [ih]

theorem spotLoop8_get (nc : Nat) (hnc : nc = 4 ∨ nc = 5) (s xs : List Nat)
    (hxs : ∀ x ∈ xs, x % nc = 0) (out : List Nat) (i : Nat) (hi : i < out.length) :
    getU8 (spotLoop8 s nc xs out) i =
      if i * nc ∈ xs ∧ getU8 s (i * nc + 3) = 255 then 255 else getU8 out i := by
  induction xs generalizing out with
  | nil => simp [spotLoop8]
  | cons x xs ih =>
    have hx : x % nc = 0 := hxs x (List.mem_cons_self _ _)
    have hxs2 : ∀ x2 ∈ xs, x2 % nc = 0 := fun x2 h => hxs x2 (List.mem_cons_of_mem _ h)
    have hdiv : i = x / nc ↔ i * nc = x := by
      rcases hnc with h | h <;> subst h <;> omega
    rw [spotLoop8]
    simp only [List.mem_cons]
    by_cases hk : getU8 s (x + 3) = 255
    · have hk2 : (getU8 s (x + 3) == 255) = true := by simp [hk]
      rw [if_pos hk2, ih hxs2 _ (by rw [length_setU8]; exact hi), getU8_setU8 _ _ _ _ hi]
      by_cases he : i * nc = x
      · have hlhs : (i * nc = x ∨ i * nc ∈ xs) ∧ getU8 s (i * nc + 3) = 255 :=
          ⟨Or.inl he, by rw [he]; exact hk⟩
        rw [if_pos (hdiv.2 he), if_pos hlhs]
        split <;> rfl
      · rw [if_neg (fun h => he (hdiv.1 h))]
        by_cases hc : i * nc ∈ xs ∧ getU8 s (i * nc + 3) = 255
        · rw [if_pos hc, if_pos ⟨Or.inr hc.1, hc.2⟩]
        · rw [if_neg hc, if_neg]
          rintro ⟨h1 | h1, h2⟩
          · exact he h1
          · exact hc ⟨h1, h2⟩
    · have hk2 : (getU8 s (x + 3) == 255) = false := by simp [hk]
      rw [hk2, if_neg Bool.false_ne_true, ih hxs2 _ hi]
      by_cases hc : i * nc ∈ xs ∧ getU8 s (i * nc + 3) = 255
      · rw [if_pos hc, if_pos ⟨Or.inr hc.1, hc.2⟩]
      · rw [if_neg hc, if_neg]
        rintro ⟨h1 | h1, h2⟩
        · rw [h1] at h2
          exact hk h2
        · exact hc ⟨h1, h2⟩

theorem getU8_replicate_zero (n i : Nat) : getU8 (List.replicate n 0) i = 0 := by
  simp only [getU8, List.getD_eq_getElem?_getD, List.getElem?_replicate]
  split <;> rfl

/-- C8 as amended: in SpotDeviceN mode, for a Device CMYK image whose normalized frame
is at depth 8, has no extra channel, holds no padding and has a rich-black pixel, the
new raster is in the flat-black space, and every written row holds one ink sample for
each pixel: 255 when K of the source pixel is 255, whatever its C, M, Y, and 0
otherwise. -/
theorem transformImage_spot8 (self : CCmykBlackConverterImplementation) (img : IDOMImage)
    (next : Nat)
    (hmode : self.m_useDeviceN = true)
    (hcs : img.frame.colorSpace = IDOMColorSpace.DeviceCMYK)
    (hs : img.frame.bps = 1 ∨ img.frame.bps = 2 ∨ img.frame.bps = 4 ∨ img.frame.bps = 8
      ∨ img.frame.bps = 12 ∨ img.frame.bps = 16)
    (hb : (normalizedFrame self img).bps = 8)
    (hextra : (normalizedFrame self img).extraChannelType = eImageExtraChannelType.eIECNone)
    (hu : (normalizedFrame self img).unpadded)
    (hrich : (normalizedFrame self img).hasRichBlackPixel = true) :
    ∃ out n1, next ≤ n1 ∧ transformImage self img next = .ok (out, n1 + 1) ∧
      out.addr = n1 ∧
      out.frame.colorSpace = self.m_flatBlackColorSpace ∧
      out.frame.scanLines.length = (normalizedFrame self img).height ∧
      ∀ y, y < (normalizedFrame self img).height →
        (out.frame.scanLines.getD y []).length = (normalizedFrame self img).width ∧
        ∀ i, i < (normalizedFrame self img).width →
          getU8 (out.frame.scanLines.getD y []) i =
            if (normalizedFrame self img).sample y i 3 = 255 then 255 else 0 := by
  obtain ⟨n1, hle, h⟩ := transformImage_cmyk_unpadded self img next hcs hs (Or.inl hb) hu
  rw [hrich] at h
  have hft : ¬ (true = false) := by decide
  rw [if_neg hft] at h
  have hnc4 : (normalizedFrame self img).numChannels = 4 := by
    simp [IImageFrame.numChannels, hextra]
  have hsz : (normalizedFrame self img).rawBytesPerRow = (normalizedFrame self img).width * 4 := by
    have := hu
    unfold IImageFrame.unpadded at this
    rw [this, hb, hnc4]
    simp
  have hrows : rewritePass self (normalizedFrame self img) (normalizedFrame self img).numChannels
      = (List.range (normalizedFrame self img).height).map (fun y =>
          spotLoop8 ((normalizedFrame self img).row y) 4
            (loopIndices ((normalizedFrame self img).width * 4) 4)
            (List.replicate (normalizedFrame self img).width 0)) := by
    unfold rewritePass
    have hne : (8 != 8) = false := by decide
    simp only [hmode, IImageFrame.getBPS, IImageFrame.getWidth, IImageFrame.getHeight,
      IImageFrame.getRawBytesPerRow, hb, hne, if_true, Bool.false_eq_true, if_false, hnc4,
      hsz, IImageFrame.row]
  refine ⟨_, n1, hle, h, rfl, rfl, ?_, ?_⟩
  · simp [IDOMRawImage.createWriterAndImage, hrows]
  · intro y hy
    simp only [IDOMRawImage.createWriterAndImage, hrows]
    rw [getD_map_range _ _ _ _ hy]
    refine ⟨by rw [spotLoop8_length]; simp, ?_⟩
    intro i hi
    have hxs : ∀ x ∈ loopIndices ((normalizedFrame self img).width * 4) 4, x % 4 = 0 :=
      fun x hx => ((mem_loopIndices _ 4 x (by decide)).1 hx).2
    rw [spotLoop8_get 4 (Or.inl rfl) _ _ hxs _ i (by simp; exact hi), getU8_replicate_zero]
    have hmem : i * 4 ∈ loopIndices ((normalizedFrame self img).width * 4) 4 :=
      (mem_loopIndices _ 4 _ (by decide)).2 ⟨by omega, by omega⟩
    simp only [hmem, true_and, IImageFrame.sample, rowSample, hb, if_true, hnc4]

/-- C8 as stated fails: for the 8-bit image with the pixels (255,0,0,255) and
(0,0,0,255) in SpotDeviceN mode, the second pixel is not rich black and its ink
sample is 255, not 0. -/
theorem transformImage_spot8_counterexample :
    ¬ (∀ out n1,
        transformImage (CCmykBlackConverterImplementation.new exampleJawsMako true false 0)
            (exampleImage 8 2 [[255, 0, 0, 255, 0, 0, 0, 255]]) 10 = .ok (out, n1) →
        ∀ i, i < 2 →
          getU8 (out.frame.scanLines.getD 0 []) i =
            if (normalizedFrame
                  (CCmykBlackConverterImplementation.new exampleJawsMako true false 0)
                  (exampleImage 8 2 [[255, 0, 0, 255, 0, 0, 0, 255]])).pixelIsRichBlack 0 i
            then 255 else 0) := by
  intro h
  have h1 := h _ _ rfl 1 (by decide)
  exact absurd h1 (by decide)

/-- C8 as amended, at the 8-bit image with the pixels (255,0,0,255) and (0,0,0,255):
both ink samples of the written row are 255. -/
theorem transformImage_spot8_witness :
    ∃ out n1, 10 ≤ n1 ∧
      transformImage (CCmykBlackConverterImplementation.new exampleJawsMako true false 0)
          (exampleImage 8 2 [[255, 0, 0, 255, 0, 0, 0, 255]]) 10 = .ok (out, n1 + 1) ∧
      (out.frame.scanLines.getD 0 []).length = 2 ∧
      getU8 (out.frame.scanLines.getD 0 []) 0 = 255 ∧
      getU8 (out.frame.scanLines.getD 0 []) 1 = 255 := by
  obtain ⟨out, n1, hle, h, _, _, _, hrow⟩ :=
    transformImage_spot8 (CCmykBlackConverterImplementation.new exampleJawsMako true false 0)
      (exampleImage 8 2 [[255, 0, 0, 255, 0, 0, 0, 255]]) 10
      rfl rfl (by decide) (by decide) (by decide) (by decide) (by decide)
  exact ⟨out, n1, hle, h, (hrow 0 (by decide)).1, (hrow 0 (by decide)).2 0 (by decide),
    (hrow 0 (by decide)).2 1 (by decide)⟩

/-- C9, the code at a failing input: in SpotDeviceN mode, for the 16-bit image of one
row with the pixels (0,0,0,0) and (1,0,0,65535), the second pixel is rich black and the
written row is the bytes 0, 255, 0, 0: the 16-bit ink sample of the second pixel (the
bytes at offsets 2 and 3) is 0, and the byte 0xFF stands at offset 1. -/
theorem transformImage_spot16_failing_input :
    ∃ out,
      transformImage (CCmykBlackConverterImplementation.new exampleJawsMako true false 0)
          (exampleImage 16 2 [[0, 0, 0, 0, 0, 0, 0, 0, 1, 0, 0, 0, 0, 0, 255, 255]]) 10 =
        .ok (out, 11) ∧
      (normalizedFrame (CCmykBlackConverterImplementation.new exampleJawsMako true false 0)
        (exampleImage 16 2
          [[0, 0, 0, 0, 0, 0, 0, 0, 1, 0, 0, 0, 0, 0, 255, 255]])).pixelIsRichBlack 0 1 = true ∧
      out.frame.bps = 16 ∧
      out.frame.scanLines = [[0, 255, 0, 0]] ∧
      getU16 (out.frame.scanLines.getD 0 []) 1 = 0 ∧
      getU16 (out.frame.scanLines.getD 0 []) 1 ≠ 65535 :=
  ⟨_, rfl, by decide, rfl, by decide, by decide, by decide⟩

theorem IImageFrame.readScanLine_getD (f : IImageFrame) (y size j : Nat) :
    (f.readScanLine y size).getD j 0 =
      if j < size then (f.scanLines.getD y []).getD j 0 % 256 else 0 := by
  unfold IImageFrame.readScanLine
  by_cases hj : j < size
  · rw [getD_map_range _ _ _ _ hj, if_pos hj]
  · rw [if_neg hj]
    simp only [List.getD_eq_getElem?_getD]
    rw [List.getElem?_eq_none (by simp; omega)]
    rfl

theorem IImageFrame.readScanLine_getD_lt (f : IImageFrame) (y size j : Nat) :
    (f.readScanLine y size).getD j 0 < 256 := by
  rw [IImageFrame.readScanLine_getD]
  split
  · exact Nat.mod_lt _ (by decide)
  · decide

theorem IImageFrame.readScanLine_getD_pos (f : IImageFrame) (y size j : Nat)
    (h : (f.readScanLine y size).getD j 0 ≠ 0) : j < size := by
  rw [IImageFrame.readScanLine_getD] at h
  by_contra hj
  rw [if_neg hj] at h
  exact h rfl

/-- A row written by the 8-bit Device CMYK rewrite loop and read again has no
rich-black pixel: where K is 255, the samples C, M, Y are 0. -/
theorem directLoop8_reread (nc : Nat) (hnc : nc = 4 ∨ nc = 5) (f g : IImageFrame)
    (y z size size2 : Nat)
    (hg : g.scanLines.getD z [] =
      directLoop8 (loopIndices size nc) (f.readScanLine y size))
    (x : Nat) (hx : x % nc = 0)
    (hK : getU8 (g.readScanLine z size2) (x + 3) = 255) :
    getU8 (g.readScanLine z size2) x = 0 ∧ getU8 (g.readScanLine z size2) (x + 1) = 0
      ∧ getU8 (g.readScanLine z size2) (x + 2) = 0 := by
  have hpos : 0 < nc := by omega
  have hxs : ∀ x2 ∈ loopIndices size nc, x2 % nc = 0 := fun x2 h =>
    ((mem_loopIndices size nc x2 hpos).1 h).2
  have hget := fun j => directLoop8_get nc hnc (loopIndices size nc) hxs (f.readScanLine y size) j
  simp only [getU8] at hget hK ⊢
  simp only [IImageFrame.readScanLine_getD, hg] at hK ⊢
  have hin : x + 3 < size2 := by
    by_contra hc
    rw [if_neg hc] at hK
    exact absurd hK (by decide)
  rw [if_pos hin, hget] at hK
  have hm3 : ¬ ((x + 3) % nc ≤ 2) := by
    rcases hnc with h | h <;> subst h <;> omega
  rw [if_neg (fun h => hm3 h.1)] at hK
  have hlt := f.readScanLine_getD_lt y size (x + 3)
  rw [Nat.mod_eq_of_lt hlt] at hK
  have hinb : x + 3 < size :=
    f.readScanLine_getD_pos y size (x + 3) (by rw [hK]; decide)
  have hzero : ∀ d, d ≤ 2 →
      (directLoop8 (loopIndices size nc) (f.readScanLine y size)).getD (x + d) 0 = 0 := by
    intro d hd
    rw [hget]
    have hb : (x + d) % nc ≤ 2 ∧ x + d - (x + d) % nc = x := by
      rcases hnc with h | h <;> subst h <;> omega
    rw [if_pos]
    refine ⟨hb.1, ?_, ?_⟩
    · rw [hb.2]
      exact (mem_loopIndices size nc x hpos).2 ⟨by omega, hx⟩
    · rw [hb.2]
      exact hK
  have h0 := hzero 0 (by omega)
  have h1 := hzero 1 (by omega)
  have h2 := hzero 2 (by omega)
  rw [Nat.add_zero] at h0
  rw [h0, h1, h2]
  simp

/-- A row written by the 16-bit Device CMYK rewrite loop and read again has no
rich-black pixel: where K is 65535, the samples C, M, Y are 0. -/
theorem directLoop16_reread (nc : Nat) (hnc : nc = 4 ∨ nc = 5) (f g : IImageFrame)
    (y z size size2 : Nat)
    (hg : g.scanLines.getD z [] =
      directLoop16 (loopIndices (size / 2) nc) (f.readScanLine y size))
    (x : Nat) (hx : x % nc = 0)
    (hK : getU16 (g.readScanLine z size2) (x + 3) = 65535) :
    getU16 (g.readScanLine z size2) x = 0 ∧ getU16 (g.readScanLine z size2) (x + 1) = 0
      ∧ getU16 (g.readScanLine z size2) (x + 2) = 0 := by
  have hpos : 0 < nc := by omega
  have hxs : ∀ x2 ∈ loopIndices (size / 2) nc, x2 % nc = 0 := fun x2 h =>
    ((mem_loopIndices (size / 2) nc x2 hpos).1 h).2
  have hget := fun j =>
    directLoop16_getD nc hnc (loopIndices (size / 2) nc) hxs (f.readScanLine y size) j
  have hb1 := g.readScanLine_getD_lt z size2 (2 * (x + 3))
  have hb2 := g.readScanLine_getD_lt z size2 (2 * (x + 3) + 1)
  have hK1 : (g.readScanLine z size2).getD (2 * (x + 3)) 0 = 255 := by
    unfold getU16 at hK
    omega
  have hK2 : (g.readScanLine z size2).getD (2 * (x + 3) + 1) 0 = 255 := by
    unfold getU16 at hK
    omega
  -- the K bytes of the source row
  have hsrc : ∀ j, j = 2 * (x + 3) ∨ j = 2 * (x + 3) + 1 →
      (g.readScanLine z size2).getD j 0 = 255 → (f.readScanLine y size).getD j 0 = 255 := by
    intro j hj hv
    rw [IImageFrame.readScanLine_getD, hg] at hv
    have hin : j < size2 := by
      by_contra hc
      rw [if_neg hc] at hv
      exact absurd hv (by decide)
    rw [if_pos hin, hget] at hv
    have hm3 : ¬ ((j / 2) % nc ≤ 2) := by
      rcases hnc with h | h <;> subst h <;> omega
    rw [if_neg (fun h => hm3 h.1)] at hv
    rw [Nat.mod_eq_of_lt (f.readScanLine_getD_lt y size j)] at hv
    exact hv
  have hs1 := hsrc _ (Or.inl rfl) hK1
  have hs2 := hsrc _ (Or.inr rfl) hK2
  have hKs : getU16 (f.readScanLine y size) (x + 3) = 65535 := by
    unfold getU16
    rw [hs1, hs2]
  have hinb : 2 * (x + 3) + 1 < size :=
    f.readScanLine_getD_pos y size _ (by rw [hs2]; decide)
  have hzero : ∀ j, 2 * x ≤ j → j ≤ 2 * x + 5 → (g.readScanLine z size2).getD j 0 = 0 := by
    intro j hj1 hj2
    have hb : (j / 2) % nc ≤ 2 ∧ j / 2 - (j / 2) % nc = x := by
      rcases hnc with h | h <;> subst h <;> omega
    have hr : (directLoop16 (loopIndices (size / 2) nc) (f.readScanLine y size)).getD j 0
        = 0 := by
      rw [hget, if_pos]
      refine ⟨hb.1, ?_, ?_⟩
      · rw [hb.2]
        exact (mem_loopIndices (size / 2) nc x hpos).2 ⟨by omega, hx⟩
      · rw [hb.2]
        exact hKs
    rw [IImageFrame.readScanLine_getD, hg, hr]
    split <;> rfl
  unfold getU16
  rw [hzero (2 * x) (by omega) (by omega), hzero (2 * x + 1) (by omega) (by omega),
    hzero (2 * (x + 1)) (by omega) (by omega), hzero (2 * (x + 1) + 1) (by omega) (by omega),
    hzero (2 * (x + 2)) (by omega) (by omega), hzero (2 * (x + 2) + 1) (by omega) (by omega)]
  simp

theorem rewritePass_direct_getD (self : CCmykBlackConverterImplementation) (f : IImageFrame)
    (nc : Nat) (hmode : self.m_useDeviceN = false) (y : Nat) (hy : y < f.height) :
    (rewritePass self f nc).getD y [] =
      if f.bps = 8 then
        directLoop8 (loopIndices f.rawBytesPerRow nc) (f.readScanLine y f.rawBytesPerRow)
      else
        directLoop16 (loopIndices (f.rawBytesPerRow / 2) nc)
          (f.readScanLine y f.rawBytesPerRow) := by
  unfold rewritePass
  simp only [hmode, IImageFrame.getBPS, IImageFrame.getWidth, IImageFrame.getHeight,
    IImageFrame.getRawBytesPerRow, Bool.false_eq_true, if_false]
  by_cases h8 : f.bps = 8
  · have hne : (f.bps != 8) = false := by simp [h8]
    rw [hne, if_neg Bool.false_ne_true, if_pos h8, getD_map_range _ _ _ _ hy]
  · have hne : (f.bps != 8) = true := by simp [h8]
    rw [hne, if_pos rfl, if_neg h8, getD_map_range _ _ _ _ hy]

/-- The scan of a raster written by the Device CMYK rewrite finds no rich black. -/
theorem scanPass_rewritten (self : CCmykBlackConverterImplementation) (f g : IImageFrame)
    (hmode : self.m_useDeviceN = false)
    (hb : f.bps = 8 ∨ f.bps = 16) (hgb : g.bps = f.bps) (hgh : g.height = f.height)
    (hnc : g.numChannels = f.numChannels)
    (hrows : g.scanLines = rewritePass self f f.numChannels) :
    scanPass g g.numChannels = .ok false := by
  rw [scanPass_eq, hgb, hnc]
  have hncc := f.numChannels_cases
  have hpos := f.numChannels_pos
  have hg : ∀ y, y < f.height → g.scanLines.getD y [] =
      if f.bps = 8 then
        directLoop8 (loopIndices f.rawBytesPerRow f.numChannels)
          (f.readScanLine y f.rawBytesPerRow)
      else
        directLoop16 (loopIndices (f.rawBytesPerRow / 2) f.numChannels)
          (f.readScanLine y f.rawBytesPerRow) := by
    intro y hy
    rw [hrows, rewritePass_direct_getD self f _ hmode y hy]
  rcases hb with h8 | h16
  · rw [if_pos h8]
    congr 1
    rw [List.any_eq_false]
    intro y hy
    rw [List.mem_range, hgh] at hy
    have hgy := hg y hy
    rw [if_pos h8] at hgy
    simp only [Bool.not_eq_true]
    rw [List.any_eq_false]
    intro x hx
    have hxmod := ((mem_loopIndices _ _ x hpos).1 hx).2
    by_cases hK : getU8 (g.row y) (x + 3) = 255
    · have hz := directLoop8_reread f.numChannels hncc f g y y f.rawBytesPerRow
        g.rawBytesPerRow hgy x hxmod hK
      simp only [IImageFrame.row] at hK ⊢
      simp [hK, hz.1, hz.2.1, hz.2.2]
    · simp [hK]
  · have hne : ¬ (f.bps = 8) := by omega
    rw [if_neg hne, if_pos h16]
    congr 1
    rw [List.any_eq_false]
    intro y hy
    rw [List.mem_range, hgh] at hy
    have hgy := hg y hy
    rw [if_neg hne] at hgy
    simp only [Bool.not_eq_true]
    rw [List.any_eq_false]
    intro x hx
    have hxmod := ((mem_loopIndices _ _ x hpos).1 hx).2
    by_cases hK : getU16 (g.row y) (x + 3) = 65535
    · have hz := directLoop16_reread f.numChannels hncc f g y y f.rawBytesPerRow
        g.rawBytesPerRow hgy x hxmod hK
      simp only [IImageFrame.row] at hK ⊢
      simp [hK, hz.1, hz.2.1, hz.2.2]
    · simp [hK]

theorem scanPass_ok_bps (f : IImageFrame) (nc : Nat) (b : Bool) (h : scanPass f nc = .ok b) :
    f.bps = 8 ∨ f.bps = 16 := by
  rw [scanPass_eq] at h
  by_cases h8 : f.bps = 8
  · exact Or.inl h8
  · by_cases h16 : f.bps = 16
    · exact Or.inr h16
    · rw [if_neg h8, if_neg h16] at h
      exact Except.noConfusion h

theorem normalizedFrame_of_bps (self : CCmykBlackConverterImplementation) (img : IDOMImage)
    (hb : img.frame.bps = 8 ∨ img.frame.bps = 16) : normalizedFrame self img = img.frame := by
  unfold normalizedFrame
  rw [if_neg (by omega), if_neg (by omega)]

/-- The address and the allocator after `transformImage`: the result is the input
image, or a new object at an address not below `next`. -/
theorem transformImage_alloc (self : CCmykBlackConverterImplementation) (img : IDOMImage)
    (next : Nat) (r : IDOMImage) (n2 : Nat) (h : transformImage self img next = .ok (r, n2)) :
    next ≤ n2 ∧ (r = img ∨ next ≤ r.addr) := by
  by_cases hcs : img.frame.colorSpace = IDOMColorSpace.DeviceCMYK
  · by_cases hs : img.frame.bps = 1 ∨ img.frame.bps = 2 ∨ img.frame.bps = 4 ∨ img.frame.bps = 8
        ∨ img.frame.bps = 12 ∨ img.frame.bps = 16
    · obtain ⟨n1, hle, h1⟩ := transformImage_cmyk self img next hcs hs
      rw [h1] at h
      cases hsp : scanPass (normalizedFrame self img) (normalizedFrame self img).numChannels with
      | error e =>
        rw [hsp] at h
        exact Except.noConfusion h
      | ok rb =>
        rw [hsp] at h
        cases rb with
        | false =>
          simp only [Bool.not_false, if_true, Except.ok.injEq, Prod.mk.injEq] at h
          exact ⟨by omega, Or.inl h.1.symm⟩
        | true =>
          simp only [Bool.not_true, Bool.false_eq_true, if_false, Except.ok.injEq,
            Prod.mk.injEq] at h
          refine ⟨by omega, Or.inr ?_⟩
          rw [← h.1]
          exact hle
    · rw [transformImage_unsupported self img next hcs hs] at h
      exact Except.noConfusion h
  · rw [transformImage_not_cmyk self img next hcs] at h
    simp only [Except.ok.injEq, Prod.mk.injEq] at h
    exact ⟨by omega, Or.inl h.1.symm⟩

/-- An image returned by `transformImage` is returned as it is by a further call: an
image that needed no conversion needs none, a raster written in DirectCMYK mode has
no rich-black pixel, and a raster written in SpotDeviceN mode is not Device CMYK. -/
theorem transformImage_again (self : CCmykBlackConverterImplementation)
    (hcv : self.m_useDeviceN = true → self.m_flatBlackColorSpace ≠ IDOMColorSpace.DeviceCMYK)
    (img : IDOMImage) (next : Nat) (r : IDOMImage) (n2 : Nat)
    (h : transformImage self img next = .ok (r, n2)) (m : Nat) :
    ∃ m2, transformImage self r m = .ok (r, m2) := by
  by_cases hcs : img.frame.colorSpace = IDOMColorSpace.DeviceCMYK
  · by_cases hs : img.frame.bps = 1 ∨ img.frame.bps = 2 ∨ img.frame.bps = 4 ∨ img.frame.bps = 8
        ∨ img.frame.bps = 12 ∨ img.frame.bps = 16
    · obtain ⟨n1, hle, h1⟩ := transformImage_cmyk self img next hcs hs
      obtain ⟨m1, _, h2⟩ := transformImage_cmyk self img m hcs hs
      rw [h1] at h
      cases hsp : scanPass (normalizedFrame self img) (normalizedFrame self img).numChannels with
      | error e =>
        rw [hsp] at h
        exact Except.noConfusion h
      | ok rb =>
        rw [hsp] at h h2
        cases rb with
        | false =>
          simp only [Bool.not_false, if_true, Except.ok.injEq, Prod.mk.injEq] at h
          rw [← h.1]
          exact ⟨m1, h2⟩
        | true =>
          simp only [Bool.not_true, Bool.false_eq_true, if_false, Except.ok.injEq,
            Prod.mk.injEq] at h
          have hr := h.1.symm
          by_cases hfc : self.m_flatBlackColorSpace = IDOMColorSpace.DeviceCMYK
          · have hmode : self.m_useDeviceN = false := by
              cases hm : self.m_useDeviceN
              · rfl
              · exact absurd hfc (hcv hm)
            have hb := scanPass_ok_bps _ _ _ hsp
            have hrcs : r.frame.colorSpace = IDOMColorSpace.DeviceCMYK := by
              rw [hr]
              exact hfc
            have hrb : r.frame.bps = (normalizedFrame self img).bps := by rw [hr]; rfl
            have hrb2 : r.frame.bps = 8 ∨ r.frame.bps = 16 := by rw [hrb]; exact hb
            obtain ⟨m3, _, h3⟩ := transformImage_cmyk self r m hrcs (by omega)
            have hnf : normalizedFrame self r = r.frame := normalizedFrame_of_bps self r hrb2
            rw [hnf] at h3
            have hscan : scanPass r.frame r.frame.numChannels = .ok false := by
              apply scanPass_rewritten self (normalizedFrame self img) r.frame hmode hb hrb
              · rw [hr]; rfl
              · rw [hr]; rfl
              · rw [hr]; rfl
            rw [hscan] at h3
            exact ⟨m3, h3⟩
          · have hrcs : r.frame.colorSpace ≠ IDOMColorSpace.DeviceCMYK := by
              rw [hr]
              exact hfc
            exact ⟨m, transformImage_not_cmyk self r m hrcs⟩
    · rw [transformImage_unsupported self img next hcs hs] at h
      exact Except.noConfusion h
  · rw [transformImage_not_cmyk self img next hcs] at h
    simp only [Except.ok.injEq, Prod.mk.injEq] at h
    rw [← h.1]
    exact ⟨m, transformImage_not_cmyk self img m hcs⟩

theorem IDOMBrush.addr_lt_of_allocatedBelow (b : IDOMBrush) (next : Nat)
    (h : b.allocatedBelow next = true) : b.addr < next := by
  cases b <;> simp [IDOMBrush.allocatedBelow] at h <;> simp [IDOMBrush.addr] <;> omega

/-- The address and the allocator after `transformBrush` on a brush object: the result
is the input brush, or a new object at an address not below `next`. -/
theorem transformBrushObject_alloc (self : CCmykBlackConverterImplementation) (b : IDOMBrush) :
    ∀ (next : Nat) (r : IDOMBrush) (n2 : Nat),
      transformBrushObject self b next = .ok (r, n2) →
      next ≤ n2 ∧ (r = b ∨ next ≤ r.addr) := by
  induction b with
  | SolidColor addr attrs color =>
    intro next r n2 h
    simp only [transformBrushObject] at h
    split at h
    · simp only [Except.ok.injEq, Prod.mk.injEq] at h
      refine ⟨by omega, Or.inr ?_⟩
      rw [← h.1]
      exact le_refl _
    · simp only [Except.ok.injEq, Prod.mk.injEq] at h
      exact ⟨by omega, Or.inl h.1.symm⟩
  | Image addr attrs img =>
    intro next r n2 h
    simp only [transformBrushObject] at h
    cases hti : transformImage self img next with
    | error e =>
      rw [hti] at h
      exact Except.noConfusion h
    | ok p =>
      obtain ⟨img2, n1⟩ := p
      rw [hti] at h
      have ha := (transformImage_alloc self img next img2 n1 hti).1
      simp only at h
      split at h
      · simp only [Except.ok.injEq, Prod.mk.injEq] at h
        refine ⟨by omega, Or.inr ?_⟩
        rw [← h.1]
        exact ha
      · simp only [Except.ok.injEq, Prod.mk.injEq] at h
        exact ⟨by omega, Or.inl h.1.symm⟩
  | Masked addr attrs mask inner ih =>
    intro next r n2 h
    simp only [transformBrushObject] at h
    cases hti : transformBrushObject self inner next with
    | error e =>
      rw [hti] at h
      exact Except.noConfusion h
    | ok p =>
      obtain ⟨inner2, n1⟩ := p
      rw [hti] at h
      have ha := (ih next inner2 n1 hti).1
      simp only at h
      split at h
      · simp only [Except.ok.injEq, Prod.mk.injEq] at h
        refine ⟨by omega, Or.inr ?_⟩
        rw [← h.1]
        exact ha
      · simp only [Except.ok.injEq, Prod.mk.injEq] at h
        exact ⟨by omega, Or.inl h.1.symm⟩
  | TilingPattern addr attrs paintType color =>
    intro next r n2 h
    simp only [transformBrushObject] at h
    split at h
    · split at h
      · simp only [Except.ok.injEq, Prod.mk.injEq] at h
        refine ⟨by omega, Or.inr ?_⟩
        rw [← h.1]
        exact le_refl _
      · simp only [Except.ok.injEq, Prod.mk.injEq] at h
        exact ⟨by omega, Or.inl h.1.symm⟩
    · simp only [Except.ok.injEq, Prod.mk.injEq] at h
      exact ⟨by omega, Or.inl h.1.symm⟩
  | Other addr attrs brushType =>
    intro next r n2 h
    simp only [transformBrushObject, Except.ok.injEq, Prod.mk.injEq] at h
    exact ⟨by omega, Or.inl h.1.symm⟩

theorem transformColor_addr_again (self : CCmykBlackConverterImplementation)
    (hfb : colorIsCmykRichBlack self.m_flatBlack = false) (c : IDOMColor)
    (h : c.addr ≠ (transformColor self c).addr) :
    transformColor self (transformColor self c) = transformColor self c := by
  cases hr : colorIsCmykRichBlack c
  · simp [transformColor, hr] at h
  · simp [transformColor, hr, hfb]

/-- A brush returned by `transformBrush` on a brush object is returned as it is by a
further call, whatever the state of the allocator. -/
theorem transformBrushObject_again (self : CCmykBlackConverterImplementation)
    (hfb : colorIsCmykRichBlack self.m_flatBlack = false)
    (hcv : self.m_useDeviceN = true → self.m_flatBlackColorSpace ≠ IDOMColorSpace.DeviceCMYK)
    (b : IDOMBrush) :
    ∀ (next : Nat) (r : IDOMBrush) (n2 : Nat), b.allocatedBelow next = true →
      transformBrushObject self b next = .ok (r, n2) →
      ∀ m, ∃ m2, transformBrushObject self r m = .ok (r, m2) := by
  induction b with
  | SolidColor addr attrs color =>
    intro next r n2 _ h m
    simp only [transformBrushObject] at h
    split at h
    · rename_i hne
      simp only [Except.ok.injEq, Prod.mk.injEq] at h
      rw [← h.1]
      have hne2 : color.addr ≠ (transformColor self color).addr := by simpa using hne
      refine ⟨m, ?_⟩
      simp only [transformBrushObject, transformColor_addr_again self hfb color hne2]
      simp
    · rename_i heq
      simp only [Except.ok.injEq, Prod.mk.injEq] at h
      rw [← h.1]
      refine ⟨m, ?_⟩
      simp only [transformBrushObject]
      rw [if_neg heq]
  | Image addr attrs img =>
    intro next r n2 hfresh h m
    simp only [IDOMBrush.allocatedBelow, Bool.and_eq_true, decide_eq_true_eq] at hfresh
    simp only [transformBrushObject] at h
    cases hti : transformImage self img next with
    | error e =>
      rw [hti] at h
      exact Except.noConfusion h
    | ok p =>
      obtain ⟨img2, n1⟩ := p
      rw [hti] at h
      obtain ⟨m2, hagain⟩ := transformImage_again self hcv img next img2 n1 hti m
      simp only at h
      split at h
      · simp only [Except.ok.injEq, Prod.mk.injEq] at h
        rw [← h.1]
        refine ⟨m2, ?_⟩
        simp only [transformBrushObject, hagain]
        simp
      · rename_i heq
        simp only [Except.ok.injEq, Prod.mk.injEq] at h
        rw [← h.1]
        have heq2 : img.addr = img2.addr := by simpa using heq
        have himg : img2 = img := by
          rcases (transformImage_alloc self img next img2 n1 hti).2 with h1 | h1
          · exact h1
          · omega
        rw [himg] at hagain
        refine ⟨m2, ?_⟩
        simp only [transformBrushObject, hagain]
        simp
  | Masked addr attrs mask inner ih =>
    intro next r n2 hfresh h m
    simp only [IDOMBrush.allocatedBelow, Bool.and_eq_true, decide_eq_true_eq] at hfresh
    simp only [transformBrushObject] at h
    cases hti : transformBrushObject self inner next with
    | error e =>
      rw [hti] at h
      exact Except.noConfusion h
    | ok p =>
      obtain ⟨inner2, n1⟩ := p
      rw [hti] at h
      obtain ⟨m2, hagain⟩ := ih next inner2 n1 hfresh.2 hti m
      simp only at h
      split at h
      · simp only [Except.ok.injEq, Prod.mk.injEq] at h
        rw [← h.1]
        refine ⟨m2, ?_⟩
        simp only [transformBrushObject, hagain]
        simp
      · rename_i heq
        simp only [Except.ok.injEq, Prod.mk.injEq] at h
        rw [← h.1]
        have heq2 : inner.addr = inner2.addr := by simpa using heq
        have hinner : inner2 = inner := by
          rcases (transformBrushObject_alloc self inner next inner2 n1 hti).2 with h1 | h1
          · exact h1
          · have := inner.addr_lt_of_allocatedBelow next hfresh.2
            omega
        rw [hinner] at hagain
        refine ⟨m2, ?_⟩
        simp only [transformBrushObject, hagain]
        simp
  | TilingPattern addr attrs paintType color =>
    intro next r n2 _ h m
    simp only [transformBrushObject] at h
    split at h
    · rename_i hpt
      split at h
      · rename_i hne
        simp only [Except.ok.injEq, Prod.mk.injEq] at h
        rw [← h.1]
        have hne2 : color.addr ≠ (transformColor self color).addr := by simpa using hne
        refine ⟨m, ?_⟩
        simp only [transformBrushObject, transformColor_addr_again self hfb color hne2, hpt]
        simp
      · rename_i heq
        simp only [Except.ok.injEq, Prod.mk.injEq] at h
        rw [← h.1]
        refine ⟨m, ?_⟩
        simp only [transformBrushObject]
        rw [if_pos hpt, if_neg heq]
    · rename_i hpt
      simp only [Except.ok.injEq, Prod.mk.injEq] at h
      rw [← h.1]
      refine ⟨m, ?_⟩
      simp only [transformBrushObject]
      rw [if_neg hpt]
  | Other addr attrs brushType =>
    intro next r n2 _ h m
    simp only [transformBrushObject, Except.ok.injEq, Prod.mk.injEq] at h
    rw [← h.1]
    exact ⟨m, by simp only [transformBrushObject]⟩

theorem new_flatBlackColorSpace (jawsMako : IJawsMako) (useDeviceN doNotApplyOverprint : Bool)
    (addr : Nat) :
    (CCmykBlackConverterImplementation.new jawsMako useDeviceN doNotApplyOverprint
        addr).m_useDeviceN = true →
      (CCmykBlackConverterImplementation.new jawsMako useDeviceN doNotApplyOverprint
        addr).m_flatBlackColorSpace ≠ IDOMColorSpace.DeviceCMYK := by
  cases useDeviceN <;>
    simp [CCmykBlackConverterImplementation.new, makeNewDeviceNColorSpace]

/-- C5: in both modes, when `transformBrush` succeeds on a brush (of any kind, Masked
nested to any depth, or the null brush) whose objects were allocated before the call,
a further call of `transformBrush` on the result returns that very result: the same
brush object with the same sub-objects, nothing cloned and no image written.  This
holds for the state of the allocator after the first call and for every other one. -/
theorem transformBrush_idempotent (jawsMako : IJawsMako)
    (useDeviceN doNotApplyOverprint : Bool) (flatAddr : Nat) (b : Option IDOMBrush)
    (next : Nat) (r : Option IDOMBrush) (n2 : Nat)
    (hfresh : ∀ brush, b = some brush → brush.allocatedBelow next = true)
    (h : transformBrush
        (CCmykBlackConverterImplementation.new jawsMako useDeviceN doNotApplyOverprint flatAddr)
        b next = .ok (r, n2)) :
    (∃ n3, transformBrush
        (CCmykBlackConverterImplementation.new jawsMako useDeviceN doNotApplyOverprint flatAddr)
        r n2 = .ok (r, n3)) ∧
    ∀ m, ∃ m2, transformBrush
        (CCmykBlackConverterImplementation.new jawsMako useDeviceN doNotApplyOverprint flatAddr)
        r m = .ok (r, m2) := by
  have hall : ∀ m, ∃ m2, transformBrush
      (CCmykBlackConverterImplementation.new jawsMako useDeviceN doNotApplyOverprint flatAddr)
      r m = .ok (r, m2) := by
    intro m
    cases b with
    | none =>
      simp only [transformBrush, Except.ok.injEq, Prod.mk.injEq] at h
      rw [← h.1]
      exact ⟨m, rfl⟩
    | some brush =>
      simp only [transformBrush] at h
      cases ht : transformBrushObject
          (CCmykBlackConverterImplementation.new jawsMako useDeviceN doNotApplyOverprint
            flatAddr) brush next with
      | error e =>
        rw [ht] at h
        exact Except.noConfusion h
      | ok p =>
        obtain ⟨r2, n1⟩ := p
        rw [ht] at h
        simp only [Except.ok.injEq, Prod.mk.injEq] at h
        obtain ⟨m2, hagain⟩ := transformBrushObject_again _
          (flatBlack_not_richBlack jawsMako useDeviceN doNotApplyOverprint flatAddr)
          (new_flatBlackColorSpace jawsMako useDeviceN doNotApplyOverprint flatAddr)
          brush next r2 n1 (hfresh brush rfl) ht m
        rw [← h.1]
        exact ⟨m2, by simp only [transformBrush, hagain]⟩
  exact ⟨hall n2, hall⟩

/-- C5, at a Masked brush over an Image brush whose 8-bit image has the rich-black pixel
(255,0,0,255), in DirectCMYK mode: the first call returns another brush, and the call on
that brush returns it as it is. -/
theorem transformBrush_idempotent_witness :
    ∃ r n2,
      transformBrush (CCmykBlackConverterImplementation.new exampleJawsMako false false 0)
          (some (IDOMBrush.Masked 3 0 0
            (IDOMBrush.Image 2 0 (exampleImage 8 2 [[255, 0, 0, 255, 0, 0, 0, 0]])))) 10 =
        .ok (r, n2) ∧
      r ≠ some (IDOMBrush.Masked 3 0 0
            (IDOMBrush.Image 2 0 (exampleImage 8 2 [[255, 0, 0, 255, 0, 0, 0, 0]]))) ∧
      ∃ n3,
        transformBrush (CCmykBlackConverterImplementation.new exampleJawsMako false false 0)
          r n2 = .ok (r, n3) :=
  ⟨_, _, rfl, by decide,
    (transformBrush_idempotent exampleJawsMako false false 0
      (some (IDOMBrush.Masked 3 0 0
        (IDOMBrush.Image 2 0 (exampleImage 8 2 [[255, 0, 0, 255, 0, 0, 0, 0]])))) 10 _ _
      (fun brush hb => by cases hb; decide) rfl).1⟩

theorem new_jawsMako (jawsMako : IJawsMako) (useDeviceN doNotApplyOverprint : Bool)
    (addr : Nat) :
    (CCmykBlackConverterImplementation.new jawsMako useDeviceN doNotApplyOverprint
      addr).m_jawsMako = jawsMako := by
  cases useDeviceN <;> rfl

theorem new_flatBlack_addr (jawsMako : IJawsMako) (useDeviceN doNotApplyOverprint : Bool)
    (addr : Nat) :
    (CCmykBlackConverterImplementation.new jawsMako useDeviceN doNotApplyOverprint
      addr).m_flatBlack.addr = addr := by
  cases useDeviceN <;> rfl

/-- A result of `transformImage` at another address than the input is the raster
written from the normalized frame of a Device CMYK image of an accepted depth. -/
theorem transformImage_new_eq (self : CCmykBlackConverterImplementation) (img : IDOMImage)
    (next : Nat) (out : IDOMImage) (n2 : Nat)
    (h : transformImage self img next = .ok (out, n2)) (hnew : out.addr ≠ img.addr) :
    img.frame.colorSpace = IDOMColorSpace.DeviceCMYK ∧
    (img.frame.bps = 1 ∨ img.frame.bps = 2 ∨ img.frame.bps = 4 ∨ img.frame.bps = 8
      ∨ img.frame.bps = 12 ∨ img.frame.bps = 16) ∧
    ∃ n1, next ≤ n1 ∧ n2 = n1 + 1 ∧
      out = IDOMRawImage.createWriterAndImage self.m_jawsMako n1
        self.m_flatBlackColorSpace (normalizedFrame self img).width
        (normalizedFrame self img).height (normalizedFrame self img).bps
        (normalizedFrame self img).xResolution (normalizedFrame self img).yResolution
        (normalizedFrame self img).extraChannelType
        (rewritePass self (normalizedFrame self img) (normalizedFrame self img).numChannels) := by
  by_cases hcs : img.frame.colorSpace = IDOMColorSpace.DeviceCMYK
  · by_cases hs : img.frame.bps = 1 ∨ img.frame.bps = 2 ∨ img.frame.bps = 4 ∨ img.frame.bps = 8
        ∨ img.frame.bps = 12 ∨ img.frame.bps = 16
    · refine ⟨hcs, hs, ?_⟩
      obtain ⟨n1, hle, h1⟩ := transformImage_cmyk self img next hcs hs
      rw [h1] at h
      cases hsp : scanPass (normalizedFrame self img) (normalizedFrame self img).numChannels with
      | error e =>
        rw [hsp] at h
        exact Except.noConfusion h
      | ok rb =>
        rw [hsp] at h
        cases rb with
        | false =>
          simp only [Bool.not_false, if_true, Except.ok.injEq, Prod.mk.injEq] at h
          exact absurd (by rw [h.1]) hnew
        | true =>
          simp only [Bool.not_true, Bool.false_eq_true, if_false, Except.ok.injEq,
            Prod.mk.injEq] at h
          exact ⟨n1, hle, h.2.symm, h.1.symm⟩
    · rw [transformImage_unsupported self img next hcs hs] at h
      exact Except.noConfusion h
  · rw [transformImage_not_cmyk self img next hcs] at h
    simp only [Except.ok.injEq, Prod.mk.injEq] at h
    exact absurd (by rw [h.1]) hnew

/-- C11: when `transformImage` returns another object than its input, the input is a
Device CMYK image of depth 1, 2, 4, 8, 12 or 16 and the descriptor of the new raster has
the width, height, resolution and extra channel kind of the normalized frame and its
depth, and the flat-black colour space of the converter (Device CMYK in DirectCMYK mode,
the DeviceN space of the single colorant "FlatBlack" in SpotDeviceN mode).  With a bit
scaler that reports the depth it was asked for and keeps the width, height, resolution
and extra channel kind, these are those of the source image, and the depth is 16 for a
source of depth 12 or 16 and 8 otherwise. -/
theorem transformImage_newRaster (jawsMako : IJawsMako)
    (useDeviceN doNotApplyOverprint : Bool) (flatAddr : Nat) (img : IDOMImage) (next : Nat)
    (out : IDOMImage) (n2 : Nat)
    (hscaler : ∀ bps frame,
      (jawsMako.bitScaler bps frame).bps = bps ∧
      (jawsMako.bitScaler bps frame).width = frame.width ∧
      (jawsMako.bitScaler bps frame).height = frame.height ∧
      (jawsMako.bitScaler bps frame).xResolution = frame.xResolution ∧
      (jawsMako.bitScaler bps frame).yResolution = frame.yResolution ∧
      (jawsMako.bitScaler bps frame).extraChannelType = frame.extraChannelType)
    (h : transformImage
        (CCmykBlackConverterImplementation.new jawsMako useDeviceN doNotApplyOverprint flatAddr)
        img next = .ok (out, n2))
    (hnew : out.addr ≠ img.addr) :
    img.frame.colorSpace = IDOMColorSpace.DeviceCMYK ∧
    next ≤ out.addr ∧
    out.frame.width = img.frame.width ∧
    out.frame.height = img.frame.height ∧
    out.frame.xResolution = img.frame.xResolution ∧
    out.frame.yResolution = img.frame.yResolution ∧
    out.frame.extraChannelType = img.frame.extraChannelType ∧
    ((img.frame.bps = 1 ∨ img.frame.bps = 2 ∨ img.frame.bps = 4 ∨ img.frame.bps = 8) →
      out.frame.bps = 8) ∧
    ((img.frame.bps = 12 ∨ img.frame.bps = 16) → out.frame.bps = 16) ∧
    (img.frame.bps = 1 ∨ img.frame.bps = 2 ∨ img.frame.bps = 4 ∨ img.frame.bps = 8
      ∨ img.frame.bps = 12 ∨ img.frame.bps = 16) ∧
    out.frame.colorSpace =
      (CCmykBlackConverterImplementation.new jawsMako useDeviceN doNotApplyOverprint
        flatAddr).m_flatBlackColorSpace ∧
    (useDeviceN = false → out.frame.colorSpace = IDOMColorSpace.DeviceCMYK) ∧
    (useDeviceN = true →
      out.frame.colorSpace =
        IDOMColorSpace.DeviceN
          [{ name := "FlatBlack",
             components :=
              [FloatVal.finite 0, FloatVal.finite 0, FloatVal.finite 0, FloatVal.finite 1] }]
          IDOMColorSpace.DeviceCMYK) := by
  obtain ⟨hcs, hs, n1, hle, _, hout⟩ := transformImage_new_eq _ img next out n2 h hnew
  have hjm := new_jawsMako jawsMako useDeviceN doNotApplyOverprint flatAddr
  have hnf : ∀ {α : Type} (g : IImageFrame → α),
      (∀ bps frame, g (jawsMako.bitScaler bps frame) = g frame) →
      g (normalizedFrame
        (CCmykBlackConverterImplementation.new jawsMako useDeviceN doNotApplyOverprint flatAddr)
        img) = g img.frame := by
    intro α g hg
    unfold normalizedFrame
    rw [hjm]
    split
    · exact hg _ _
    · split
      · exact hg _ _
      · rfl
  have hbps8 : (img.frame.bps = 1 ∨ img.frame.bps = 2 ∨ img.frame.bps = 4 ∨ img.frame.bps = 8) →
      (normalizedFrame
        (CCmykBlackConverterImplementation.new jawsMako useDeviceN doNotApplyOverprint flatAddr)
        img).bps = 8 := by
    intro hb
    unfold normalizedFrame
    rw [hjm]
    by_cases h1 : img.frame.bps = 1 ∨ img.frame.bps = 2 ∨ img.frame.bps = 4
    · rw [if_pos h1]
      exact (hscaler _ _).1
    · rw [if_neg h1, if_neg (by omega)]
      omega
  have hbps16 : (img.frame.bps = 12 ∨ img.frame.bps = 16) →
      (normalizedFrame
        (CCmykBlackConverterImplementation.new jawsMako useDeviceN doNotApplyOverprint flatAddr)
        img).bps = 16 := by
    intro hb
    unfold normalizedFrame
    rw [hjm, if_neg (by omega)]
    by_cases h2 : img.frame.bps = 12
    · rw [if_pos h2]
      exact (hscaler _ _).1
    · rw [if_neg h2]
      omega
  subst hout
  refine ⟨hcs, hle, ?_, ?_, ?_, ?_, ?_, hbps8, hbps16, hs, rfl, ?_, ?_⟩
  · exact hnf (fun f => f.width) (fun b f => (hscaler b f).2.1)
  · exact hnf (fun f => f.height) (fun b f => (hscaler b f).2.2.1)
  · exact hnf (fun f => f.xResolution) (fun b f => (hscaler b f).2.2.2.1)
  · exact hnf (fun f => f.yResolution) (fun b f => (hscaler b f).2.2.2.2.1)
  · exact hnf (fun f => f.extraChannelType) (fun b f => (hscaler b f).2.2.2.2.2)
  · intro hm
    subst hm
    rfl
  · intro hm
    subst hm
    simp [IDOMRawImage.createWriterAndImage, CCmykBlackConverterImplementation.new,
      makeNewDeviceNColorSpace, FloatVal.zero, FloatVal.one]

/-- C11, at a 12-bit Device CMYK image with a rich-black pixel, in DirectCMYK mode: the
new raster is at depth 16, of the width and height of the source, in Device CMYK. -/
theorem transformImage_newRaster_witness :
    ∃ out n2,
      transformImage (CCmykBlackConverterImplementation.new exampleJawsMako false false 0)
          (exampleImage 12 1 [[1, 0, 0, 0, 0, 0, 255, 255]]) 10 = .ok (out, n2) ∧
      out.addr ≠ 5 ∧
      out.frame.bps = 16 ∧ out.frame.width = 1 ∧ out.frame.height = 1 ∧
      out.frame.colorSpace = IDOMColorSpace.DeviceCMYK := by
  refine ⟨_, _, rfl, by decide, ?_⟩
  have h := transformImage_newRaster exampleJawsMako false false 0
    (exampleImage 12 1 [[1, 0, 0, 0, 0, 0, 255, 255]]) 10 _ _
    (fun _ _ => ⟨rfl, rfl, rfl, rfl, rfl, rfl⟩) rfl (by decide)
  exact ⟨h.2.2.2.2.2.2.2.2.1 (Or.inl rfl), h.2.2.1, h.2.2.2.1, h.2.2.2.2.2.2.2.2.2.2.2.1 rfl⟩

/-- C12: for a Masked brush over a TilingPattern brush of paint type 2 whose pattern
colour is rich black, one call of `transformBrush` returns a new Masked brush (at a
fresh address) with the mask and the other members of the input and, as its inner
brush, a new TilingPattern brush (at a fresh address) with the members of the input
pattern except the pattern colour, which is the shared flat black.  The pattern colour
is an object of a consistent heap and the two input brushes were allocated before the
call. -/
theorem transformBrush_masked_tilingPattern (jawsMako : IJawsMako)
    (useDeviceN doNotApplyOverprint : Bool) (flatAddr : Nat)
    (maskedAddr maskedAttrs mask tilingAddr tilingAttrs next : Nat) (c : IDOMColor)
    (hrich : colorIsCmykRichBlack c = true)
    (hheap : c.addr = flatAddr →
      c = (CCmykBlackConverterImplementation.new jawsMako useDeviceN doNotApplyOverprint
        flatAddr).m_flatBlack)
    (hlive : tilingAddr < next) (hlive2 : maskedAddr < next) :
    transformBrush
        (CCmykBlackConverterImplementation.new jawsMako useDeviceN doNotApplyOverprint flatAddr)
        (some (IDOMBrush.Masked maskedAddr maskedAttrs mask
          (IDOMBrush.TilingPattern tilingAddr tilingAttrs 2 c))) next =
      .ok (some (IDOMBrush.Masked (next + 1) maskedAttrs mask
          (IDOMBrush.TilingPattern next tilingAttrs 2
            (CCmykBlackConverterImplementation.new jawsMako useDeviceN doNotApplyOverprint
              flatAddr).m_flatBlack)),
        next + 1 + 1) ∧
    next ≠ tilingAddr ∧ next + 1 ≠ maskedAddr ∧ next + 1 ≠ tilingAddr ∧ next ≠ maskedAddr := by
  have hfb := flatBlack_not_richBlack jawsMako useDeviceN doNotApplyOverprint flatAddr
  have haddr := new_flatBlack_addr jawsMako useDeviceN doNotApplyOverprint flatAddr
  have hne : c.addr ≠ flatAddr := by
    intro h
    rw [hheap h, hfb] at hrich
    exact Bool.noConfusion hrich
  have hne2 : ¬ (tilingAddr = next) := by omega
  refine ⟨?_, by omega, by omega, by omega, by omega⟩
  simp [transformBrush, transformBrushObject, transformColor, hrich, haddr, hne,
    IDOMBrush.addr, hne2]

/-- C12, at a Masked brush over a TilingPattern of paint type 2 with the rich-black
example colour, in SpotDeviceN mode. -/
theorem transformBrush_masked_tilingPattern_witness :
    transformBrush (CCmykBlackConverterImplementation.new exampleJawsMako true false 0)
        (some (IDOMBrush.Masked 9 1 33 (IDOMBrush.TilingPattern 8 2 2 richBlackExample))) 10 =
      .ok (some (IDOMBrush.Masked 11 1 33
          (IDOMBrush.TilingPattern 10 2 2
            (CCmykBlackConverterImplementation.new exampleJawsMako true false 0).m_flatBlack)),
        12) :=
  (transformBrush_masked_tilingPattern exampleJawsMako true false 0 9 1 33 8 2 10
    richBlackExample richBlackExample_richBlack (fun h => absurd h (by decide)) (by decide)
    (by decide)).1

/-- C13: `transformBrush` returns the input brush itself, and allocates nothing, for
every TilingPattern brush of a paint type other than 2, so of paint type 1, whatever
its pattern colour and its other members (its content among them), and for every brush
of a kind other than SolidColor, Image, Masked and TilingPattern. -/
theorem transformBrush_passthrough (self : CCmykBlackConverterImplementation) (next : Nat) :
    (∀ addr attrs patternColor,
      transformBrush self (some (IDOMBrush.TilingPattern addr attrs 1 patternColor)) next =
        .ok (some (IDOMBrush.TilingPattern addr attrs 1 patternColor), next)) ∧
    (∀ addr attrs paintType patternColor, paintType ≠ 2 →
      transformBrush self (some (IDOMBrush.TilingPattern addr attrs paintType patternColor))
          next =
        .ok (some (IDOMBrush.TilingPattern addr attrs paintType patternColor), next)) ∧
    (∀ addr attrs brushType,
      transformBrush self (some (IDOMBrush.Other addr attrs brushType)) next =
        .ok (some (IDOMBrush.Other addr attrs brushType), next)) := by
  refine ⟨?_, ?_, ?_⟩
  · intro addr attrs patternColor
    simp [transformBrush, transformBrushObject]
  · intro addr attrs paintType patternColor hpt
    simp [transformBrush, transformBrushObject, hpt]
  · intro addr attrs brushType
    simp [transformBrush, transformBrushObject]

/-- C13, at a TilingPattern brush of paint type 1 with the rich-black example colour. -/
theorem transformBrush_passthrough_witness :
    transformBrush (CCmykBlackConverterImplementation.new exampleJawsMako false false 0)
        (some (IDOMBrush.TilingPattern 8 2 1 richBlackExample)) 10 =
      .ok (some (IDOMBrush.TilingPattern 8 2 1 richBlackExample), 10) :=
  (transformBrush_passthrough _ 10).1 8 2 richBlackExample

theorem getProperty_setProperty (properties : List (String × PValue)) (key : String)
    (value : PValue) : getProperty (setProperty properties key value) key = some value := by
  simp [getProperty, setProperty]

/-- The node after `transformFill` on a path whose fill `transformBrush` accepts. -/
theorem transformFill_path (self : CCmykBlackConverterImplementation) (path : IDOMPathNode)
    (next : Nat) (newFill : Option IDOMBrush) (n1 : Nat)
    (hfill : transformBrush self path.fill next = .ok (newFill, n1)) :
    (transformFill self path next).result = .ok (brushPtrNe path.fill newFill) ∧
    (transformFill self path next).next = n1 ∧
    (transformFill self path next).node.stroke = path.stroke ∧
    (transformFill self path next).node.addr = path.addr ∧
    (transformFill self path next).node.attrs = path.attrs ∧
    (brushPtrNe path.fill newFill = false → (transformFill self path next).node = path) ∧
    (brushPtrNe path.fill newFill = true →
      (transformFill self path next).node.fill = newFill ∧
      (self.m_doNotApplyOverprint = false →
        (transformFill self path next).node.properties =
          setProperty path.properties "DeviceParams" (PValue.int 3)) ∧
      (self.m_doNotApplyOverprint = true →
        (transformFill self path next).node.properties = path.properties)) := by
  have hg : FillNode.getFill path = path.fill := rfl
  unfold transformFill
  simp only [hg, hfill]
  cases hne : brushPtrNe path.fill newFill
  · simp
  · cases hov : self.m_doNotApplyOverprint
    · simp [FillNode.setProperty, FillNode.setFill, OVERPRINT_MODE, OVERPRINT_FILL]
    · simp [FillNode.setFill]

/-- The node after `transformStroke` on a path whose stroke `transformBrush` accepts. -/
theorem transformStroke_path (self : CCmykBlackConverterImplementation) (path : IDOMPathNode)
    (next : Nat) (newStroke : Option IDOMBrush) (n1 : Nat)
    (hstroke : transformBrush self path.stroke next = .ok (newStroke, n1)) :
    (transformStroke self path next).result = .ok (brushPtrNe path.stroke newStroke) ∧
    (transformStroke self path next).next = n1 ∧
    (transformStroke self path next).node.fill = path.fill ∧
    (transformStroke self path next).node.addr = path.addr ∧
    (transformStroke self path next).node.attrs = path.attrs ∧
    (brushPtrNe path.stroke newStroke = false → (transformStroke self path next).node = path) ∧
    (brushPtrNe path.stroke newStroke = true →
      (transformStroke self path next).node.stroke = newStroke ∧
      (self.m_doNotApplyOverprint = false →
        (transformStroke self path next).node.properties =
          setProperty path.properties "DeviceParams" (PValue.int 5)) ∧
      (self.m_doNotApplyOverprint = true →
        (transformStroke self path next).node.properties = path.properties)) := by
  have hg : StrokeNode.getStroke path = path.stroke := rfl
  unfold transformStroke
  simp only [hg, hstroke]
  cases hne : brushPtrNe path.stroke newStroke
  · simp
  · cases hov : self.m_doNotApplyOverprint
    · simp [StrokeNode.setProperty, StrokeNode.setStroke, OVERPRINT_MODE, OVERPRINT_STROKE]
    · simp [StrokeNode.setStroke]

/-- The outcome of `transformPath` when `transformBrush` accepts the fill and the
stroke, in terms of the node left by the fill and stroke handling. -/
theorem transformPath_eq (self : CCmykBlackConverterImplementation)
    (generic : IImplementation) (path : IDOMPathNode) (changed : Bool)
    (state : CTransformState) (next : Nat) (newFill : Option IDOMBrush) (n1 : Nat)
    (newStroke : Option IDOMBrush) (n2 : Nat)
    (hfill : transformBrush self path.fill next = .ok (newFill, n1))
    (hstroke : transformBrush self path.stroke n1 = .ok (newStroke, n2)) :
    (transformPath self generic path changed state next).node =
      (transformStroke self (transformFill self path next).node n1).node ∧
    (transformPath self generic path changed state next).calls =
      [HostCall.transformPath (transformStroke self (transformFill self path next).node n1).node
        state] ∧
    (transformPath self generic path changed state next).result =
      .ok (generic.transformPath
        (transformStroke self (transformFill self path next).node n1).node state n2).result ∧
    (transformPath self generic path changed state next).changed =
      (changed || brushPtrNe path.fill newFill || brushPtrNe path.stroke newStroke
        || (generic.transformPath
          (transformStroke self (transformFill self path next).node n1).node state
          n2).didSomething) ∧
    (transformPath self generic path changed state next).next =
      (generic.transformPath
        (transformStroke self (transformFill self path next).node n1).node state n2).next := by
  obtain ⟨hf1, hf2, hf3, _⟩ := transformFill_path self path next newFill n1 hfill
  have hstroke2 : transformBrush self (transformFill self path next).node.stroke n1
      = .ok (newStroke, n2) := by rw [hf3]; exact hstroke
  obtain ⟨hs1, hs2, _⟩ := transformStroke_path self _ n1 newStroke n2 hstroke2
  rw [hf3] at hs1
  unfold transformPath
  simp only [hf1, hf2, hs1, hs2]
  cases brushPtrNe path.fill newFill <;> cases brushPtrNe path.stroke newStroke <;>
    cases changed <;> simp

/-- C14 as amended: for a path node whose fill and stroke `transformBrush` accepts and
whose fill is rewritten, with the overprint not suppressed the property "DeviceParams"
is MODE|FILL = 3 after the fill handling, and still after the fill and stroke handling
of `transformPath` when the stroke is not rewritten; with the overprint suppressed the
properties of the node are after `transformPath` what they were.  When the fill is not
rewritten the fill handling leaves the node as it was. -/
theorem transformPath_deviceParams (self : CCmykBlackConverterImplementation)
    (generic : IImplementation) (path : IDOMPathNode) (changed : Bool)
    (state : CTransformState) (next : Nat) (newFill : Option IDOMBrush) (n1 : Nat)
    (newStroke : Option IDOMBrush) (n2 : Nat)
    (hfill : transformBrush self path.fill next = .ok (newFill, n1))
    (hstroke : transformBrush self path.stroke n1 = .ok (newStroke, n2)) :
    (brushPtrNe path.fill newFill = true → self.m_doNotApplyOverprint = false →
      getProperty (transformFill self path next).node.properties "DeviceParams"
        = some (PValue.int (Int.ofNat (OVERPRINT_MODE ||| OVERPRINT_FILL))) ∧
      Int.ofNat (OVERPRINT_MODE ||| OVERPRINT_FILL) = 3) ∧
    (brushPtrNe path.fill newFill = true → self.m_doNotApplyOverprint = false →
      brushPtrNe path.stroke newStroke = false →
      getProperty (transformPath self generic path changed state next).node.properties
        "DeviceParams" = some (PValue.int 3)) ∧
    (self.m_doNotApplyOverprint = true →
      (transformFill self path next).node.properties = path.properties ∧
      (transformPath self generic path changed state next).node.properties
        = path.properties) ∧
    (brushPtrNe path.fill newFill = false → (transformFill self path next).node = path) := by
  obtain ⟨_, _, hf3, _, _, hfsame, hfnew⟩ := transformFill_path self path next newFill n1 hfill
  have hstroke2 : transformBrush self (transformFill self path next).node.stroke n1
      = .ok (newStroke, n2) := by rw [hf3]; exact hstroke
  obtain ⟨_, _, _, _, _, hssame, hsnew⟩ := transformStroke_path self _ n1 newStroke n2 hstroke2
  rw [hf3] at hssame hsnew
  have hnode := (transformPath_eq self generic path changed state next newFill n1 newStroke n2
    hfill hstroke).1
  refine ⟨?_, ?_, ?_, hfsame⟩
  · intro hne hov
    rw [((hfnew hne).2.1 hov), getProperty_setProperty]
    exact ⟨rfl, rfl⟩
  · intro hne hov hsame
    rw [hnode, hssame hsame, ((hfnew hne).2.1 hov), getProperty_setProperty]
  · intro hov
    have hfp : (transformFill self path next).node.properties = path.properties := by
      cases hne : brushPtrNe path.fill newFill
      · rw [hfsame hne]
      · exact (hfnew hne).2.2 hov
    refine ⟨hfp, ?_⟩
    rw [hnode]
    cases hne : brushPtrNe path.stroke newStroke
    · rw [hssame hne, hfp]
    · rw [(hsnew hne).2.2 hov, hfp]

/-- C14 as amended, at a path whose fill is a rich-black SolidColor brush and that has
no stroke: the property is 3 after `transformPath`. -/
theorem transformPath_deviceParams_witness :
    getProperty
      (transformPath (CCmykBlackConverterImplementation.new exampleJawsMako false false 0)
        exampleImplementation
        (examplePath (some (IDOMBrush.SolidColor 8 0 cyanBlackExample)) none) false
        { code := 0 } 30).node.properties "DeviceParams" = some (PValue.int 3) :=
  (transformPath_deviceParams
    (CCmykBlackConverterImplementation.new exampleJawsMako false false 0)
    exampleImplementation (examplePath (some (IDOMBrush.SolidColor 8 0 cyanBlackExample)) none)
    false { code := 0 } 30 _ _ _ _ rfl rfl).2.1 (by decide) rfl (by decide)

/-- C14 as stated fails: for a path whose fill and stroke are both rich-black
SolidColor brushes, with the overprint not suppressed, the fill is rewritten and the
property "DeviceParams" after the fill and stroke handling of `transformPath` is 5
(MODE|STROKE), not 3 (MODE|FILL). -/
theorem transformPath_deviceParams_counterexample :
    brushPtrNe (some (IDOMBrush.SolidColor 8 0 cyanBlackExample))
        (some (IDOMBrush.SolidColor 30 0
          (CCmykBlackConverterImplementation.new exampleJawsMako false false 0).m_flatBlack))
      = true ∧
    (transformPath (CCmykBlackConverterImplementation.new exampleJawsMako false false 0)
        exampleImplementation
        (examplePath (some (IDOMBrush.SolidColor 8 0 cyanBlackExample))
          (some (IDOMBrush.SolidColor 9 0 cyanBlackExample))) false
        { code := 0 } 30).node.fill
      = some (IDOMBrush.SolidColor 30 0
          (CCmykBlackConverterImplementation.new exampleJawsMako false false 0).m_flatBlack) ∧
    getProperty
      (transformPath (CCmykBlackConverterImplementation.new exampleJawsMako false false 0)
        exampleImplementation
        (examplePath (some (IDOMBrush.SolidColor 8 0 cyanBlackExample))
          (some (IDOMBrush.SolidColor 9 0 cyanBlackExample))) false
        { code := 0 } 30).node.properties "DeviceParams" = some (PValue.int 5) ∧
    getProperty
      (transformPath (CCmykBlackConverterImplementation.new exampleJawsMako false false 0)
        exampleImplementation
        (examplePath (some (IDOMBrush.SolidColor 8 0 cyanBlackExample))
          (some (IDOMBrush.SolidColor 9 0 cyanBlackExample))) false
        { code := 0 } 30).node.properties "DeviceParams" ≠ some (PValue.int 3) := by
  refine ⟨by decide, by decide, by decide, by decide⟩

/-- C15: for a CharPathGroup that is not of the stroke kind and has a clipped group,
`transformCharPathGroup` calls the host's `transformNode` once on the clipped group.
When the host reports a change and its result is no group, the error "Expected a group
..." is raised, the group is as it was and `changed` is as on entry.  When the host
reports a change and its result is a group, that group is the clipped group of the
returned group and `changed` is true.  When the host reports no change, the group is
returned as it was, `changed` is as on entry and no error is raised, whatever the
result of the host. -/
theorem transformCharPathGroup_clipped (self : CCmykBlackConverterImplementation)
    (generic : IImplementation) (group : IDOMCharPathGroup) (changed transformChildren : Bool)
    (state : CTransformState) (next : Nat) (clippedGroup : IDOMGroup)
    (hkind : group.charPathType ≠ eCharPathType.eCharPath_Stroke)
    (hclip : group.clippedGroup = some clippedGroup) :
    (transformCharPathGroup self generic group changed transformChildren state next).calls
      = [HostCall.transformNode clippedGroup transformChildren state] ∧
    ((generic.transformNode clippedGroup transformChildren state next).didSomething = true →
      edlobj2IDOMGroup (generic.transformNode clippedGroup transformChildren state next).result
        = none →
      (transformCharPathGroup self generic group changed transformChildren state next).result
        = .error (EDLError.JM_ERR_GENERAL
          "Expected a group to be the result of transforming a group in the pure black transform") ∧
      (transformCharPathGroup self generic group changed transformChildren state next).node
        = group ∧
      (transformCharPathGroup self generic group changed transformChildren state next).changed
        = changed) ∧
    (∀ newGroup,
      (generic.transformNode clippedGroup transformChildren state next).didSomething = true →
      edlobj2IDOMGroup (generic.transformNode clippedGroup transformChildren state next).result
        = some newGroup →
      (transformCharPathGroup self generic group changed transformChildren state next).result
        = .ok (some (IDOMNode.CharPathGroup { group with clippedGroup := some newGroup })) ∧
      (transformCharPathGroup self generic group changed transformChildren state next).node
        = { group with clippedGroup := some newGroup } ∧
      (transformCharPathGroup self generic group changed transformChildren state next).changed
        = true) ∧
    ((generic.transformNode clippedGroup transformChildren state next).didSomething = false →
      (transformCharPathGroup self generic group changed transformChildren state next).result
        = .ok (some (IDOMNode.CharPathGroup group)) ∧
      (transformCharPathGroup self generic group changed transformChildren state next).node
        = group ∧
      (transformCharPathGroup self generic group changed transformChildren state next).changed
        = changed) := by
  unfold transformCharPathGroup
  simp only [if_neg hkind, hclip]
  refine ⟨?_, ?_, ?_, ?_⟩
  · cases (generic.transformNode clippedGroup transformChildren state next).didSomething
    · simp
    · cases edlobj2IDOMGroup (generic.transformNode clippedGroup transformChildren state
        next).result <;> simp
  · intro hd hn
    simp [hd, hn]
  · intro newGroup hd hn
    simp [hd, hn]
  · intro hd
    simp [hd]

/-- C15, at a clip group whose host reports a change and returns null: the error is
raised and the group and `changed` are as on entry. -/
theorem transformCharPathGroup_clipped_witness :
    (transformCharPathGroup (CCmykBlackConverterImplementation.new exampleJawsMako false false 0)
        exampleImplementation
        { addr := 21, attrs := 0, charPathType := eCharPathType.eCharPath_Other 1,
          strokePath := none, clippedGroup := some { addr := 22, attrs := 0 } }
        false true { code := 0 } 30).result
      = .error (EDLError.JM_ERR_GENERAL
        "Expected a group to be the result of transforming a group in the pure black transform") ∧
    (transformCharPathGroup (CCmykBlackConverterImplementation.new exampleJawsMako false false 0)
        exampleImplementation
        { addr := 21, attrs := 0, charPathType := eCharPathType.eCharPath_Other 1,
          strokePath := none, clippedGroup := some { addr := 22, attrs := 0 } }
        false true { code := 0 } 30).changed = false :=
  ⟨((transformCharPathGroup_clipped
      (CCmykBlackConverterImplementation.new exampleJawsMako false false 0)
      exampleImplementation
      { addr := 21, attrs := 0, charPathType := eCharPathType.eCharPath_Other 1,
        strokePath := none, clippedGroup := some { addr := 22, attrs := 0 } }
      false true { code := 0 } 30 { addr := 22, attrs := 0 } (by decide) rfl).2.1 rfl rfl).1,
    ((transformCharPathGroup_clipped
      (CCmykBlackConverterImplementation.new exampleJawsMako false false 0)
      exampleImplementation
      { addr := 21, attrs := 0, charPathType := eCharPathType.eCharPath_Other 1,
        strokePath := none, clippedGroup := some { addr := 22, attrs := 0 } }
      false true { code := 0 } 30 { addr := 22, attrs := 0 } (by decide) rfl).2.1 rfl rfl).2.2⟩

/-- The outcome of `transformGlyphs` when `transformBrush` accepts the fill. -/
theorem transformFill_glyphs (self : CCmykBlackConverterImplementation) (glyphs : IDOMGlyphs)
    (next : Nat) (newFill : Option IDOMBrush) (n1 : Nat)
    (hfill : transformBrush self glyphs.fill next = .ok (newFill, n1)) :
    (transformFill self glyphs next).result = .ok (brushPtrNe glyphs.fill newFill) ∧
    (transformFill self glyphs next).next = n1 ∧
    (brushPtrNe glyphs.fill newFill = false → (transformFill self glyphs next).node = glyphs) ∧
    (brushPtrNe glyphs.fill newFill = true →
      (transformFill self glyphs next).node.fill = newFill) := by
  have hg : FillNode.getFill glyphs = glyphs.fill := rfl
  unfold transformFill
  simp only [hg, hfill]
  cases hne : brushPtrNe glyphs.fill newFill
  · simp
  · cases hov : self.m_doNotApplyOverprint
    · simp [FillNode.setProperty, FillNode.setFill]
    · simp [FillNode.setFill]

/-- C16: when `transformBrush` accepts the fill of a GlyphRun, `transformGlyphs` makes
one call to the host, the generic `transformGlyphs` on the node as left by the fill
handling, returns what that call returns, and leaves `changed` equal to `changed` on
entry OR fill rewritten OR the flag of the host.  When `transformBrush` accepts the
fill and the stroke of a Path, `transformPath` makes one call to the host, the generic
`transformPath` on the node as left by the fill and stroke handling, returns what that
call returns, and leaves `changed` equal to `changed` on entry OR fill rewritten OR
stroke rewritten OR the flag of the host.  The call is made whether or not a brush was
rewritten, and a `changed` that is true on entry is true on exit. -/
theorem visitor_generic_traversal (self : CCmykBlackConverterImplementation)
    (generic : IImplementation) (changed : Bool) (state : CTransformState) (next : Nat) :
    (∀ (glyphs : IDOMGlyphs) (newFill : Option IDOMBrush) (n1 : Nat),
      transformBrush self glyphs.fill next = .ok (newFill, n1) →
      (transformGlyphs self generic glyphs changed state next).calls =
        [HostCall.transformGlyphs (transformFill self glyphs next).node state] ∧
      (brushPtrNe glyphs.fill newFill = true →
        (transformFill self glyphs next).node.fill = newFill) ∧
      (brushPtrNe glyphs.fill newFill = false → (transformFill self glyphs next).node = glyphs) ∧
      (transformGlyphs self generic glyphs changed state next).result =
        .ok (generic.transformGlyphs (transformFill self glyphs next).node state n1).result ∧
      (transformGlyphs self generic glyphs changed state next).changed =
        (changed || brushPtrNe glyphs.fill newFill
          || (generic.transformGlyphs (transformFill self glyphs next).node state
            n1).didSomething) ∧
      (changed = true →
        (transformGlyphs self generic glyphs changed state next).changed = true)) ∧
    (∀ (path : IDOMPathNode) (newFill : Option IDOMBrush) (n1 : Nat)
      (newStroke : Option IDOMBrush) (n2 : Nat),
      transformBrush self path.fill next = .ok (newFill, n1) →
      transformBrush self path.stroke n1 = .ok (newStroke, n2) →
      (transformPath self generic path changed state next).calls =
        [HostCall.transformPath
          (transformStroke self (transformFill self path next).node n1).node state] ∧
      (brushPtrNe path.fill newFill = true →
        (transformStroke self (transformFill self path next).node n1).node.fill = newFill) ∧
      (brushPtrNe path.stroke newStroke = true →
        (transformStroke self (transformFill self path next).node n1).node.stroke
          = newStroke) ∧
      (brushPtrNe path.fill newFill = false → brushPtrNe path.stroke newStroke = false →
        (transformStroke self (transformFill self path next).node n1).node = path) ∧
      (transformPath self generic path changed state next).result =
        .ok (generic.transformPath
          (transformStroke self (transformFill self path next).node n1).node state n2).result ∧
      (transformPath self generic path changed state next).changed =
        (changed || brushPtrNe path.fill newFill || brushPtrNe path.stroke newStroke
          || (generic.transformPath
            (transformStroke self (transformFill self path next).node n1).node state
            n2).didSomething) ∧
      (changed = true →
        (transformPath self generic path changed state next).changed = true)) := by
  constructor
  · intro glyphs newFill n1 hfill
    obtain ⟨hf1, hf2, hfsame, hfnew⟩ := transformFill_glyphs self glyphs next newFill n1 hfill
    have hall : (transformGlyphs self generic glyphs changed state next).calls =
          [HostCall.transformGlyphs (transformFill self glyphs next).node state] ∧
        (transformGlyphs self generic glyphs changed state next).result =
          .ok (generic.transformGlyphs (transformFill self glyphs next).node state n1).result ∧
        (transformGlyphs self generic glyphs changed state next).changed =
          (changed || brushPtrNe glyphs.fill newFill
            || (generic.transformGlyphs (transformFill self glyphs next).node state
              n1).didSomething) := by
      unfold transformGlyphs
      simp only [hf1, hf2]
      cases brushPtrNe glyphs.fill newFill <;> cases changed <;> simp
    refine ⟨hall.1, hfnew, hfsame, hall.2.1, hall.2.2, ?_⟩
    intro hc
    rw [hall.2.2, hc]
    simp
  · intro path newFill n1 newStroke n2 hfill hstroke
    obtain ⟨_, hcalls, hres, hch, _⟩ :=
      transformPath_eq self generic path changed state next newFill n1 newStroke n2 hfill hstroke
    obtain ⟨_, _, hf3, _, _, hfsame, hfnew⟩ := transformFill_path self path next newFill n1 hfill
    have hstroke2 : transformBrush self (transformFill self path next).node.stroke n1
        = .ok (newStroke, n2) := by rw [hf3]; exact hstroke
    obtain ⟨_, _, hsfill, _, _, hssame, hsnew⟩ :=
      transformStroke_path self _ n1 newStroke n2 hstroke2
    rw [hf3] at hssame hsnew
    refine ⟨hcalls, ?_, ?_, ?_, hres, hch, ?_⟩
    · intro hne
      rw [hsfill]
      exact (hfnew hne).1
    · intro hne
      exact (hsnew hne).1
    · intro h1 h2
      rw [hssame h2, hfsame h1]
    · intro hc
      rw [hch, hc]
      simp

/-- C16, at a Path without brushes and a GlyphRun without fill: the host is called once
on the node as it is, and `changed`, true on entry, is true on exit. -/
theorem visitor_generic_traversal_witness :
    (transformPath (CCmykBlackConverterImplementation.new exampleJawsMako false false 0)
        exampleImplementation (examplePath none none) true { code := 0 } 30).calls =
      [HostCall.transformPath (examplePath none none) { code := 0 }] ∧
    (transformGlyphs (CCmykBlackConverterImplementation.new exampleJawsMako false false 0)
        exampleImplementation { addr := 23, attrs := 0, fill := none, properties := [] }
        true { code := 0 } 30).changed = true :=
  ⟨((visitor_generic_traversal
      (CCmykBlackConverterImplementation.new exampleJawsMako false false 0)
      exampleImplementation true { code := 0 } 30).2 (examplePath none none) none 30 none 30
      rfl rfl).1,
    ((visitor_generic_traversal
      (CCmykBlackConverterImplementation.new exampleJawsMako false false 0)
      exampleImplementation true { code := 0 } 30).1
      { addr := 23, attrs := 0, fill := none, properties := [] } none 30 rfl).2.2.2.2.2 rfl⟩

theorem brushPtrNe_self (b : Option IDOMBrush) : brushPtrNe b b = false := by
  cases b <;> simp [brushPtrNe]

/-- The stroke after `transformStroke` is the object that `transformBrush` returned. -/
theorem transformStroke_path_stroke (self : CCmykBlackConverterImplementation)
    (path : IDOMPathNode) (next : Nat) (newStroke : Option IDOMBrush) (n1 : Nat)
    (hstroke : transformBrush self path.stroke next = .ok (newStroke, n1)) :
    brushPtrNe (transformStroke self path next).node.stroke newStroke = false ∧
    ((transformStroke self path next).node.stroke = none ↔ path.stroke = none) := by
  obtain ⟨_, _, _, _, _, hsame, hnew⟩ := transformStroke_path self path next newStroke n1 hstroke
  have hnone : newStroke = none ↔ path.stroke = none := by
    cases hp : path.stroke with
    | none =>
      rw [hp] at hstroke
      simp only [transformBrush, Except.ok.injEq, Prod.mk.injEq] at hstroke
      simp [hstroke.1]
    | some b =>
      rw [hp] at hstroke
      simp only [transformBrush] at hstroke
      cases ht : transformBrushObject self b next with
      | error e =>
        rw [ht] at hstroke
        exact Except.noConfusion hstroke
      | ok q =>
        rw [ht] at hstroke
        simp only [Except.ok.injEq, Prod.mk.injEq] at hstroke
        simp [← hstroke.1]
  cases hne : brushPtrNe path.stroke newStroke
  · rw [hsame hne]
    exact ⟨hne, Iff.rfl⟩
  · rw [(hnew hne).1]
    exact ⟨brushPtrNe_self _, hnone⟩

theorem transformStroke_with_fill (self : CCmykBlackConverterImplementation)
    (p : IDOMPathNode) (fill : Option IDOMBrush) (next : Nat) :
    transformStroke self { p with fill := fill } next =
      { node := { (transformStroke self p next).node with fill := fill },
        result := (transformStroke self p next).result,
        next := (transformStroke self p next).next } := by
  unfold transformStroke
  simp only [StrokeNode.getStroke, StrokeNode.setStroke, StrokeNode.setProperty]
  cases transformBrush self p.stroke next with
  | error e => rfl
  | ok q =>
    obtain ⟨newBrush, n1⟩ := q
    simp only
    split
    · split <;> rfl
    · rfl

/-- The stroke branch of `transformCharPathGroup` does not depend on the fill of the
stroke path: with another fill, and a host whose state inside a node does not depend on
the fill of the node, the outcome is the same with that fill in place of the first. -/
theorem transformCharPathGroup_stroke_fill (self : CCmykBlackConverterImplementation)
    (generic : IImplementation) (group : IDOMCharPathGroup) (changed transformChildren : Bool)
    (state : CTransformState) (next : Nat) (p : IDOMPathNode) (fill : Option IDOMBrush)
    (hkind : group.charPathType = eCharPathType.eCharPath_Stroke)
    (hp : group.strokePath = some p)
    (hstate : ∀ st (q : IDOMPathNode),
      generic.stateInsideNode st { q with fill := fill } = generic.stateInsideNode st q) :
    (transformCharPathGroup self generic { group with strokePath := some { p with fill := fill } }
        changed transformChildren state next).changed
      = (transformCharPathGroup self generic group changed transformChildren state next).changed ∧
    (transformCharPathGroup self generic { group with strokePath := some { p with fill := fill } }
        changed transformChildren state next).calls
      = (transformCharPathGroup self generic group changed transformChildren state next).calls ∧
    (transformCharPathGroup self generic { group with strokePath := some { p with fill := fill } }
        changed transformChildren state next).next
      = (transformCharPathGroup self generic group changed transformChildren state next).next ∧
    (transformCharPathGroup self generic { group with strokePath := some { p with fill := fill } }
        changed transformChildren state next).node.strokePath
      = (transformCharPathGroup self generic group changed transformChildren state
          next).node.strokePath.map (fun q => { q with fill := fill }) := by
  obtain ⟨gaddr, gattrs, gkind, gstroke, gclip⟩ := group
  simp only at hkind hp
  subst hkind
  subst hp
  unfold transformCharPathGroup
  simp only [if_true, transformStroke_with_fill]
  generalize transformStroke self p next = o
  obtain ⟨⟨oaddr, oattrs, ofill, ostroke, oprops⟩, ores, onext⟩ := o
  have hst := hstate state
    { addr := oaddr, attrs := oattrs, fill := ofill, stroke := ostroke, properties := oprops }
  simp only at hst
  cases ores with
  | error e => simp
  | ok alteredStroke =>
    cases ostroke with
    | none => simp
    | some stroke =>
      simp only [hst]
      split <;> simp

/-- With a stroke allocated before the call, the stroke after `transformStroke` is what
`transformBrush` returned. -/
theorem transformStroke_path_stroke_eq (self : CCmykBlackConverterImplementation)
    (path : IDOMPathNode) (next : Nat) (newStroke : Option IDOMBrush) (n1 : Nat)
    (hstroke : transformBrush self path.stroke next = .ok (newStroke, n1))
    (hfresh : ∀ b, path.stroke = some b → b.allocatedBelow next = true) :
    (transformStroke self path next).node.stroke = newStroke := by
  obtain ⟨_, _, _, _, _, hsame, hnew⟩ := transformStroke_path self path next newStroke n1 hstroke
  cases hne : brushPtrNe path.stroke newStroke
  · rw [hsame hne]
    cases hp : path.stroke with
    | none =>
      rw [hp] at hstroke
      simp only [transformBrush, Except.ok.injEq, Prod.mk.injEq] at hstroke
      exact hstroke.1
    | some b =>
      rw [hp] at hstroke hne
      simp only [transformBrush] at hstroke
      cases ht : transformBrushObject self b next with
      | error e =>
        rw [ht] at hstroke
        exact Except.noConfusion hstroke
      | ok q =>
        obtain ⟨r, n⟩ := q
        rw [ht] at hstroke
        simp only [Except.ok.injEq, Prod.mk.injEq] at hstroke
        rw [← hstroke.1] at hne ⊢
        simp only [brushPtrNe, bne_eq_false_iff_eq] at hne
        rcases (transformBrushObject_alloc self b next r n ht).2 with h1 | h1
        · rw [h1]
        · have := b.addr_lt_of_allocatedBelow next (hfresh b hp)
          omega
  · exact (hnew hne).1

/-- C17: for a CharPathGroup of the stroke kind.  Without stroke path the group is
returned as it is, with `changed` as on entry and no call to the host.  With the stroke
path `p`, whose stroke `transformBrush` accepts: the stroke of `p` after the stroke
handling is the object that `transformBrush` returned; when it is not null the host's
`transformBrush` is called once on it (with `eBUStroke` and the state inside `p`),
whether or not the stroke was rewritten, and that is the only call to the host, so the
generic path handler is not called; the final stroke of `p` is the object that the host
returned; `changed` is `changed` on entry OR stroke rewritten OR the host returned
another object than it was handed; the fill, the address and the other members of `p`
are as they were, and the group is returned. -/
theorem transformCharPathGroup_stroke (self : CCmykBlackConverterImplementation)
    (generic : IImplementation) (group : IDOMCharPathGroup) (changed transformChildren : Bool)
    (state : CTransformState) (next : Nat)
    (hkind : group.charPathType = eCharPathType.eCharPath_Stroke) :
    (group.strokePath = none →
      (transformCharPathGroup self generic group changed transformChildren state next).node
        = group ∧
      (transformCharPathGroup self generic group changed transformChildren state next).changed
        = changed ∧
      (transformCharPathGroup self generic group changed transformChildren state next).result
        = .ok (some (IDOMNode.CharPathGroup group)) ∧
      (transformCharPathGroup self generic group changed transformChildren state next).calls
        = [] ∧
      (transformCharPathGroup self generic group changed transformChildren state next).next
        = next) ∧
    (∀ (p : IDOMPathNode) (newStroke : Option IDOMBrush) (n1 : Nat),
      group.strokePath = some p →
      transformBrush self p.stroke next = .ok (newStroke, n1) →
      brushPtrNe (transformStroke self p next).node.stroke newStroke = false ∧
      ((∀ b, p.stroke = some b → b.allocatedBelow next = true) →
        (transformStroke self p next).node.stroke = newStroke) ∧
      (p.stroke = none →
        (transformCharPathGroup self generic group changed transformChildren state next).calls
          = [] ∧
        (transformCharPathGroup self generic group changed transformChildren state next).node
          = group ∧
        (transformCharPathGroup self generic group changed transformChildren state
          next).changed = changed) ∧
      (∀ cur, (transformStroke self p next).node.stroke = some cur →
        (transformCharPathGroup self generic group changed transformChildren state next).calls
          = [HostCall.transformBrush cur eBrushUsage.eBUStroke
              (generic.stateInsideNode state (transformStroke self p next).node)] ∧
        (transformCharPathGroup self generic group changed transformChildren state
          next).changed
          = (changed || brushPtrNe p.stroke newStroke
            || brushPtrNe (generic.transformBrush cur eBrushUsage.eBUStroke
                (generic.stateInsideNode state (transformStroke self p next).node) n1).1
              (some cur)) ∧
        ∃ final,
          (transformCharPathGroup self generic group changed transformChildren state next).node
            = { group with strokePath := some final } ∧
          (transformCharPathGroup self generic group changed transformChildren state
            next).result
            = .ok (some (IDOMNode.CharPathGroup { group with strokePath := some final })) ∧
          brushPtrNe final.stroke
            (generic.transformBrush cur eBrushUsage.eBUStroke
              (generic.stateInsideNode state (transformStroke self p next).node) n1).1
            = false ∧
          (brushPtrNe (generic.transformBrush cur eBrushUsage.eBUStroke
              (generic.stateInsideNode state (transformStroke self p next).node) n1).1
              (some cur) = true →
            final.stroke = (generic.transformBrush cur eBrushUsage.eBUStroke
              (generic.stateInsideNode state (transformStroke self p next).node) n1).1) ∧
          (brushPtrNe (generic.transformBrush cur eBrushUsage.eBUStroke
              (generic.stateInsideNode state (transformStroke self p next).node) n1).1
              (some cur) = false → final.stroke = some cur) ∧
          final.fill = p.fill ∧ final.addr = p.addr ∧ final.attrs = p.attrs ∧
          (((generic.transformBrush cur eBrushUsage.eBUStroke
                (generic.stateInsideNode state (transformStroke self p next).node) n1).1
              = some cur ∨
            brushPtrNe (generic.transformBrush cur eBrushUsage.eBUStroke
              (generic.stateInsideNode state (transformStroke self p next).node) n1).1
              (some cur) = true) →
            final.stroke = (generic.transformBrush cur eBrushUsage.eBUStroke
              (generic.stateInsideNode state (transformStroke self p next).node) n1).1))) ∧
    (∀ (p : IDOMPathNode) (fill : Option IDOMBrush),
      group.strokePath = some p →
      (∀ st (q : IDOMPathNode),
        generic.stateInsideNode st { q with fill := fill } = generic.stateInsideNode st q) →
      (transformCharPathGroup self generic
          { group with strokePath := some { p with fill := fill } }
          changed transformChildren state next).changed
        = (transformCharPathGroup self generic group changed transformChildren state
            next).changed ∧
      (transformCharPathGroup self generic
          { group with strokePath := some { p with fill := fill } }
          changed transformChildren state next).calls
        = (transformCharPathGroup self generic group changed transformChildren state
            next).calls ∧
      (transformCharPathGroup self generic
          { group with strokePath := some { p with fill := fill } }
          changed transformChildren state next).node.strokePath
        = (transformCharPathGroup self generic group changed transformChildren state
            next).node.strokePath.map (fun q => { q with fill := fill })) := by
  refine ⟨?_, ?_, ?_⟩
  rotate_left 2
  · intro p fill hp hstate
    obtain ⟨h1, h2, _, h4⟩ := transformCharPathGroup_stroke_fill self generic group changed
      transformChildren state next p fill hkind hp hstate
    exact ⟨h1, h2, h4⟩
  · intro hnone
    unfold transformCharPathGroup
    simp [hkind, hnone]
  · intro p newStroke n1 hp hstroke
    obtain ⟨hs1, hs2, hsfill, hsaddr, hsattrs, hssame, hsnew⟩ :=
      transformStroke_path self p next newStroke n1 hstroke
    obtain ⟨hptr, hnone⟩ := transformStroke_path_stroke self p next newStroke n1 hstroke
    refine ⟨hptr, transformStroke_path_stroke_eq self p next newStroke n1 hstroke, ?_, ?_⟩
    · intro hpn
      have hcur := hnone.2 hpn
      have hne : brushPtrNe p.stroke newStroke = false := by
        rw [hpn] at hstroke ⊢
        simp only [transformBrush, Except.ok.injEq, Prod.mk.injEq] at hstroke
        rw [← hstroke.1]
        rfl
      have hnode := hssame hne
      obtain ⟨gaddr, gattrs, gkind, gstroke, gclip⟩ := group
      simp only at hkind hp
      subst hkind
      subst hp
      unfold transformCharPathGroup
      simp only [if_true, hs1, hs2, hnode, hpn]
      rw [hpn] at hne
      simp [hne]
    · intro cur hcur
      unfold transformCharPathGroup
      simp only [hkind, if_true, hp, hs1, hcur, hs2]
      cases hH : brushPtrNe (generic.transformBrush cur eBrushUsage.eBUStroke
          (generic.stateInsideNode state (transformStroke self p next).node) n1).1 (some cur)
      · refine ⟨by simp, ?_, (transformStroke self p next).node, by simp, by simp, ?_,
          by simp, fun _ => hcur, hsfill, hsaddr, hsattrs, ?_⟩
        · cases brushPtrNe p.stroke newStroke <;> cases changed <;> simp
        rotate_left 1
        · rintro (h | h)
          · rw [h]
            exact hcur
          · exact Bool.noConfusion h
        · rw [hcur]
          cases hr : (generic.transformBrush cur eBrushUsage.eBUStroke
            (generic.stateInsideNode state (transformStroke self p next).node) n1).1 with
          | none =>
            rw [hr] at hH
            simp [brushPtrNe] at hH
          | some q =>
            rw [hr] at hH
            simp only [brushPtrNe, bne_eq_false_iff_eq] at hH ⊢
            exact hH.symm
      · refine ⟨by simp, by simp, { (transformStroke self p next).node with
            stroke := (generic.transformBrush cur eBrushUsage.eBUStroke
              (generic.stateInsideNode state (transformStroke self p next).node) n1).1 },
          by simp, by simp, brushPtrNe_self _, fun _ => rfl, by simp, hsfill, hsaddr, hsattrs,
          fun _ => rfl⟩

/-- C17, at a stroke-kind group whose outline path has a rich-black SolidColor stroke
and a fill, with a host that returns the brush it is handed: the host is called once,
on the rewritten stroke, and `changed` is true. -/
theorem transformCharPathGroup_stroke_witness :
    (transformCharPathGroup (CCmykBlackConverterImplementation.new exampleJawsMako false false 0)
        exampleImplementation
        { addr := 21, attrs := 0, charPathType := eCharPathType.eCharPath_Stroke,
          strokePath := some (examplePath (some (IDOMBrush.SolidColor 8 0 cyanBlackExample))
            (some (IDOMBrush.SolidColor 9 0 cyanBlackExample))),
          clippedGroup := none }
        false false { code := 0 } 30).calls
      = [HostCall.transformBrush
          (IDOMBrush.SolidColor 30 0
            (CCmykBlackConverterImplementation.new exampleJawsMako false false 0).m_flatBlack)
          eBrushUsage.eBUStroke { code := 0 }] ∧
    (transformCharPathGroup (CCmykBlackConverterImplementation.new exampleJawsMako false false 0)
        exampleImplementation
        { addr := 21, attrs := 0, charPathType := eCharPathType.eCharPath_Stroke,
          strokePath := some (examplePath (some (IDOMBrush.SolidColor 8 0 cyanBlackExample))
            (some (IDOMBrush.SolidColor 9 0 cyanBlackExample))),
          clippedGroup := none }
        false false { code := 0 } 30).changed = true := by
  have h := ((transformCharPathGroup_stroke
    (CCmykBlackConverterImplementation.new exampleJawsMako false false 0)
    exampleImplementation
    { addr := 21, attrs := 0, charPathType := eCharPathType.eCharPath_Stroke,
      strokePath := some (examplePath (some (IDOMBrush.SolidColor 8 0 cyanBlackExample))
        (some (IDOMBrush.SolidColor 9 0 cyanBlackExample))),
      clippedGroup := none }
    false false { code := 0 } 30 rfl).2.1
    (examplePath (some (IDOMBrush.SolidColor 8 0 cyanBlackExample))
      (some (IDOMBrush.SolidColor 9 0 cyanBlackExample))) _ _ rfl rfl).2.2.2
    (IDOMBrush.SolidColor 30 0
      (CCmykBlackConverterImplementation.new exampleJawsMako false false 0).m_flatBlack) rfl
  exact ⟨h.1, h.2.1.trans (by decide)⟩

/-- For a colour of a consistent heap, `transformColor` returns an object at another
address exactly when the colour is rich black. -/
theorem transformColor_addr_ne_iff (self : CCmykBlackConverterImplementation)
    (hfb : colorIsCmykRichBlack self.m_flatBlack = false) (c : IDOMColor)
    (hc : c.addr = self.m_flatBlack.addr → c = self.m_flatBlack) :
    (c.addr != (transformColor self c).addr) = colorIsCmykRichBlack c := by
  cases hr : colorIsCmykRichBlack c
  · simp [transformColor, hr]
  · have hne : c.addr ≠ self.m_flatBlack.addr := by
      intro h
      rw [hc h, hfb] at hr
      exact Bool.noConfusion hr
    simp [transformColor, hr, hne]

/-- For an image allocated before the call whose normalized frame holds no padding,
`transformImage` returns the input image exactly when the image is not Device CMYK or
has no rich-black pixel; otherwise it returns an object at another address. -/
theorem transformImage_addr_ne_iff (self : CCmykBlackConverterImplementation) (img : IDOMImage)
    (next : Nat) (r : IDOMImage) (n1 : Nat)
    (h : transformImage self img next = .ok (r, n1)) (hlive : img.addr < next)
    (hu : img.frame.colorSpace = IDOMColorSpace.DeviceCMYK →
      (normalizedFrame self img).unpadded) :
    (img.addr != r.addr) =
      (img.frame.colorSpace.isDeviceCMYK && (normalizedFrame self img).hasRichBlackPixel) := by
  by_cases hcs : img.frame.colorSpace = IDOMColorSpace.DeviceCMYK
  · have hcs2 : img.frame.colorSpace.isDeviceCMYK = true := (IDOMColorSpace.isDeviceCMYK_iff _).2 hcs
    by_cases hs : img.frame.bps = 1 ∨ img.frame.bps = 2 ∨ img.frame.bps = 4 ∨ img.frame.bps = 8
        ∨ img.frame.bps = 12 ∨ img.frame.bps = 16
    · obtain ⟨n0, _, h0⟩ := transformImage_cmyk self img next hcs hs
      have hb : (normalizedFrame self img).bps = 8 ∨ (normalizedFrame self img).bps = 16 := by
        rw [h0] at h
        cases hsp : scanPass (normalizedFrame self img)
            (normalizedFrame self img).numChannels with
        | error e =>
          rw [hsp] at h
          exact Except.noConfusion h
        | ok rb => exact scanPass_ok_bps _ _ _ hsp
      obtain ⟨n3, hle, h3⟩ := transformImage_cmyk_unpadded self img next hcs hs hb (hu hcs)
      rw [h3] at h
      rw [hcs2, Bool.true_and]
      cases hrich : (normalizedFrame self img).hasRichBlackPixel
      · rw [hrich] at h
        simp only [if_true, Except.ok.injEq, Prod.mk.injEq] at h
        rw [← h.1]
        simp
      · rw [hrich] at h
        simp only [Bool.true_eq_false, if_false, Except.ok.injEq, Prod.mk.injEq] at h
        have : r.addr = n3 := by rw [← h.1]; rfl
        simp only [bne_iff_ne, ne_eq]
        omega
    · rw [transformImage_unsupported self img next hcs hs] at h
      exact Except.noConfusion h
  · have hcs2 : img.frame.colorSpace.isDeviceCMYK = false := by
      cases hc : img.frame.colorSpace.isDeviceCMYK
      · rfl
      · exact absurd ((IDOMColorSpace.isDeviceCMYK_iff _).1 hc) hcs
    rw [transformImage_not_cmyk self img next hcs] at h
    simp only [Except.ok.injEq, Prod.mk.injEq] at h
    rw [← h.1, hcs2]
    simp

/-- For a brush object allocated before the call, of a consistent heap, `transformBrush`
returns an object at another address exactly when the brush holds something to
convert. -/
theorem transformBrushObject_addr_ne_iff (self : CCmykBlackConverterImplementation)
    (hfb : colorIsCmykRichBlack self.m_flatBlack = false) (b : IDOMBrush) :
    ∀ (next : Nat) (r : IDOMBrush) (n2 : Nat), b.allocatedBelow next = true →
      b.consistent self = true →
      transformBrushObject self b next = .ok (r, n2) →
      (b.addr != r.addr) = b.needsConversion self := by
  induction b with
  | SolidColor addr attrs color =>
    intro next r n2 hfresh hcons h
    simp only [IDOMBrush.allocatedBelow, decide_eq_true_eq] at hfresh
    simp only [IDOMBrush.consistent, decide_eq_true_eq] at hcons
    have hc := transformColor_addr_ne_iff self hfb color hcons
    simp only [transformBrushObject] at h
    rw [hc] at h
    simp only [IDOMBrush.needsConversion, IDOMBrush.addr]
    cases hr : colorIsCmykRichBlack color
    · rw [hr] at h
      simp only [Bool.false_eq_true, if_false, Except.ok.injEq, Prod.mk.injEq] at h
      rw [← h.1]
      simp [IDOMBrush.addr]
    · rw [hr] at h
      simp only [if_true, Except.ok.injEq, Prod.mk.injEq] at h
      rw [← h.1]
      simp only [IDOMBrush.addr, bne_iff_ne, ne_eq]
      omega
  | Image addr attrs img =>
    intro next r n2 hfresh hcons h
    simp only [IDOMBrush.allocatedBelow, Bool.and_eq_true, decide_eq_true_eq] at hfresh
    simp only [IDOMBrush.consistent, decide_eq_true_eq] at hcons
    simp only [transformBrushObject] at h
    cases hti : transformImage self img next with
    | error e =>
      rw [hti] at h
      exact Except.noConfusion h
    | ok q =>
      obtain ⟨img2, n1⟩ := q
      rw [hti] at h
      have hi := transformImage_addr_ne_iff self img next img2 n1 hti hfresh.2 hcons
      have hle := (transformImage_alloc self img next img2 n1 hti).1
      simp only [hi] at h
      simp only [IDOMBrush.needsConversion, IDOMBrush.addr]
      cases hn : (img.frame.colorSpace.isDeviceCMYK
          && (normalizedFrame self img).hasRichBlackPixel)
      · rw [hn] at h
        simp only [Bool.false_eq_true, if_false, Except.ok.injEq, Prod.mk.injEq] at h
        rw [← h.1]
        simp [IDOMBrush.addr]
      · rw [hn] at h
        simp only [if_true, Except.ok.injEq, Prod.mk.injEq] at h
        rw [← h.1]
        simp only [IDOMBrush.addr, bne_iff_ne, ne_eq]
        omega
  | Masked addr attrs mask inner ih =>
    intro next r n2 hfresh hcons h
    simp only [IDOMBrush.allocatedBelow, Bool.and_eq_true, decide_eq_true_eq] at hfresh
    simp only [IDOMBrush.consistent] at hcons
    simp only [transformBrushObject] at h
    cases hti : transformBrushObject self inner next with
    | error e =>
      rw [hti] at h
      exact Except.noConfusion h
    | ok q =>
      obtain ⟨inner2, n1⟩ := q
      rw [hti] at h
      have hi := ih next inner2 n1 hfresh.2 hcons hti
      have hle := (transformBrushObject_alloc self inner next inner2 n1 hti).1
      simp only [hi] at h
      simp only [IDOMBrush.needsConversion, IDOMBrush.addr]
      cases hn : inner.needsConversion self
      · rw [hn] at h
        simp only [Bool.false_eq_true, if_false, Except.ok.injEq, Prod.mk.injEq] at h
        rw [← h.1]
        simp [IDOMBrush.addr]
      · rw [hn] at h
        simp only [if_true, Except.ok.injEq, Prod.mk.injEq] at h
        rw [← h.1]
        simp only [IDOMBrush.addr, bne_iff_ne, ne_eq]
        omega
  | TilingPattern addr attrs paintType color =>
    intro next r n2 hfresh hcons h
    simp only [IDOMBrush.allocatedBelow, decide_eq_true_eq] at hfresh
    simp only [IDOMBrush.consistent, decide_eq_true_eq] at hcons
    have hc := transformColor_addr_ne_iff self hfb color hcons
    simp only [transformBrushObject] at h
    rw [hc] at h
    simp only [IDOMBrush.needsConversion, IDOMBrush.addr]
    by_cases hpt : paintType = 2
    · subst hpt
      cases hr : colorIsCmykRichBlack color
      · rw [hr] at h
        simp only [beq_self_eq_true, if_true, Bool.false_eq_true, if_false, Except.ok.injEq,
          Prod.mk.injEq] at h
        rw [← h.1]
        simp [IDOMBrush.addr]
      · rw [hr] at h
        simp only [beq_self_eq_true, if_true, Except.ok.injEq, Prod.mk.injEq] at h
        rw [← h.1]
        simp only [IDOMBrush.addr, bne_iff_ne, ne_eq, beq_self_eq_true, Bool.and_self,
          eq_iff_iff, iff_true]
        omega
    · have hpt2 : (paintType == 2) = false := by simpa using hpt
      rw [hpt2] at h
      simp only [Bool.false_eq_true, if_false, Except.ok.injEq, Prod.mk.injEq] at h
      rw [← h.1, hpt2]
      simp [IDOMBrush.addr]
  | Other addr attrs brushType =>
    intro next r n2 _ _ h
    simp only [transformBrushObject, Except.ok.injEq, Prod.mk.injEq] at h
    rw [← h.1]
    simp [IDOMBrush.needsConversion, IDOMBrush.addr]

/-- C18: in both modes, for a brush on which `transformBrush` succeeds, whose objects
were allocated before the call and are objects of a consistent heap with images
without padding: the result is the input brush itself exactly when the brush holds
nothing to convert (through Masked brushes: no SolidColor with a rich-black colour, no
TilingPattern of paint type 2 with a rich-black pattern colour, no Image brush whose
Device CMYK image has a rich-black pixel); a result at the address of the input is the
input; and a Masked brush is returned as another brush only when the result for its
inner brush is another brush than the inner brush. -/
theorem transformBrush_identity_iff (jawsMako : IJawsMako)
    (useDeviceN doNotApplyOverprint : Bool) (flatAddr : Nat) (b : IDOMBrush) (next : Nat)
    (r : Option IDOMBrush) (n2 : Nat)
    (hfresh : b.allocatedBelow next = true)
    (hcons : b.consistent
      (CCmykBlackConverterImplementation.new jawsMako useDeviceN doNotApplyOverprint flatAddr)
      = true)
    (h : transformBrush
        (CCmykBlackConverterImplementation.new jawsMako useDeviceN doNotApplyOverprint flatAddr)
        (some b) next = .ok (r, n2)) :
    (r = some b ↔
      b.needsConversion
        (CCmykBlackConverterImplementation.new jawsMako useDeviceN doNotApplyOverprint flatAddr)
        = false) ∧
    (brushPtrNe (some b) r = false ↔ r = some b) ∧
    (∀ addr attrs mask inner ri n1, b = IDOMBrush.Masked addr attrs mask inner →
      transformBrush
        (CCmykBlackConverterImplementation.new jawsMako useDeviceN doNotApplyOverprint flatAddr)
        (some inner) next = .ok (ri, n1) →
      r ≠ some b → ri ≠ some inner) := by
  have hfb := flatBlack_not_richBlack jawsMako useDeviceN doNotApplyOverprint flatAddr
  simp only [transformBrush] at h
  cases ht : transformBrushObject
      (CCmykBlackConverterImplementation.new jawsMako useDeviceN doNotApplyOverprint flatAddr)
      b next with
  | error e =>
    rw [ht] at h
    exact Except.noConfusion h
  | ok q =>
    obtain ⟨r2, n⟩ := q
    rw [ht] at h
    simp only [Except.ok.injEq, Prod.mk.injEq] at h
    have hiff := transformBrushObject_addr_ne_iff _ hfb b next r2 n hfresh hcons ht
    have halloc := (transformBrushObject_alloc _ b next r2 n ht).2
    have hlt := b.addr_lt_of_allocatedBelow next hfresh
    have hsame : r2.addr = b.addr → r2 = b := by
      intro he
      rcases halloc with h1 | h1
      · exact h1
      · omega
    rw [← h.1]
    refine ⟨?_, ?_, ?_⟩
    · rw [← hiff]
      constructor
      · intro he
        rw [Option.some.inj he]
        simp
      · intro he
        simp only [bne_eq_false_iff_eq] at he
        rw [hsame he.symm]
    · simp only [brushPtrNe, bne_eq_false_iff_eq]
      constructor
      · intro he
        rw [hsame he.symm]
      · intro he
        rw [Option.some.inj he]
    · intro addr attrs mask inner ri n1 hb hinner hne heq
      subst hb
      rw [heq] at hinner
      simp only [transformBrush] at hinner
      cases hti : transformBrushObject
          (CCmykBlackConverterImplementation.new jawsMako useDeviceN doNotApplyOverprint
            flatAddr) inner next with
      | error e =>
        rw [hti] at hinner
        exact Except.noConfusion hinner
      | ok q2 =>
        obtain ⟨inner2, n3⟩ := q2
        rw [hti] at hinner
        simp only [Except.ok.injEq, Prod.mk.injEq, Option.some.injEq] at hinner
        simp only [transformBrushObject, hti, hinner.1, bne_self_eq_false, Bool.false_eq_true,
          if_false, Except.ok.injEq, Prod.mk.injEq] at ht
        exact hne (by rw [ht.1])

/-- C18, at a Masked brush over a SolidColor brush with the colour (0,0,0,1), which is
not rich black: the brush is returned as it is. -/
theorem transformBrush_identity_iff_witness :
    transformBrush (CCmykBlackConverterImplementation.new exampleJawsMako false false 0)
        (some (IDOMBrush.Masked 9 0 0 (IDOMBrush.SolidColor 8 0
          (IDOMColor.createSolidCmyk 7 FloatVal.zero FloatVal.zero FloatVal.zero FloatVal.one))))
        10 =
      .ok (some (IDOMBrush.Masked 9 0 0 (IDOMBrush.SolidColor 8 0
          (IDOMColor.createSolidCmyk 7 FloatVal.zero FloatVal.zero FloatVal.zero FloatVal.one))),
        10) ∧
    (IDOMBrush.Masked 9 0 0 (IDOMBrush.SolidColor 8 0
      (IDOMColor.createSolidCmyk 7 FloatVal.zero FloatVal.zero FloatVal.zero
        FloatVal.one))).needsConversion
      (CCmykBlackConverterImplementation.new exampleJawsMako false false 0) = false :=
  ⟨rfl,
    (transformBrush_identity_iff exampleJawsMako false false 0
      (IDOMBrush.Masked 9 0 0 (IDOMBrush.SolidColor 8 0
        (IDOMColor.createSolidCmyk 7 FloatVal.zero FloatVal.zero FloatVal.zero FloatVal.one)))
      10 _ 10 (by decide) (by decide) rfl).1.1 rfl⟩

theorem scanLoop8Examined_fst (s xs : List Nat) (rb : Bool) :
    (scanLoop8Examined s xs rb).1 = scanLoop8 s xs rb := by
  induction xs with
  | nil => rfl
  | cons x xs ih =>
    rw [scanLoop8Examined, scanLoop8]
    split
    · exact ih
    · split
      · rfl
      · exact ih

theorem scanLoop16Examined_fst (s xs : List Nat) (rb : Bool) :
    (scanLoop16Examined s xs rb).1 = scanLoop16 s xs rb := by
  induction xs with
  | nil => rfl
  | cons x xs ih =>
    rw [scanLoop16Examined, scanLoop16]
    split
    · exact ih
    · split
      · rfl
      · exact ih

/-- The outer loop of the recorded scan reads every row it is given and computes the
flag of the plain scan. -/
theorem scanTrace_foldl (loop : Nat → Bool → Bool × List Nat) (l : List Nat) (t : ScanTrace) :
    (l.foldl (fun trace y =>
        { richBlack := (loop y trace.richBlack).1, reads := trace.reads ++ [y],
          examined := trace.examined ++ (loop y trace.richBlack).2.map (fun x => (y, x)) })
      t).reads = t.reads ++ l ∧
    (l.foldl (fun trace y =>
        { richBlack := (loop y trace.richBlack).1, reads := trace.reads ++ [y],
          examined := trace.examined ++ (loop y trace.richBlack).2.map (fun x => (y, x)) })
      t).richBlack = l.foldl (fun rb y => (loop y rb).1) t.richBlack := by
  induction l generalizing t with
  | nil => simp
  | cons y l ih =>
    simp only [List.foldl_cons]
    obtain ⟨h1, h2⟩ := ih
      { richBlack := (loop y t.richBlack).1, reads := t.reads ++ [y],
        examined := t.examined ++ (loop y t.richBlack).2.map (fun x => (y, x)) }
    exact ⟨by rw [h1]; simp, h2⟩

/-- The recorded scan computes the flag of `scanPass`, raises what `scanPass` raises,
and reads all the rows of the frame. -/
theorem scanPassTrace_spec (f : IImageFrame) (nc : Nat) :
    (∀ e, scanPass f nc = .error e → scanPassTrace f nc = .error e) ∧
    (∀ rb, scanPass f nc = .ok rb →
      ∃ t, scanPassTrace f nc = .ok t ∧ t.richBlack = rb ∧ t.reads = List.range f.height) := by
  unfold scanPass scanPassTrace
  simp only [IImageFrame.getBPS, IImageFrame.getHeight, IImageFrame.getRawBytesPerRow]
  by_cases h8 : f.bps = 8
  · have hne : (f.bps != 8) = false := by simp [h8]
    simp only [hne, Bool.false_eq_true, if_false]
    refine ⟨fun e h => Except.noConfusion h, fun rb h => ⟨_, rfl, ?_, ?_⟩⟩
    · simp only [Except.ok.injEq] at h
      rw [← h]
      have := (scanTrace_foldl
        (fun y rb => scanLoop8Examined (f.readScanLine y f.rawBytesPerRow)
          (loopIndices f.rawBytesPerRow nc) rb)
        (List.range f.height) { richBlack := false, reads := [], examined := [] }).2
      exact this.trans (by simp only [scanLoop8Examined_fst])
    · have := (scanTrace_foldl
        (fun y rb => scanLoop8Examined (f.readScanLine y f.rawBytesPerRow)
          (loopIndices f.rawBytesPerRow nc) rb)
        (List.range f.height) { richBlack := false, reads := [], examined := [] }).1
      simpa using this
  · have hne : (f.bps != 8) = true := by simp [h8]
    simp only [hne, if_true]
    by_cases h16 : f.bps = 16
    · have hne2 : (f.bps != 16) = false := by simp [h16]
      simp only [hne2, Bool.false_eq_true, if_false]
      refine ⟨fun e h => Except.noConfusion h, fun rb h => ⟨_, rfl, ?_, ?_⟩⟩
      · simp only [Except.ok.injEq] at h
        rw [← h]
        have := (scanTrace_foldl
          (fun y rb => scanLoop16Examined (f.readScanLine y f.rawBytesPerRow)
            (loopIndices (f.rawBytesPerRow / 2) nc) rb)
          (List.range f.height) { richBlack := false, reads := [], examined := [] }).2
        exact this.trans (by simp only [scanLoop16Examined_fst])
      · have := (scanTrace_foldl
          (fun y rb => scanLoop16Examined (f.readScanLine y f.rawBytesPerRow)
            (loopIndices (f.rawBytesPerRow / 2) nc) rb)
          (List.range f.height) { richBlack := false, reads := [], examined := [] }).1
        simpa using this
    · have hne2 : (f.bps != 16) = true := by simp [h16]
      simp only [hne2, if_true]
      refine ⟨fun e h => ?_, fun rb h => Except.noConfusion h⟩
      simp only [Except.error.injEq] at h
      rw [h]

/-- C19, the code at a failing input and in general: the scan of a frame at depth 8 or
16 reads every row of the frame, whatever the pixels (and computes the flag of
`scanPass`).  For the 8-bit image of two rows of one pixel, (255,0,0,255) and (0,0,0,0),
the first rich-black pixel is in row 0 and the scan makes two reads, of the rows 0 and
1, and examines the pixel of row 1 after it. -/
theorem scanPassTrace_reads_all_rows :
    (∀ (f : IImageFrame) (nc : Nat) (rb : Bool), scanPass f nc = .ok rb →
      ∃ t, scanPassTrace f nc = .ok t ∧ t.richBlack = rb ∧ t.reads = List.range f.height) ∧
    (exampleImage 8 1 [[255, 0, 0, 255], [0, 0, 0, 0]]).frame.pixelIsRichBlack 0 0 = true ∧
    scanPassTrace (exampleImage 8 1 [[255, 0, 0, 255], [0, 0, 0, 0]]).frame 4 =
      .ok { richBlack := true, reads := [0, 1], examined := [(0, 0), (1, 0)] } := by
  refine ⟨fun f nc rb h => (scanPassTrace_spec f nc).2 rb h, by decide, rfl⟩

theorem spotLoop16_length (s : List Nat) (nc : Nat) (xs out : List Nat) :
    (spotLoop16 s nc xs out).length = out.length := by
  induction xs generalizing out with
  | nil => simp [spotLoop16]
  | cons x xs ih =>
    rw [spotLoop16]
    split
    · rw [ih, length_setU8]
    · rw [ih]

/-- C20, the code at a failing input and in general: in SpotDeviceN mode every written
row holds `width` bytes at depth 8 and `width * 2` bytes (modulo `2 ^ 32`) otherwise,
one sample for each pixel, whatever the extra channel of the frame.  For the 8-bit
image with an extra channel and the pixels (255,0,0,255,77) and (0,0,0,0,88) the new
raster is created with the extra channel kind of the source, and the written row is the
two bytes 255, 0: the ink samples alone, not four samples, and the extra-channel samples
77 and 88 are not in it. -/
theorem rewritePass_spot_failing_input :
    (∀ (self : CCmykBlackConverterImplementation) (f : IImageFrame) (nc y : Nat),
      self.m_useDeviceN = true → y < f.height →
      ((rewritePass self f nc).getD y []).length =
        if f.bps = 8 then f.width else f.width * 2 % 2 ^ 32) ∧
    (∃ out,
      transformImage (CCmykBlackConverterImplementation.new exampleJawsMako true false 0)
          (exampleImageExtra 8 2 [[255, 0, 0, 255, 77, 0, 0, 0, 0, 88]]) 10 = .ok (out, 11) ∧
      out.frame.extraChannelType = eImageExtraChannelType.eIECOther 1 ∧
      out.frame.width = 2 ∧
      out.frame.scanLines = [[255, 0]] ∧
      (out.frame.scanLines.getD 0 []).length ≠ 2 * 2) := by
  refine ⟨?_, ⟨_, rfl, rfl, rfl, rfl, by decide⟩⟩
  intro self f nc y hmode hy
  unfold rewritePass
  simp only [hmode, if_true, IImageFrame.getBPS, IImageFrame.getWidth, IImageFrame.getHeight,
    IImageFrame.getRawBytesPerRow]
  by_cases h8 : f.bps = 8
  · have hne : (f.bps != 8) = false := by simp [h8]
    rw [hne, if_neg Bool.false_ne_true, if_pos h8, getD_map_range _ _ _ _ hy,
      spotLoop8_length]
    simp
  · have hne : (f.bps != 8) = true := by simp [h8]
    rw [hne, if_pos rfl, if_neg h8, getD_map_range _ _ _ _ hy, spotLoop16_length]
    simp

/-- C22: for a path node whose fill and stroke `transformBrush` accepts and rewrites
both, with the overprint not suppressed, the property "DeviceParams" is MODE|FILL = 3
after the fill handling and MODE|STROKE = 5 after the fill and stroke handling of
`transformPath`: the stroke handling overwrites the property, the value is not
MODE|FILL|STROKE = 7 and the FILL bit is not set in it. -/
theorem transformPath_deviceParams_both (self : CCmykBlackConverterImplementation)
    (generic : IImplementation) (path : IDOMPathNode) (changed : Bool)
    (state : CTransformState) (next : Nat) (newFill : Option IDOMBrush) (n1 : Nat)
    (newStroke : Option IDOMBrush) (n2 : Nat)
    (hfill : transformBrush self path.fill next = .ok (newFill, n1))
    (hstroke : transformBrush self path.stroke n1 = .ok (newStroke, n2))
    (hfillNew : brushPtrNe path.fill newFill = true)
    (hstrokeNew : brushPtrNe path.stroke newStroke = true)
    (hov : self.m_doNotApplyOverprint = false) :
    getProperty (transformFill self path next).node.properties "DeviceParams"
      = some (PValue.int 3) ∧
    getProperty (transformPath self generic path changed state next).node.properties
      "DeviceParams" = some (PValue.int (Int.ofNat (OVERPRINT_MODE ||| OVERPRINT_STROKE))) ∧
    Int.ofNat (OVERPRINT_MODE ||| OVERPRINT_STROKE) = 5 ∧
    (OVERPRINT_MODE ||| OVERPRINT_STROKE) &&& OVERPRINT_FILL = 0 ∧
    getProperty (transformPath self generic path changed state next).node.properties
      "DeviceParams"
      ≠ some (PValue.int (Int.ofNat (OVERPRINT_MODE ||| OVERPRINT_FILL ||| OVERPRINT_STROKE))) ∧
    (transformPath self generic path changed state next).node.fill = newFill ∧
    (transformPath self generic path changed state next).node.stroke = newStroke := by
  obtain ⟨_, _, hf3, _, _, _, hfnew⟩ := transformFill_path self path next newFill n1 hfill
  have hstroke2 : transformBrush self (transformFill self path next).node.stroke n1
      = .ok (newStroke, n2) := by rw [hf3]; exact hstroke
  obtain ⟨_, _, hsfill, _, _, _, hsnew⟩ := transformStroke_path self _ n1 newStroke n2 hstroke2
  rw [hf3] at hsnew
  have hnode := (transformPath_eq self generic path changed state next newFill n1 newStroke n2
    hfill hstroke).1
  have h5 : getProperty (transformPath self generic path changed state next).node.properties
      "DeviceParams" = some (PValue.int 5) := by
    rw [hnode, (hsnew hstrokeNew).2.1 hov, getProperty_setProperty]
  refine ⟨?_, h5, rfl, rfl, ?_, ?_, ?_⟩
  · rw [(hfnew hfillNew).2.1 hov, getProperty_setProperty]
  · rw [h5]
    decide
  · rw [hnode, hsfill]
    exact (hfnew hfillNew).1
  · rw [hnode]
    exact (hsnew hstrokeNew).1

/-- C22, at a path whose fill and stroke are both rich-black SolidColor brushes: the
property is 5 after `transformPath`. -/
theorem transformPath_deviceParams_both_witness :
    getProperty
      (transformPath (CCmykBlackConverterImplementation.new exampleJawsMako true false 0)
        exampleImplementation
        (examplePath (some (IDOMBrush.SolidColor 8 0 cyanBlackExample))
          (some (IDOMBrush.SolidColor 9 0 cyanBlackExample))) false
        { code := 0 } 30).node.properties "DeviceParams" = some (PValue.int 5) :=
  (transformPath_deviceParams_both
    (CCmykBlackConverterImplementation.new exampleJawsMako true false 0)
    exampleImplementation
    (examplePath (some (IDOMBrush.SolidColor 8 0 cyanBlackExample))
      (some (IDOMBrush.SolidColor 9 0 cyanBlackExample)))
    false { code := 0 } 30 _ _ _ _ rfl rfl (by decide) (by decide) rfl).2.1

/-- A frame on which the scan finds no rich black has no rich-black pixel, whatever the
size of its rows: a pixel outside the bytes of a row reads as 0. -/
theorem IImageFrame.hasRichBlackPixel_of_scanPass (f : IImageFrame)
    (h : scanPass f f.numChannels = .ok false) : f.hasRichBlackPixel = false := by
  rw [scanPass_eq] at h
  have hpos := f.numChannels_pos
  rw [IImageFrame.hasRichBlackPixel_eq_false_iff]
  intro y hy i _
  have hmod : i * f.numChannels % f.numChannels = 0 := Nat.mul_mod_left _ _
  by_cases h8 : f.bps = 8
  · rw [if_pos h8] at h
    simp only [Except.ok.injEq] at h
    rw [List.any_eq_false] at h
    have hrow := h y (List.mem_range.2 hy)
    simp only [Bool.not_eq_true] at hrow
    rw [List.any_eq_false] at hrow
    simp only [IImageFrame.pixelIsRichBlack, rowPixelIsRichBlack, rowSample, maxSample, h8,
      if_true]
    by_cases hx : i * f.numChannels < f.rawBytesPerRow
    · have := hrow _ ((mem_loopIndices _ _ _ hpos).2 ⟨hx, hmod⟩)
      simpa using this
    · have hK : getU8 (f.row y) (i * f.numChannels + 3) = 0 := by
        unfold getU8 IImageFrame.row
        rw [IImageFrame.readScanLine_getD, if_neg (by omega)]
      simp [hK]
  · by_cases h16 : f.bps = 16
    · rw [if_neg h8, if_pos h16] at h
      simp only [Except.ok.injEq] at h
      rw [List.any_eq_false] at h
      have hrow := h y (List.mem_range.2 hy)
      simp only [Bool.not_eq_true] at hrow
      rw [List.any_eq_false] at hrow
      simp only [IImageFrame.pixelIsRichBlack, rowPixelIsRichBlack, rowSample, maxSample, h8,
        if_false]
      by_cases hx : i * f.numChannels < f.rawBytesPerRow / 2
      · have := hrow _ ((mem_loopIndices _ _ _ hpos).2 ⟨hx, hmod⟩)
        simpa using this
      · have hK : getU16 (f.row y) (i * f.numChannels + 3) = 0 := by
          unfold getU16 IImageFrame.row
          rw [IImageFrame.readScanLine_getD, IImageFrame.readScanLine_getD,
            if_neg (by omega), if_neg (by omega)]
        simp [hK]
    · rw [if_neg h8, if_neg h16] at h
      exact Except.noConfusion h

/-- An image returned by `transformImage` is not a Device CMYK image with a rich-black
pixel: an image returned as it is was scanned without a find, a raster written in
DirectCMYK mode has C, M, Y at 0 wherever K is the largest sample, and a raster written
in SpotDeviceN mode is not Device CMYK. -/
theorem transformImage_no_richBlack (self : CCmykBlackConverterImplementation)
    (hcv : self.m_useDeviceN = true → self.m_flatBlackColorSpace ≠ IDOMColorSpace.DeviceCMYK)
    (img : IDOMImage) (next : Nat) (r : IDOMImage) (n2 : Nat)
    (h : transformImage self img next = .ok (r, n2)) :
    (r.frame.colorSpace.isDeviceCMYK && (normalizedFrame self r).hasRichBlackPixel) = false := by
  have hnot : ∀ i : IDOMImage, i.frame.colorSpace ≠ IDOMColorSpace.DeviceCMYK →
      i.frame.colorSpace.isDeviceCMYK = false := by
    intro i hi
    cases hc : i.frame.colorSpace.isDeviceCMYK
    · rfl
    · exact absurd ((IDOMColorSpace.isDeviceCMYK_iff _).1 hc) hi
  by_cases hcs : img.frame.colorSpace = IDOMColorSpace.DeviceCMYK
  · by_cases hs : img.frame.bps = 1 ∨ img.frame.bps = 2 ∨ img.frame.bps = 4 ∨ img.frame.bps = 8
        ∨ img.frame.bps = 12 ∨ img.frame.bps = 16
    · obtain ⟨n1, hle, h1⟩ := transformImage_cmyk self img next hcs hs
      rw [h1] at h
      cases hsp : scanPass (normalizedFrame self img) (normalizedFrame self img).numChannels with
      | error e =>
        rw [hsp] at h
        exact Except.noConfusion h
      | ok rb =>
        rw [hsp] at h
        cases rb with
        | false =>
          simp only [Bool.not_false, if_true, Except.ok.injEq, Prod.mk.injEq] at h
          rw [← h.1, IImageFrame.hasRichBlackPixel_of_scanPass _ hsp, Bool.and_false]
        | true =>
          simp only [Bool.not_true, Bool.false_eq_true, if_false, Except.ok.injEq,
            Prod.mk.injEq] at h
          have hr := h.1.symm
          by_cases hfc : self.m_flatBlackColorSpace = IDOMColorSpace.DeviceCMYK
          · have hmode : self.m_useDeviceN = false := by
              cases hm : self.m_useDeviceN
              · rfl
              · exact absurd hfc (hcv hm)
            have hb := scanPass_ok_bps _ _ _ hsp
            have hrb : r.frame.bps = (normalizedFrame self img).bps := by rw [hr]; rfl
            have hrb2 : r.frame.bps = 8 ∨ r.frame.bps = 16 := by rw [hrb]; exact hb
            have hnf : normalizedFrame self r = r.frame := normalizedFrame_of_bps self r hrb2
            have hscan : scanPass r.frame r.frame.numChannels = .ok false := by
              apply scanPass_rewritten self (normalizedFrame self img) r.frame hmode hb hrb
              · rw [hr]; rfl
              · rw [hr]; rfl
              · rw [hr]; rfl
            rw [hnf, IImageFrame.hasRichBlackPixel_of_scanPass _ hscan, Bool.and_false]
          · have hrcs : r.frame.colorSpace ≠ IDOMColorSpace.DeviceCMYK := by
              rw [hr]
              exact hfc
            rw [hnot r hrcs, Bool.false_and]
    · rw [transformImage_unsupported self img next hcs hs] at h
      exact Except.noConfusion h
  · rw [transformImage_not_cmyk self img next hcs] at h
    simp only [Except.ok.injEq, Prod.mk.injEq] at h
    rw [← h.1, hnot img hcs, Bool.false_and]

/-- A colour returned by `transformColor` at another address than its argument is not
rich black: it is the shared flat black. -/
theorem transformColor_not_richBlack_of_ne (self : CCmykBlackConverterImplementation)
    (hfb : colorIsCmykRichBlack self.m_flatBlack = false) (c : IDOMColor)
    (h : (c.addr != (transformColor self c).addr) = true) :
    colorIsCmykRichBlack (transformColor self c) = false := by
  cases hr : colorIsCmykRichBlack c
  · simp [transformColor, hr] at h
  · simp [transformColor, hr, hfb]

/-- A brush returned by `transformBrush` on a brush object holds nothing that the
converter converts. -/
theorem transformBrushObject_no_richBlack (self : CCmykBlackConverterImplementation)
    (hfb : colorIsCmykRichBlack self.m_flatBlack = false)
    (hcv : self.m_useDeviceN = true → self.m_flatBlackColorSpace ≠ IDOMColorSpace.DeviceCMYK)
    (b : IDOMBrush) :
    ∀ (next : Nat) (r : IDOMBrush) (n2 : Nat), b.allocatedBelow next = true →
      b.coloursConsistent self = true →
      transformBrushObject self b next = .ok (r, n2) →
      r.needsConversion self = false := by
  induction b with
  | SolidColor addr attrs color =>
    intro next r n2 _ hcons h
    simp only [IDOMBrush.coloursConsistent, decide_eq_true_eq] at hcons
    simp only [transformBrushObject] at h
    split at h
    · rename_i hne
      simp only [Except.ok.injEq, Prod.mk.injEq] at h
      rw [← h.1]
      exact transformColor_not_richBlack_of_ne self hfb color hne
    · rename_i heq
      simp only [Except.ok.injEq, Prod.mk.injEq] at h
      rw [← h.1]
      rw [transformColor_addr_ne_iff self hfb color hcons] at heq
      simpa [IDOMBrush.needsConversion] using heq
  | Image addr attrs img =>
    intro next r n2 hfresh _ h
    simp only [IDOMBrush.allocatedBelow, Bool.and_eq_true, decide_eq_true_eq] at hfresh
    simp only [transformBrushObject] at h
    cases hti : transformImage self img next with
    | error e =>
      rw [hti] at h
      exact Except.noConfusion h
    | ok p =>
      obtain ⟨img2, n1⟩ := p
      rw [hti] at h
      have hno := transformImage_no_richBlack self hcv img next img2 n1 hti
      simp only at h
      split at h
      · simp only [Except.ok.injEq, Prod.mk.injEq] at h
        rw [← h.1]
        exact hno
      · rename_i heq
        simp only [Except.ok.injEq, Prod.mk.injEq] at h
        rw [← h.1]
        have heq2 : img.addr = img2.addr := by simpa using heq
        have himg : img2 = img := by
          rcases (transformImage_alloc self img next img2 n1 hti).2 with h1 | h1
          · exact h1
          · omega
        rw [himg] at hno
        exact hno
  | Masked addr attrs mask inner ih =>
    intro next r n2 hfresh hcons h
    simp only [IDOMBrush.allocatedBelow, Bool.and_eq_true, decide_eq_true_eq] at hfresh
    simp only [IDOMBrush.coloursConsistent] at hcons
    simp only [transformBrushObject] at h
    cases hti : transformBrushObject self inner next with
    | error e =>
      rw [hti] at h
      exact Except.noConfusion h
    | ok p =>
      obtain ⟨inner2, n1⟩ := p
      rw [hti] at h
      have hno := ih next inner2 n1 hfresh.2 hcons hti
      simp only at h
      split at h
      · simp only [Except.ok.injEq, Prod.mk.injEq] at h
        rw [← h.1]
        exact hno
      · rename_i heq
        simp only [Except.ok.injEq, Prod.mk.injEq] at h
        rw [← h.1]
        have heq2 : inner.addr = inner2.addr := by simpa using heq
        have hinner : inner2 = inner := by
          rcases (transformBrushObject_alloc self inner next inner2 n1 hti).2 with h1 | h1
          · exact h1
          · have := inner.addr_lt_of_allocatedBelow next hfresh.2
            omega
        rw [hinner] at hno
        exact hno
  | TilingPattern addr attrs paintType color =>
    intro next r n2 _ hcons h
    simp only [IDOMBrush.coloursConsistent, decide_eq_true_eq] at hcons
    simp only [transformBrushObject] at h
    split at h
    · split at h
      · rename_i hne
        simp only [Except.ok.injEq, Prod.mk.injEq] at h
        rw [← h.1]
        simp only [IDOMBrush.needsConversion,
          transformColor_not_richBlack_of_ne self hfb color hne, Bool.and_false]
      · rename_i heq
        simp only [Except.ok.injEq, Prod.mk.injEq] at h
        rw [← h.1]
        rw [transformColor_addr_ne_iff self hfb color hcons] at heq
        have hc : colorIsCmykRichBlack color = false := by simpa using heq
        simp only [IDOMBrush.needsConversion, hc, Bool.and_false]
    · rename_i hpt
      simp only [Except.ok.injEq, Prod.mk.injEq] at h
      rw [← h.1]
      have hp : (paintType == 2) = false := by simpa using hpt
      simp only [IDOMBrush.needsConversion, hp, Bool.false_and]
  | Other addr attrs brushType =>
    intro next r n2 _ _ h
    simp only [transformBrushObject, Except.ok.injEq, Prod.mk.injEq] at h
    rw [← h.1]
    rfl

/-- C21: in both modes, when `transformBrush` succeeds on a brush whose objects were
allocated before the call and whose colours are objects of a consistent heap, the
result holds nothing that the converter converts: through Masked brushes, it is not a
SolidColor with a rich-black colour, not a TilingPattern of paint type 2 with a
rich-black pattern colour, and not an Image brush whose Device CMYK image has, in its
normalized frame, a pixel with K the largest sample and one of C, M, Y not 0. -/
theorem transformBrush_no_richBlack (jawsMako : IJawsMako)
    (useDeviceN doNotApplyOverprint : Bool) (flatAddr : Nat) (b : Option IDOMBrush)
    (next : Nat) (r : Option IDOMBrush) (n2 : Nat)
    (hfresh : ∀ brush, b = some brush → brush.allocatedBelow next = true)
    (hcons : ∀ brush, b = some brush → brush.coloursConsistent
      (CCmykBlackConverterImplementation.new jawsMako useDeviceN doNotApplyOverprint flatAddr)
      = true)
    (h : transformBrush
        (CCmykBlackConverterImplementation.new jawsMako useDeviceN doNotApplyOverprint flatAddr)
        b next = .ok (r, n2)) :
    ∀ rb, r = some rb →
      rb.needsConversion
        (CCmykBlackConverterImplementation.new jawsMako useDeviceN doNotApplyOverprint flatAddr)
        = false ∧
      (∀ addr attrs color, rb = IDOMBrush.SolidColor addr attrs color →
        colorIsCmykRichBlack color = false) ∧
      (∀ addr attrs paintType color,
        rb = IDOMBrush.TilingPattern addr attrs paintType color → paintType = 2 →
        colorIsCmykRichBlack color = false) ∧
      (∀ addr attrs image, rb = IDOMBrush.Image addr attrs image →
        image.frame.colorSpace = IDOMColorSpace.DeviceCMYK →
        ∀ y i,
          y < (normalizedFrame (CCmykBlackConverterImplementation.new jawsMako useDeviceN
            doNotApplyOverprint flatAddr) image).height →
          i < (normalizedFrame (CCmykBlackConverterImplementation.new jawsMako useDeviceN
            doNotApplyOverprint flatAddr) image).width →
          (normalizedFrame (CCmykBlackConverterImplementation.new jawsMako useDeviceN
            doNotApplyOverprint flatAddr) image).pixelIsRichBlack y i = false) ∧
      (∀ addr attrs mask inner, rb = IDOMBrush.Masked addr attrs mask inner →
        inner.needsConversion
          (CCmykBlackConverterImplementation.new jawsMako useDeviceN doNotApplyOverprint
            flatAddr) = false) := by
  intro rb hrb
  have hno : rb.needsConversion
      (CCmykBlackConverterImplementation.new jawsMako useDeviceN doNotApplyOverprint flatAddr)
      = false := by
    cases b with
    | none =>
      simp only [transformBrush, Except.ok.injEq, Prod.mk.injEq] at h
      rw [← h.1] at hrb
      exact Option.noConfusion hrb
    | some brush =>
      simp only [transformBrush] at h
      cases ht : transformBrushObject
          (CCmykBlackConverterImplementation.new jawsMako useDeviceN doNotApplyOverprint
            flatAddr) brush next with
      | error e =>
        rw [ht] at h
        exact Except.noConfusion h
      | ok q =>
        obtain ⟨r2, n1⟩ := q
        rw [ht] at h
        simp only [Except.ok.injEq, Prod.mk.injEq] at h
        rw [← h.1, Option.some.injEq] at hrb
        rw [← hrb]
        exact transformBrushObject_no_richBlack _
          (flatBlack_not_richBlack jawsMako useDeviceN doNotApplyOverprint flatAddr)
          (new_flatBlackColorSpace jawsMako useDeviceN doNotApplyOverprint flatAddr)
          brush next r2 n1 (hfresh brush rfl) (hcons brush rfl) ht
  refine ⟨hno, ?_, ?_, ?_, ?_⟩
  · intro addr attrs color he
    rw [he] at hno
    exact hno
  · intro addr attrs paintType color he hpt
    rw [he, hpt] at hno
    simpa [IDOMBrush.needsConversion] using hno
  · intro addr attrs image he hcs y i hy hi
    rw [he] at hno
    simp only [IDOMBrush.needsConversion, hcs, IDOMColorSpace.isDeviceCMYK, Bool.true_and] at hno
    exact (IImageFrame.hasRichBlackPixel_eq_false_iff _).1 hno y hy i hi
  · intro addr attrs mask inner he
    rw [he] at hno
    exact hno

/-- C21, at a Masked brush over an Image brush whose 8-bit image has the rich-black
pixel (9,0,0,255), in DirectCMYK mode: the brush holds rich black and the result of
`transformBrush` holds none. -/
theorem transformBrush_no_richBlack_witness :
    ∃ r n2,
      transformBrush (CCmykBlackConverterImplementation.new exampleJawsMako false false 0)
          (some (IDOMBrush.Masked 3 0 0
            (IDOMBrush.Image 2 0 (exampleImage 8 2 [[9, 0, 0, 255, 1, 2, 3, 4]])))) 10 =
        .ok (some r, n2) ∧
      (IDOMBrush.Masked 3 0 0
          (IDOMBrush.Image 2 0 (exampleImage 8 2 [[9, 0, 0, 255, 1, 2, 3, 4]]))).needsConversion
        (CCmykBlackConverterImplementation.new exampleJawsMako false false 0) = true ∧
      r.needsConversion (CCmykBlackConverterImplementation.new exampleJawsMako false false 0)
        = false :=
  ⟨_, _, rfl, by decide,
    (transformBrush_no_richBlack exampleJawsMako false false 0
      (some (IDOMBrush.Masked 3 0 0
        (IDOMBrush.Image 2 0 (exampleImage 8 2 [[9, 0, 0, 255, 1, 2, 3, 4]])))) 10 _ _
      (fun brush hb => by cases hb; decide) (fun brush hb => by cases hb; decide) rfl _ rfl).1⟩

/-- C23: for a frame that holds no padding (the rows of the normalized frame that
`transformImage` hands to its loops hold exactly `width * numChannels` samples), with
`numChannels` 4 or 5: each value `x` of the counter of the scan and rewrite loops has
`x + 3` below the number of samples of the row, so that the bytes of the samples `x`,
`x + 1`, `x + 2`, `x + 3` lie in the buffer read by `readScanLine`, and `x / numChannels`
is below `width`, which is the size of the destination buffer of the 8-bit DeviceN
rewrite and, for a row size that fits 32 bits, below the size of the destination buffer
of the 16-bit DeviceN rewrite. -/
theorem transformImage_index_bounds (f : IImageFrame) (hu : f.unpadded) :
    (f.numChannels = 4 ∨ f.numChannels = 5) ∧
    (f.bps = 8 → ∀ y x, x ∈ loopIndices f.rawBytesPerRow f.numChannels →
      x + 3 < f.width * f.numChannels ∧
      x + 3 < (f.readScanLine y f.rawBytesPerRow).length ∧
      x / f.numChannels < f.width ∧
      x / f.numChannels < (List.replicate f.width 0).length) ∧
    (f.bps = 16 → ∀ y x, x ∈ loopIndices (f.rawBytesPerRow / 2) f.numChannels →
      x + 3 < f.width * f.numChannels ∧
      2 * (x + 3) + 1 < (f.readScanLine y f.rawBytesPerRow).length ∧
      x / f.numChannels < f.width ∧
      (f.rawBytesPerRow < 2 ^ 32 →
        x / f.numChannels < (List.replicate (f.width * 2 % 2 ^ 32) 0).length)) := by
  have hnc := f.numChannels_cases
  have hpos := f.numChannels_pos
  unfold IImageFrame.unpadded at hu
  refine ⟨hnc, ?_, ?_⟩
  · intro h8 y x hx
    rw [h8] at hu
    have hx2 := (mem_loopIndices _ _ x hpos).1 hx
    simp only [IImageFrame.readScanLine, List.length_map, List.length_range,
      List.length_replicate]
    rcases hnc with h4 | h5
    · rw [h4] at hu hx2 ⊢
      omega
    · rw [h5] at hu hx2 ⊢
      omega
  · intro h16 y x hx
    rw [h16] at hu
    have hx2 := (mem_loopIndices _ _ x hpos).1 hx
    simp only [IImageFrame.readScanLine, List.length_map, List.length_range,
      List.length_replicate]
    rcases hnc with h4 | h5
    · rw [h4] at hu hx2 ⊢
      omega
    · rw [h5] at hu hx2 ⊢
      omega

/-- C23, at the 16-bit frame of two pixels with an extra channel: the counter takes the
values 0 and 5, and each of them is in bounds. -/
theorem transformImage_index_bounds_witness :
    loopIndices ((exampleImageExtra 16 2 []).frame.rawBytesPerRow / 2)
        (exampleImageExtra 16 2 []).frame.numChannels = [0, 5] ∧
    ∀ y x, x ∈ loopIndices ((exampleImageExtra 16 2 []).frame.rawBytesPerRow / 2)
        (exampleImageExtra 16 2 []).frame.numChannels →
      x + 3 < (exampleImageExtra 16 2 []).frame.width
          * (exampleImageExtra 16 2 []).frame.numChannels ∧
      2 * (x + 3) + 1 < ((exampleImageExtra 16 2 []).frame.readScanLine y
        (exampleImageExtra 16 2 []).frame.rawBytesPerRow).length ∧
      x / (exampleImageExtra 16 2 []).frame.numChannels
        < (exampleImageExtra 16 2 []).frame.width ∧
      ((exampleImageExtra 16 2 []).frame.rawBytesPerRow < 2 ^ 32 →
        x / (exampleImageExtra 16 2 []).frame.numChannels
          < (List.replicate ((exampleImageExtra 16 2 []).frame.width * 2 % 2 ^ 32) 0).length) :=
  ⟨by decide,
    (transformImage_index_bounds (exampleImageExtra 16 2 []).frame (by decide)).2.2 rfl⟩

end CmykBlackConverter
